import Mathlib

/-!
# GraphicViewPortClass (common/graphicsviewport.cpp)

A shallow embedding of the viewport code of `common/graphicsviewport.cpp`.

* C++ `int` and `intptr_t` values are integers of `Int`.  The arithmetic of the
  source is signed, so a computation whose exact result leaves the range of the
  machine type has no defined behaviour in C++; the embedding describes every
  execution in which that does not happen.  The sums `x + w` and `y + h` of
  `Attach`, both of whose operands come from the caller, are the exception: they
  are the sums as the machine computes them, reduced to 32 bits (`intAdd`).
* Objects live in a `Heap`, a map from addresses to object states, so that the
  pointer comparisons of the source (`this == Get_Graphic_Buffer()`,
  `this != GraphicBuff`) are comparisons of addresses.  Address `0` is `nullptr`.
* A `GraphicBufferClass` is a `GraphicViewPortClass` (it derives from it); only
  the inherited fields are read by the code embedded here.
* Pixel data lives in a byte-addressed `Memory`; the raw routines
  (`Linear_Blit_To_Linear`, `Linear_Scale_To_Linear`) return `none` where the
  source has no defined result (a loop that cannot end, a negative `memmove`
  length, a division by 0).
* The drawing operations that lock, unlock or call the hardware work on a
  `World`: the objects, the memory and the list of calls made on the
  collaborators that are outside this file.
* The raw drawing routines `Buffer_...` (drawbuff.h, drawmisc.h) are defined
  outside the sources: a `DrawBuff` gives each of them as a function, and every
  call of one is recorded in the world with its arguments.
* `unsigned int` arithmetic (`Fat_Put_Pixel`) is arithmetic modulo 2^32, a
  conversion between `int` and `unsigned int` keeps the bit pattern, and pointers
  and `size_t` are 64 bits wide.
* The global pointer `LogicPage` is state that `Set_Logic_Page` takes and gives
  back.
-/

/-- The data members of `GraphicViewPortClass`, in the order of the constructor's
initialiser list.  `GraphicBuff` is the address of the backing surface. -/
structure GraphicViewPortClass where
  Offset : Int
  Width : Int
  Height : Int
  XAdd : Int
  XPos : Int
  YPos : Int
  Pitch : Int
  GraphicBuff : Nat
  IsHardware : Bool
  LockCount : Int
deriving DecidableEq, Repr

/-- The default constructor `GraphicViewPortClass::GraphicViewPortClass()`:
every member zero, `GraphicBuff(nullptr)`, `IsHardware(false)`. -/
instance : Inhabited GraphicViewPortClass :=
  ⟨{ Offset := 0, Width := 0, Height := 0, XAdd := 0, XPos := 0, YPos := 0,
     Pitch := 0, GraphicBuff := 0, IsHardware := false, LockCount := 0 }⟩

/-- The object store: the state of the viewport (or surface) object at each address. -/
abbrev Heap := Nat → GraphicViewPortClass

/-- Overwrite the object at address `p`. -/
def Heap.set (m : Heap) (p : Nat) (v : GraphicViewPortClass) : Heap :=
  fun q => if q = p then v else m q

/-- The sum of two `int` values as the machine computes it: the exact sum reduced
to the 32-bit two's-complement range, from -2147483648 to 2147483647. -/
def intAdd (a b : Int) : Int := (a + b + 2147483648) % 4294967296 - 2147483648

namespace GraphicViewPortClass

/-- Accessor `Get_Offset()`. -/
def Get_Offset (v : GraphicViewPortClass) : Int := v.Offset
/-- Accessor `Get_Width()`. -/
def Get_Width (v : GraphicViewPortClass) : Int := v.Width
/-- Accessor `Get_Height()`. -/
def Get_Height (v : GraphicViewPortClass) : Int := v.Height
/-- Accessor `Get_XAdd()`. -/
def Get_XAdd (v : GraphicViewPortClass) : Int := v.XAdd
/-- Accessor `Get_XPos()`. -/
def Get_XPos (v : GraphicViewPortClass) : Int := v.XPos
/-- Accessor `Get_YPos()`. -/
def Get_YPos (v : GraphicViewPortClass) : Int := v.YPos
/-- Accessor `Get_Pitch()`. -/
def Get_Pitch (v : GraphicViewPortClass) : Int := v.Pitch
/-- Accessor `Get_Graphic_Buffer()`. -/
def Get_Graphic_Buffer (v : GraphicViewPortClass) : Nat := v.GraphicBuff

/-- `GraphicViewPortClass::Attach(gbuffer, x, y, w, h)` called on the object at
address `this`.  Every read of `gbuffer` precedes the write of the member it
reads, so the new state is computed from the state before the call.  The sums
`x + w` and `y + h` of the two size tests are `int` sums (`intAdd`): past
2147483647 they come out negative and the test does not fire. -/
def Attach (m : Heap) (this gbuffer : Nat) (x y w h : Int) : Heap :=
  if this = (m this).Get_Graphic_Buffer then m
  else
    let g := m gbuffer
    let x := if x < 0 then 0 else x
    let x := if x ≥ g.Get_Width then g.Get_Width - 1 else x
    let y := if y < 0 then 0 else y
    let y := if y ≥ g.Get_Height then g.Get_Height - 1 else y
    let w := if intAdd x w > g.Get_Width then g.Get_Width - x else w
    let h := if intAdd y h > g.Get_Height then g.Get_Height - y else h
    m.set this
      { Offset := g.Get_Offset + ((g.Get_Width + g.Get_Pitch) * y) + x
        XPos := x
        YPos := y
        XAdd := g.Get_Width - w
        Width := w
        Height := h
        Pitch := g.Get_Pitch
        GraphicBuff := gbuffer
        IsHardware := g.IsHardware
        LockCount := (m this).LockCount }

/-- `GraphicViewPortClass::Change(x, y, w, h)` called on the object at `this`:
the returned flag and the store afterwards. -/
def Change (m : Heap) (this : Nat) (x y w h : Int) : Bool × Heap :=
  if this = (m this).Get_Graphic_Buffer then (false, m)
  else (true, Attach m this (m this).Get_Graphic_Buffer x y w h)

/-- `GraphicViewPortClass::Lock()` called on the object at `this`: the returned
flag and the store afterwards.

`GraphicBuff->Lock()` is `GraphicBufferClass::Lock`, defined in gbuffer.cpp, which
is not among the sources; it is the parameter `gbLock`, any function from the
state of the surface object to the flag it returns and the state it leaves the
surface object in. -/
def Lock (gbLock : GraphicViewPortClass → Bool × GraphicViewPortClass)
    (m : Heap) (this : Nat) : Bool × Heap :=
  let r := gbLock (m (m this).GraphicBuff)
  let m1 := m.set (m this).GraphicBuff r.2
  let lock := r.1
  if !lock then (false, m1)
  else if this ≠ (m1 this).GraphicBuff then
    (true, Attach m1 this (m1 this).GraphicBuff
      (m1 this).XPos (m1 this).YPos (m1 this).Width (m1 this).Height)
  else (true, m1)

/-- `GraphicViewPortClass::Unlock()` called on the object at `this`: the returned
flag and the store afterwards.  `gbUnlock` is `GraphicBufferClass::Unlock`
(gbuffer.cpp, not among the sources), taken as a parameter like `gbLock`. -/
def Unlock (gbUnlock : GraphicViewPortClass → Bool × GraphicViewPortClass)
    (m : Heap) (this : Nat) : Bool × Heap :=
  let r := gbUnlock (m (m this).GraphicBuff)
  let m1 := m.set (m this).GraphicBuff r.2
  let unlock := r.1
  if !unlock then (false, m1)
  else if this ≠ (m1 this).GraphicBuff ∧ (m1 this).IsHardware = true
      ∧ (m1 (m1 this).GraphicBuff).LockCount = 0 then
    (true, m1.set this { m1 this with Offset := 0 })
  else (true, m1)

end GraphicViewPortClass

/-- Byte-addressed memory: the value of the byte at each address.  The pointers
of the source (`(unsigned char*)Offset`) are addresses of this memory. -/
abbrev Memory := Int → Nat

/-- The assignment `p[0] = b` for a byte pointer `p` with address `a`. -/
def Memory.write (mem : Memory) (a : Int) (b : Nat) : Memory :=
  fun p => if p = a then b else mem p

/-- The C library's `memmove(dst, src, n)`: the `n` bytes starting at `src`, as
they were before the call, are stored at `dst` (the regions may overlap).  The
length parameter has the unsigned type `size_t`; the callers pass an `int`, and a
negative one converts to a length beyond every object, for which the call has no
defined result: `none`. -/
def memmove (mem : Memory) (dst src n : Int) : Option Memory :=
  if n < 0 then none
  else some (fun p => if dst ≤ p ∧ p < dst + n then mem (src + (p - dst)) else mem p)

/-- The loop variables of the row loops of `Linear_Blit_To_Linear`: the two row
pointers and the memory. -/
structure BlitState where
  dst : Int
  src : Int
  mem : Memory

/-- The loop `while (h-- != 0) body`.  The fuel bounds the number of iterations;
`none` means that the fuel ran out before `h` reached 0, or that the body had no
defined result. -/
def whileRows (body : BlitState → Option BlitState) :
    Nat → Int → BlitState → Option BlitState
  | 0, h, s => if h ≠ 0 then none else some s
  | fuel + 1, h, s =>
    if h ≠ 0 then (body s).bind (fun s1 => whileRows body fuel (h - 1) s1) else some s

/-- One step of the colour-key row loops: `if (src[i] != key_colour) dst[i] = src[i]`
with `key_colour = 0`. -/
def keyPixel (dst src : Int) (mem : Memory) (i : Nat) : Memory :=
  if mem (src + i) ≠ 0 then mem.write (dst + i) (mem (src + i)) else mem

/-- The row loop `for (int i = 0; i < w; ++i)` of the forward colour-key scan. -/
def keyRowForward (mem : Memory) (dst src w : Int) : Memory :=
  (List.range w.toNat).foldl (keyPixel dst src) mem

/-- The row loop `for (int i = w - 1; i >= 0; --i)` of the reverse colour-key scan. -/
def keyRowReverse (mem : Memory) (edst esrc w : Int) : Memory :=
  (List.range w.toNat).reverse.foldl (keyPixel edst esrc) mem

namespace GraphicViewPortClass

/-- `GraphicViewPortClass::Linear_Blit_To_Linear`, called on the viewport `this`
with destination `dst_vp`, on the memory `mem`.  `MAX(a, b)` is the larger of
its arguments.  The row loops run on fuel `h.toNat`, which is enough for every
`h` that is not negative.  The result is `none` when the call has no defined
result: a row loop is entered with a negative `h`, where `h-- != 0` holds at
every iteration, or `memmove` is called with a negative length. -/
def Linear_Blit_To_Linear (this dst_vp : GraphicViewPortClass)
    (src_x src_y dst_x dst_y w h use_key : Int) (mem : Memory) : Option Memory :=
  let src := this.Offset
  let dst := dst_vp.Offset
  let src_pitch := this.Pitch + this.XAdd + this.Width
  let dst_pitch := dst_vp.Pitch + dst_vp.XAdd + dst_vp.Width
  if src_x ≥ this.Width ∨ src_y ≥ this.Height ∨ dst_x ≥ dst_vp.Width
      ∨ dst_y ≥ dst_vp.Height ∨ h < 0 ∨ w < 1 then some mem
  else
    let src_x := max 0 src_x
    let src_y := max 0 src_y
    let dst_x := max 0 dst_x
    let dst_y := max 0 dst_y
    let h := if dst_y + h > dst_vp.Height then dst_vp.Height - 1 - dst_y else h
    let w := if dst_x + w > dst_vp.Width then dst_vp.Width - 1 - dst_x else w
    let src := src + (src_x + src_y * src_pitch)
    let dst := dst + (dst_x + dst_y * dst_pitch)
    if src < dst then
      let esrc := src + (h - 1) * src_pitch
      let edst := dst + (h - 1) * dst_pitch
      if use_key ≠ 0 then
        (whileRows (fun s => some { dst := s.dst - dst_pitch, src := s.src - src_pitch,
                                    mem := keyRowReverse s.mem s.dst s.src w })
          h.toNat h { dst := edst, src := esrc, mem := mem }).map BlitState.mem
      else
        (whileRows (fun s => (memmove s.mem s.dst s.src w).map (fun mem1 =>
                      { dst := s.dst - dst_pitch, src := s.src - src_pitch, mem := mem1 }))
          h.toNat h { dst := edst, src := esrc, mem := mem }).map BlitState.mem
    else
      if use_key ≠ 0 then
        (whileRows (fun s => some { dst := s.dst + dst_pitch, src := s.src + src_pitch,
                                    mem := keyRowForward s.mem s.dst s.src w })
          h.toNat h { dst := dst, src := src, mem := mem }).map BlitState.mem
      else
        (whileRows (fun s => (memmove s.mem s.dst s.src w).map (fun mem1 =>
                      { dst := s.dst + dst_pitch, src := s.src + src_pitch, mem := mem1 }))
          h.toNat h { dst := dst, src := src, mem := mem }).map BlitState.mem

end GraphicViewPortClass

open GraphicViewPortClass

/-- A store for examples: a 20x20 surface with 4 bytes of row padding and base
address 1000 at address 1 (its own self-view), and a default-constructed
viewport at every other address. -/
def exampleHeap : Heap := fun a =>
  if a = 1 then
    { Offset := 1000, Width := 20, Height := 20, XAdd := 0, XPos := 0, YPos := 0,
      Pitch := 4, GraphicBuff := 1, IsHardware := false, LockCount := 0 }
  else default

/-- The example store after the viewport at address 2 has been attached to the
surface at (2, 3) with size 10x8. -/
def exampleAttached : Heap := Attach exampleHeap 2 1 2 3 10 8

/-- A surface Lock that succeeds: it counts the lock and hands out the base
address 5000. -/
def exampleLockOk (g : GraphicViewPortClass) : Bool × GraphicViewPortClass :=
  (true, { g with Offset := 5000, LockCount := g.LockCount + 1 })

/-- A surface Lock that fails and leaves the surface as it was. -/
def exampleLockFail (g : GraphicViewPortClass) : Bool × GraphicViewPortClass :=
  (false, g)

/-- A store with a hardware surface at address 1 (20x20, 4 bytes of row padding,
locked once, base address 1000) and the viewport at address 2 attached to it at
(2, 3) with size 10x8. -/
def exampleHardware : Heap :=
  Attach (fun a =>
    if a = 1 then
      { Offset := 1000, Width := 20, Height := 20, XAdd := 0, XPos := 0, YPos := 0,
        Pitch := 4, GraphicBuff := 1, IsHardware := true, LockCount := 1 }
    else default) 2 1 2 3 10 8

/-- A surface Unlock that succeeds and counts the lock down. -/
def exampleUnlockOk (g : GraphicViewPortClass) : Bool × GraphicViewPortClass :=
  (true, { g with LockCount := g.LockCount - 1 })

/-- The viewport at address 2 after Attach(surface, 0, 0, 10, -3): Attach stores
the negative height as it is given. -/
def exampleNegativeHeight : GraphicViewPortClass := Attach exampleHeap 2 1 0 0 10 (-3) 2

/-- A memory for examples: the byte at address a is a mod 256. -/
def exampleMemory : Memory := fun a => (a % 256).toNat

/-- The effect of a `memmove` of a length that is not negative: byte `p` of the
`n` bytes at `dst` receives the byte that was at the same place among the `n`
bytes at `src`. -/
def moveRow (n : Int) (mem : Memory) (dst src : Int) : Memory :=
  fun p => if dst ≤ p ∧ p < dst + n then mem (src + (p - dst)) else mem p

/-- One row of a blit of `w` columns, from the row starting at address `src` to the
row starting at address `dst`: a block move (use_key = 0) or the colour-key scan
of the row in the direction of the row scan. -/
def blitRow (use_key : Int) (reverse : Bool) (w : Int) (mem : Memory) (dst src : Int) : Memory :=
  if use_key ≠ 0 then
    (if reverse then keyRowReverse mem dst src w else keyRowForward mem dst src w)
  else moveRow w mem dst src

/-- Rows `rows` in turn: row `i` goes from address `S + i * sp` to address
`D + i * dp` by the row operation `op`. -/
def rowsFold (op : Memory → Int → Int → Memory) (D S dp sp : Int) (rows : List Nat)
    (mem : Memory) : Memory :=
  rows.foldl (fun m (i : Nat) => op m (D + (i : Int) * dp) (S + (i : Int) * sp)) mem

/-- A blit of exactly `n` rows of `w` columns each: rows 0, ..., n - 1 of the
source rectangle starting at address `S` (row stride `sp`) go to the rows of the
destination rectangle starting at address `D` (row stride `dp`), the last row
first when `reverse` is set. -/
def blitRows (use_key : Int) (reverse : Bool) (D S dp sp w : Int) (n : Nat)
    (mem : Memory) : Memory :=
  rowsFold (blitRow use_key reverse w) D S dp sp
    (if reverse then (List.range n).reverse else List.range n) mem

/-- The row stride `Pitch + XAdd + Width` that `Linear_Blit_To_Linear` and
`Linear_Scale_To_Linear` use for a viewport. -/
def rowStride (v : GraphicViewPortClass) : Int := v.Pitch + v.XAdd + v.Width

/-- The rejection test of `Linear_Blit_To_Linear`. -/
def blitRejected (this dst_vp : GraphicViewPortClass) (src_x src_y dst_x dst_y w h : Int) : Prop :=
  src_x ≥ this.Width ∨ src_y ≥ this.Height ∨ dst_x ≥ dst_vp.Width
    ∨ dst_y ≥ dst_vp.Height ∨ h < 0 ∨ w < 1

/-- The clipped height h' of `Linear_Blit_To_Linear`: `h` after the statement
`h = (dst_y + h) > dst_vp->Height ? dst_vp->Height - 1 - dst_y : h`, where dst_y
has been clamped. -/
def clipH (dst_vp : GraphicViewPortClass) (dst_y h : Int) : Int :=
  if max 0 dst_y + h > dst_vp.Height then dst_vp.Height - 1 - max 0 dst_y else h

/-- The clipped width w' of `Linear_Blit_To_Linear`: `w` after the statement
`w = (dst_x + w) > dst_vp->Width ? dst_vp->Width - 1 - dst_x : w`, where dst_x
has been clamped. -/
def clipW (dst_vp : GraphicViewPortClass) (dst_x w : Int) : Int :=
  if max 0 dst_x + w > dst_vp.Width then dst_vp.Width - 1 - max 0 dst_x else w

/-- The address of the pixel in column `x` of row `y` of a viewport, for the row
stride of the blit: `Offset + x + y * (Pitch + XAdd + Width)`. -/
def pixelAddr (v : GraphicViewPortClass) (x y : Int) : Int :=
  v.Offset + (x + y * rowStride v)

/-- The rejection test is decided by evaluating its comparisons. -/
instance (this dst_vp : GraphicViewPortClass) (src_x src_y dst_x dst_y w h : Int) :
    Decidable (blitRejected this dst_vp src_x src_y dst_x dst_y w h) :=
  inferInstanceAs (Decidable (src_x ≥ this.Width ∨ src_y ≥ this.Height ∨ dst_x ≥ dst_vp.Width
    ∨ dst_y ≥ dst_vp.Height ∨ h < 0 ∨ w < 1))

/-- The viewport at address 2 after Attach(surface, 0, 0, 0, 5): a viewport of
width 0 and height 5 at the top left of the example surface. -/
def exampleZeroWidth : GraphicViewPortClass := Attach exampleHeap 2 1 0 0 0 5 2

/-- The viewport at address 2 after Attach(surface, 0, 0, 10, 0): a viewport of
width 10 and height 0 at the top left of the example surface. -/
def exampleZeroHeight : GraphicViewPortClass := Attach exampleHeap 2 1 0 0 10 0 2

/-- A viewport of one row of four pixels whose first pixel is at address `off`. -/
def exampleRow (off : Int) : GraphicViewPortClass :=
  { Offset := off, Width := 4, Height := 1, XAdd := 0, XPos := 0, YPos := 0,
    Pitch := 0, GraphicBuff := 1, IsHardware := false, LockCount := 0 }

/-- A memory holding the row 0, 5, 0, 7 at addresses 0..3 and again at addresses
100..103, and the row 1, 1, 1, 1 at addresses 10..13. -/
def exampleKeyMemory : Memory := fun a =>
  if a = 1 ∨ a = 101 then 5
  else if a = 3 ∨ a = 103 then 7
  else if 10 ≤ a ∧ a ≤ 13 then 1
  else 0

/-- The rectangle type `Rect` of rect.h, as `DD_Linear_Blit_To_Linear` fills it. -/
structure Rect where
  X : Int
  Y : Int
  Width : Int
  Height : Int
deriving DecidableEq, Repr

/-- A call that the viewport code makes on a collaborator outside this file: the
surface's own Lock and Unlock (gbuffer.cpp), the hardware blit
`dest.GraphicBuff->Get_DD_Surface()->Blt(dest_rectangle, GraphicBuff->Get_DD_Surface(),
source_rectangle, mask)`, the hardware fill
`GraphicBuff->Get_DD_Surface()->FillRect(rect, color)`, and the raw drawing
routines `Buffer_...` of drawbuff.h and drawmisc.h with the arguments they are
given.  Surfaces are named by the address of their `GraphicBufferClass`, a
viewport passed as `this` by its address, and a string by its characters. -/
inductive Call where
  | SurfaceLock (surface : Nat)
  | SurfaceUnlock (surface : Nat)
  | Blt (dest_surface : Nat) (dest_rectangle : Rect) (source_surface : Nat)
      (source_rectangle : Rect) (mask : Bool)
  | FillRect (surface : Nat) (rect : Rect) (color : Nat)
  | Buffer_Put_Pixel (thisptr : Nat) (x y : Int) (color : Nat)
  | Buffer_Get_Pixel (thisptr : Nat) (x y : Int)
  | Buffer_Clear (thisptr : Nat) (color : Nat)
  | Buffer_To_Buffer (thisptr : Nat) (x y w h : Int) (buff : Int) (size : Int)
  | Buffer_To_Page (x y w h : Int) (buffer : Int) (thisptr : Nat)
  | Buffer_Print (thisptr : Nat) (str : String) (x y fcol bcol : Int)
  | Buffer_Draw_Stamp_Clip (thisptr : Nat) (icondata : Int) (icon x_pixel y_pixel : Int)
      (remap : Int) (min_x min_y max_x max_y : Int)
  | Buffer_Draw_Line (thisptr : Nat) (sx sy dx dy : Int) (color : Nat)
  | Buffer_Fill_Rect (thisptr : Nat) (sx sy dx dy : Int) (color : Nat)
  | Buffer_Remap (thisptr : Nat) (sx sy width height : Int) (remap : Int)
deriving DecidableEq, Repr

/-- The state a drawing operation works on: the objects, the bytes written by the
software routines, and the calls made on the collaborators so far, oldest first.
What a hardware call does to the surface it is made on is the backend's affair;
the model records the call. -/
structure World where
  heap : Heap
  mem : Memory
  trace : List Call

namespace GraphicViewPortClass

/-- `Lock()` as a step of a drawing operation: `GraphicViewPortClass::Lock` on the
objects, with the call of the surface's Lock recorded. -/
def LockW (gbLock : GraphicViewPortClass → Bool × GraphicViewPortClass)
    (wd : World) (this : Nat) : Bool × World :=
  ((Lock gbLock wd.heap this).1,
   { wd with heap := (Lock gbLock wd.heap this).2,
             trace := wd.trace ++ [Call.SurfaceLock (wd.heap this).GraphicBuff] })

/-- `Unlock()` as a step of a drawing operation: `GraphicViewPortClass::Unlock` on
the objects, with the call of the surface's Unlock recorded. -/
def UnlockW (gbUnlock : GraphicViewPortClass → Bool × GraphicViewPortClass)
    (wd : World) (this : Nat) : Bool × World :=
  ((Unlock gbUnlock wd.heap this).1,
   { wd with heap := (Unlock gbUnlock wd.heap this).2,
             trace := wd.trace ++ [Call.SurfaceUnlock (wd.heap this).GraphicBuff] })

/-- `GraphicViewPortClass::DD_Linear_Blit_To_Linear`: fills the two rectangles and
makes the one call of the hardware `Blt`. -/
def DD_Linear_Blit_To_Linear (wd : World) (this dest : Nat)
    (source_x source_y dest_x dest_y width height : Int) (mask : Bool) : World :=
  let source_rectangle : Rect := { X := source_x, Y := source_y, Width := width, Height := height }
  let dest_rectangle : Rect := { X := dest_x, Y := dest_y, Width := width, Height := height }
  { wd with trace := wd.trace ++ [Call.Blt (wd.heap dest).GraphicBuff dest_rectangle
      (wd.heap this).GraphicBuff source_rectangle mask] }

/-- `GraphicViewPortClass::Blit(dest, x_pixel, y_pixel, dx_pixel, dy_pixel,
pixel_width, pixel_height, trans)` (stub 1).  In the software branch the flag
`trans` converts to the `int` 1 or 0, and the result is `none` when
`Linear_Blit_To_Linear` has no defined result. -/
def Blit (gbLock gbUnlock : GraphicViewPortClass → Bool × GraphicViewPortClass)
    (wd : World) (this dest : Nat)
    (x_pixel y_pixel dx_pixel dy_pixel pixel_width pixel_height : Int) (trans : Bool) :
    Option World :=
  if (wd.heap this).IsHardware && (wd.heap dest).IsHardware then
    some (DD_Linear_Blit_To_Linear wd this dest
      ((wd.heap this).XPos + x_pixel) ((wd.heap this).YPos + y_pixel)
      ((wd.heap dest).Get_XPos + dx_pixel) ((wd.heap dest).Get_YPos + dy_pixel)
      pixel_width pixel_height trans)
  else
    let r1 := LockW gbLock wd this
    if r1.1 then
      let r2 := LockW gbLock r1.2 dest
      if r2.1 then
        match Linear_Blit_To_Linear (r2.2.heap this) (r2.2.heap dest) x_pixel y_pixel dx_pixel dy_pixel
            pixel_width pixel_height
            (if trans then 1 else 0) r2.2.mem with
        | none => none
        | some mem1 =>
          some (UnlockW gbUnlock (UnlockW gbUnlock { r2.2 with mem := mem1 } dest).2 this).2
      else some (UnlockW gbUnlock r2.2 this).2
    else some r1.2

/-- `GraphicViewPortClass::Blit(dest, dx, dy, trans)` (stub 2).  `Width` and
`Height` are read for the call of `Linear_Blit_To_Linear`, after the two locks. -/
def Blit2 (gbLock gbUnlock : GraphicViewPortClass → Bool × GraphicViewPortClass)
    (wd : World) (this dest : Nat) (dx dy : Int) (trans : Bool) : Option World :=
  if (wd.heap this).IsHardware && (wd.heap dest).IsHardware then
    some (DD_Linear_Blit_To_Linear wd this dest
      (wd.heap this).XPos (wd.heap this).YPos
      ((wd.heap dest).Get_XPos + dx) ((wd.heap dest).Get_YPos + dy)
      (wd.heap this).Width (wd.heap this).Height trans)
  else
    let r1 := LockW gbLock wd this
    if r1.1 then
      let r2 := LockW gbLock r1.2 dest
      if r2.1 then
        match Linear_Blit_To_Linear (r2.2.heap this) (r2.2.heap dest) 0 0 dx dy
            (r2.2.heap this).Width (r2.2.heap this).Height
            (if trans then 1 else 0) r2.2.mem with
        | none => none
        | some mem1 =>
          some (UnlockW gbUnlock (UnlockW gbUnlock { r2.2 with mem := mem1 } dest).2 this).2
      else some (UnlockW gbUnlock r2.2 this).2
    else some r1.2

/-- `GraphicViewPortClass::Blit(dest, trans)` (stub 3).  `MAX(a, b)` is the larger
of its arguments. -/
def Blit3 (gbLock gbUnlock : GraphicViewPortClass → Bool × GraphicViewPortClass)
    (wd : World) (this dest : Nat) (trans : Bool) : Option World :=
  if (wd.heap this).IsHardware && (wd.heap dest).IsHardware then
    some (DD_Linear_Blit_To_Linear wd this dest
      (wd.heap this).XPos (wd.heap this).YPos
      (wd.heap dest).Get_XPos (wd.heap dest).Get_YPos
      (max (wd.heap this).Width (wd.heap dest).Get_Width)
      (max (wd.heap this).Height (wd.heap dest).Get_Height) trans)
  else
    let r1 := LockW gbLock wd this
    if r1.1 then
      let r2 := LockW gbLock r1.2 dest
      if r2.1 then
        match Linear_Blit_To_Linear (r2.2.heap this) (r2.2.heap dest) 0 0 0 0
            (r2.2.heap this).Width (r2.2.heap this).Height
            (if trans then 1 else 0) r2.2.mem with
        | none => none
        | some mem1 =>
          some (UnlockW gbUnlock (UnlockW gbUnlock { r2.2 with mem := mem1 } dest).2 this).2
      else some (UnlockW gbUnlock r2.2 this).2
    else some r1.2

end GraphicViewPortClass

/-- The hardware example store with the example memory and no call made yet. -/
def exampleWorldHardware : World := { heap := exampleHardware, mem := exampleMemory, trace := [] }

/-- The software example store with the example memory and no call made yet. -/
def exampleWorld : World := { heap := exampleAttached, mem := exampleMemory, trace := [] }

/-- The value of a byte `b` held in a variable of the plain type `char`, as the
integer used to index a table.  Whether plain `char` is signed is fixed by the
platform (`char_signed`); where it is, the bytes 128..255 are the values
-128..-1. -/
def charIndex (char_signed : Bool) (b : Nat) : Int :=
  if char_signed = true ∧ 128 ≤ b then (b : Int) - 256 else (b : Int)

/-- The loop variables of the column loop of `Linear_Scale_To_Linear`: the
destination pointer `d`, the fixed-point source position `xrat` and the memory. -/
structure ScaleState where
  d : Int
  xrat : Int
  mem : Memory

/-- The column loop `for (int j = 0; j < dst_x1; ++j)` of `Linear_Scale_To_Linear`
for one destination row: it samples `s[xrat >> 16]`, hands the sample to the
pixel statement of the mode (`pixel mem d tmp`), then steps `d` by one and
`xrat` by `x_ratio`. -/
def scaleRow (pixel : Memory → Int → Nat → Memory) (s x_ratio : Int) (n : Nat) (d : Int)
    (mem : Memory) : Memory :=
  ((List.range n).foldl
    (fun (st : ScaleState) (_ : Nat) =>
      { d := st.d + 1, xrat := st.xrat + x_ratio,
        mem := pixel st.mem st.d (st.mem (s + (st.xrat >>> (16 : Nat)))) })
    { d := d, xrat := 0, mem := mem }).mem

/-- The row loop `for (int i = 0; i < dst_y1; ++i)` of `Linear_Scale_To_Linear`:
row `i` of the destination window starts at `dst + i * dst_stride` and samples
the source row starting at `src + ((i * y_ratio) >> 16) * src_stride`. -/
def scaleRows (pixel : Memory → Int → Nat → Memory)
    (src dst src_stride dst_stride x_ratio y_ratio : Int) (nx ny : Nat) (mem : Memory) : Memory :=
  (List.range ny).foldl
    (fun (m : Memory) (i : Nat) =>
      scaleRow pixel (src + (((i : Int) * y_ratio) >>> (16 : Nat)) * src_stride) x_ratio nx
        (dst + (i : Int) * dst_stride) m)
    mem

namespace GraphicViewPortClass

/-- `GraphicViewPortClass::Linear_Scale_To_Linear`, called on the viewport `this`
with destination `dst_vp`, on the memory `mem`.  `remap` is the address of the
remap table, `none` for `nullptr`.  The division of C truncates (`Int.tdiv`);
`src_width << 16` is `src_width * 65536`.  The result is `none` when a ratio
would be computed by a division by 0, which has no defined result. -/
def Linear_Scale_To_Linear (char_signed : Bool) (this dst_vp : GraphicViewPortClass)
    (src_x src_y dst_x dst_y src_width src_height dst_width dst_height : Int)
    (trans : Bool) (remap : Option Int) (mem : Memory) : Option Memory :=
  if src_width ≤ 0 ∨ src_height ≤ 0 ∨ dst_width ≤ 0 ∨ dst_height ≤ 0 then some mem
  else
    let src_x0 := src_x
    let src_y0 := src_y
    let dst_x0 := dst_x
    let dst_y0 := dst_y
    let dst_x1 := dst_width + dst_x
    let dst_y1 := dst_height + dst_y
    let src_x0 := if src_x < 0 then 0 else src_x0
    let dst_x0 := if src_x < 0 then dst_x + Int.tdiv (dst_width * -src_x) src_width else dst_x0
    let src_y0 := if src_y < 0 then 0 else src_y0
    let dst_y0 := if src_y < 0 then dst_y + Int.tdiv (dst_height * -src_y) src_height else dst_y0
    let dst_x1 := if src_x + src_width > this.Get_Width + 1
      then dst_x + Int.tdiv (dst_width * (this.Get_Width - src_x)) src_width else dst_x1
    let dst_y1 := if src_y + src_height > this.Get_Height + 1
      then dst_y + Int.tdiv (dst_height * (this.Get_Height - src_y)) src_height else dst_y1
    let src_x0 := if dst_x0 < 0 then src_x + Int.tdiv (src_width * -dst_x) dst_width else src_x0
    let dst_x0 := if dst_x0 < 0 then 0 else dst_x0
    let src_y0 := if dst_y0 < 0 then src_y + Int.tdiv (src_height * -dst_y) dst_height else src_y0
    let dst_y0 := if dst_y0 < 0 then 0 else dst_y0
    let dst_x1 := if dst_x1 > dst_vp.Get_Width + 1 then dst_vp.Get_Width else dst_x1
    let dst_y1 := if dst_y1 > dst_vp.Get_Height + 1 then dst_vp.Get_Height else dst_y1
    if dst_y0 > dst_y1 ∨ dst_x0 > dst_x1 then some mem
    else
      let src := src_y0 * (this.Get_Pitch + this.Get_XAdd + this.Get_Width) + src_x0
        + this.Get_Offset
      let dst := dst_y0 * (dst_vp.Get_Pitch + dst_vp.Get_XAdd + dst_vp.Get_Width) + dst_x0
        + dst_vp.Get_Offset
      let dst_x1 := dst_x1 - dst_x0
      let dst_y1 := dst_y1 - dst_y0
      if dst_x1 = 0 then none
      else
        let x_ratio := Int.tdiv (src_width * 65536) dst_x1 + 1
        if dst_y1 = 0 then none
        else
          let y_ratio := Int.tdiv (src_height * 65536) dst_y1 + 1
          let src_stride := this.Get_Pitch + this.Get_XAdd + this.Get_Width
          let dst_stride := dst_vp.Get_Pitch + dst_vp.Get_XAdd + dst_vp.Get_Width
          if trans then
            match remap with
            | some table =>
              some (scaleRows
                (fun m d tmp => if tmp ≠ 0 then m.write d (m (table + charIndex char_signed tmp))
                  else m)
                src dst src_stride dst_stride x_ratio y_ratio dst_x1.toNat dst_y1.toNat mem)
            | none =>
              some (scaleRows (fun m d tmp => if tmp ≠ 0 then m.write d tmp else m)
                src dst src_stride dst_stride x_ratio y_ratio dst_x1.toNat dst_y1.toNat mem)
          else
            match remap with
            | some table =>
              some (scaleRows (fun m d tmp => m.write d (m (table + charIndex char_signed tmp)))
                src dst src_stride dst_stride x_ratio y_ratio dst_x1.toNat dst_y1.toNat mem)
            | none =>
              some (scaleRows (fun m d tmp => m.write d tmp)
                src dst src_stride dst_stride x_ratio y_ratio dst_x1.toNat dst_y1.toNat mem)

end GraphicViewPortClass

/-- An identity copy of a rectangle of `w` columns and `h` rows, pixel by pixel in
scan order: destination pixel (dst_x + j, dst_y + i) receives source pixel
(src_x + j, src_y + i). -/
def identityCopy (this dst_vp : GraphicViewPortClass) (src_x src_y dst_x dst_y : Int)
    (w h : Nat) (mem : Memory) : Memory :=
  (List.range h).foldl
    (fun (m : Memory) (i : Nat) =>
      (List.range w).foldl
        (fun (m1 : Memory) (j : Nat) =>
          m1.write (pixelAddr dst_vp (dst_x + j) (dst_y + i))
            (m1 (pixelAddr this (src_x + j) (src_y + i))))
        m)
    mem

/-- The pixel statement of the four modes of `Linear_Scale_To_Linear`, for the
sample `tmp` and the destination address `d`. -/
def scalePixel (char_signed : Bool) (trans : Bool) (remap : Option Int) :
    Memory → Int → Nat → Memory :=
  match trans, remap with
  | true, some table =>
    fun m d tmp => if tmp ≠ 0 then m.write d (m (table + charIndex char_signed tmp)) else m
  | true, none => fun m d tmp => if tmp ≠ 0 then m.write d tmp else m
  | false, some table => fun m d tmp => m.write d (m (table + charIndex char_signed tmp))
  | false, none => fun m d tmp => m.write d tmp

/-- A viewport of `w` columns and `h` rows, without row padding, whose first pixel
is at address `off`. -/
def exampleView (off w h : Int) : GraphicViewPortClass :=
  { Offset := off, Width := w, Height := h, XAdd := 0, XPos := 0, YPos := 0,
    Pitch := 0, GraphicBuff := 1, IsHardware := false, LockCount := 0 }

/-- A memory holding the 2x2 picture 1, 2 / 3, 4 at addresses 0..3 and 0
elsewhere. -/
def examplePicture : Memory := fun a =>
  if a = 0 then 1 else if a = 1 then 2 else if a = 2 then 3 else if a = 3 then 4 else 0

/-- A memory for the remap examples: the 2x2 picture 1, 2 / 200, 4 at addresses
0..3, a 256-entry remap table at address 1000 whose entry `i` is `(i + 10) % 256`
(a fixed offset of 10), the value 77 in the 256 bytes before the table, and 0
elsewhere. -/
def exampleRemapMemory : Memory := fun a =>
  if a = 0 then 1 else if a = 1 then 2 else if a = 2 then 200 else if a = 3 then 4
  else if 1000 ≤ a ∧ a < 1256 then ((a - 1000 + 10) % 256).toNat
  else if 744 ≤ a ∧ a < 1000 then 77
  else 0

/-- A memory for the transparency examples: the 2x2 picture 0, 5 / 200, 7 at
addresses 0..3, the bytes 50, 51, 52, 53 at addresses 100..103, a 256-entry remap
table at address 1000 with entry 0 = 9, entry 5 = 0, entry 7 = 3, entry 200 = 42
and every other entry 1, the value 77 in the 256 bytes before the table, and 0
elsewhere. -/
def exampleTransMemory : Memory := fun a =>
  if a = 0 then 0 else if a = 1 then 5 else if a = 2 then 200 else if a = 3 then 7
  else if 100 ≤ a ∧ a < 104 then (a - 50).toNat
  else if a = 1000 then 9 else if a = 1005 then 0 else if a = 1007 then 3
  else if a = 1200 then 42
  else if 1000 ≤ a ∧ a < 1256 then 1
  else if 744 ≤ a ∧ a < 1000 then 77
  else 0

/-- The conversion of an `int` value to `unsigned int`: the value modulo 2^32. -/
def toUnsigned (v : Int) : Int := v % 4294967296

/-- The conversion of an `unsigned int` value to `int` (`int w = size`): the
values from 2^31 on become the negative values of the same bit pattern. -/
def toSigned (u : Int) : Int := if u < 2147483648 then u else u - 4294967296

/-- `memset(buf, c, n)`: the `n` bytes from `buf` on are set to `c`. -/
def memset (mem : Memory) (buf : Int) (c : Nat) (n : Int) : Memory :=
  fun p => if buf ≤ p ∧ p < buf + n then c else mem p

/-- The loop `while (size--) { memset(buf, color, w); buf += pitch; }` of
`Fat_Put_Pixel`, by recursion on the unsigned counter `size`; `w` is the byte
count as `memset` receives it. -/
def fatRows (color : Nat) (w pitch : Int) : Nat → Int → Memory → Memory
  | 0, _, mem => mem
  | size + 1, buf, mem => fatRows color w pitch size (buf + pitch) (memset mem buf color w)

namespace GraphicViewPortClass

/-- Modelled from the spec: `Get_Full_Pitch()` is defined in graphicsviewport.h,
which is not among the sources; it is the row stride of the spec, "Pitch + XAdd +
Width (full row including padding)", the expression the raw routines of
graphicsviewport.cpp write out. -/
def Get_Full_Pitch (v : GraphicViewPortClass) : Int := v.Pitch + v.XAdd + v.Width

/-- `GraphicViewPortClass::Fat_Put_Pixel(x, y, color, size)` on the memory `mem`.
`x`, `y` and `size` are `unsigned int` values and `color` an `unsigned char`
value.  The tests compare in `unsigned int`, to which `Height` (by the cast) and
`Width` (by the usual conversions) are converted; `x + pitch * y` is computed in
`unsigned int` and then added to the 64-bit `Offset`; `int w = size` converts to
`int`, and `memset` receives `w` converted to the 64-bit `size_t`. -/
def Fat_Put_Pixel (this : GraphicViewPortClass) (x y : Nat) (color : Nat) (size : Nat)
    (mem : Memory) : Memory :=
  if size = 0 then mem
  else if (y : Int) ≥ toUnsigned this.Height ∨ (x : Int) ≥ toUnsigned this.Width then mem
  else
    let pitch := this.Get_Full_Pitch
    let buf := toUnsigned ((x : Int) + pitch * (y : Int)) + this.Offset
    let w := toSigned (size : Int)
    fatRows color (w % 18446744073709551616) pitch size buf mem

end GraphicViewPortClass

/-- The raw drawing routines that the viewport operations call, declared in
drawbuff.h and drawmisc.h and defined outside the sources.  Each is any function
of the viewport it is given, its arguments and the memory, to the value it
returns and the memory it leaves; addresses (`buff`, `icondata`, `remap`) are
integers. -/
structure DrawBuff where
  Buffer_Put_Pixel : GraphicViewPortClass → Int → Int → Nat → Memory → Memory
  Buffer_Get_Pixel : GraphicViewPortClass → Int → Int → Memory → Int
  Buffer_Clear : GraphicViewPortClass → Nat → Memory → Memory
  Buffer_To_Buffer : GraphicViewPortClass → Int → Int → Int → Int → Int → Int → Memory →
    Int × Memory
  Buffer_To_Page : Int → Int → Int → Int → Int → GraphicViewPortClass → Memory → Memory
  Buffer_Print : GraphicViewPortClass → String → Int → Int → Int → Int → Memory → Int × Memory
  Buffer_Draw_Stamp_Clip : GraphicViewPortClass → Int → Int → Int → Int → Int →
    Int → Int → Int → Int → Memory → Memory
  Buffer_Draw_Line : GraphicViewPortClass → Int → Int → Int → Int → Nat → Memory → Memory
  Buffer_Fill_Rect : GraphicViewPortClass → Int → Int → Int → Int → Nat → Memory → Memory
  Buffer_Remap : GraphicViewPortClass → Int → Int → Int → Int → Int → Memory → Memory

/-- A `BufferClass` (buffer.h) as `To_Buffer` reads it: what `Get_Buffer()` and
`Get_Size()` return. -/
structure BufferClass where
  Buffer : Int
  Size : Int

/-- `BufferClass::Get_Buffer()`. -/
def BufferClass.Get_Buffer (b : BufferClass) : Int := b.Buffer

/-- `BufferClass::Get_Size()`. -/
def BufferClass.Get_Size (b : BufferClass) : Int := b.Size

/-- The window table of ww_win.h as `Draw_Stamp` reads it: the array `WindowList`
and the column indices `WINDOWX`, `WINDOWY`, `WINDOWWIDTH`, `WINDOWHEIGHT`. -/
structure WwWin where
  WindowList : Int → Int → Int
  WINDOWX : Int
  WINDOWY : Int
  WINDOWWIDTH : Int
  WINDOWHEIGHT : Int

/-- The world after a call of a raw routine: the call is recorded and the memory
is the one the routine leaves. -/
def World.call (wd : World) (c : Call) (mem1 : Memory) : World :=
  { wd with mem := mem1, trace := wd.trace ++ [c] }

/-- Whether a recorded call draws: every call but the surface's Lock and Unlock. -/
def Call.isDraw : Call → Bool
  | Call.SurfaceLock _ => false
  | Call.SurfaceUnlock _ => false
  | _ => true

namespace GraphicViewPortClass

/-- `GraphicViewPortClass::Put_Pixel(x, y, color)`. -/
def Put_Pixel (R : DrawBuff) (gbLock gbUnlock : GraphicViewPortClass → Bool × GraphicViewPortClass)
    (wd : World) (this : Nat) (x y : Int) (color : Nat) : World :=
  let r := LockW gbLock wd this
  if r.1 then
    (UnlockW gbUnlock
      (r.2.call (Call.Buffer_Put_Pixel this x y color)
        (R.Buffer_Put_Pixel (r.2.heap this) x y color r.2.mem)) this).2
  else r.2

/-- `GraphicViewPortClass::Get_Pixel(x, y)`: the value returned and the world
afterwards. -/
def Get_Pixel (R : DrawBuff) (gbLock gbUnlock : GraphicViewPortClass → Bool × GraphicViewPortClass)
    (wd : World) (this : Nat) (x y : Int) : Int × World :=
  let return_code := 0
  let r := LockW gbLock wd this
  if r.1 then
    (R.Buffer_Get_Pixel (r.2.heap this) x y r.2.mem,
     (UnlockW gbUnlock (r.2.call (Call.Buffer_Get_Pixel this x y) r.2.mem) this).2)
  else (return_code, r.2)

/-- `GraphicViewPortClass::Clear(color)`. -/
def Clear (R : DrawBuff) (gbLock gbUnlock : GraphicViewPortClass → Bool × GraphicViewPortClass)
    (wd : World) (this : Nat) (color : Nat) : World :=
  let r := LockW gbLock wd this
  if r.1 then
    (UnlockW gbUnlock
      (r.2.call (Call.Buffer_Clear this color) (R.Buffer_Clear (r.2.heap this) color r.2.mem))
      this).2
  else r.2

/-- `GraphicViewPortClass::To_Buffer(x, y, w, h, buff, size)` (stub 1). -/
def To_Buffer (R : DrawBuff) (gbLock gbUnlock : GraphicViewPortClass → Bool × GraphicViewPortClass)
    (wd : World) (this : Nat) (x y w h : Int) (buff : Int) (size : Int) : Int × World :=
  let return_code := 0
  let r := LockW gbLock wd this
  if r.1 then
    ((R.Buffer_To_Buffer (r.2.heap this) x y w h buff size r.2.mem).1,
     (UnlockW gbUnlock
       (r.2.call (Call.Buffer_To_Buffer this x y w h buff size)
         (R.Buffer_To_Buffer (r.2.heap this) x y w h buff size r.2.mem).2) this).2)
  else (return_code, r.2)

/-- `GraphicViewPortClass::To_Buffer(x, y, w, h, buff)` (stub 2), `buff` a
`BufferClass`. -/
def To_Buffer2 (R : DrawBuff) (gbLock gbUnlock : GraphicViewPortClass → Bool × GraphicViewPortClass)
    (wd : World) (this : Nat) (x y w h : Int) (buff : BufferClass) : Int × World :=
  let return_code := 0
  let r := LockW gbLock wd this
  if r.1 then
    ((R.Buffer_To_Buffer (r.2.heap this) x y w h buff.Get_Buffer buff.Get_Size r.2.mem).1,
     (UnlockW gbUnlock
       (r.2.call (Call.Buffer_To_Buffer this x y w h buff.Get_Buffer buff.Get_Size)
         (R.Buffer_To_Buffer (r.2.heap this) x y w h buff.Get_Buffer buff.Get_Size r.2.mem).2)
       this).2)
  else (return_code, r.2)

/-- `GraphicViewPortClass::To_Buffer(buff)` (stub 3): `Width` and `Height` are read
after the Lock. -/
def To_Buffer3 (R : DrawBuff) (gbLock gbUnlock : GraphicViewPortClass → Bool × GraphicViewPortClass)
    (wd : World) (this : Nat) (buff : BufferClass) : Int × World :=
  let return_code := 0
  let r := LockW gbLock wd this
  if r.1 then
    ((R.Buffer_To_Buffer (r.2.heap this) 0 0 (r.2.heap this).Width (r.2.heap this).Height
        buff.Get_Buffer buff.Get_Size r.2.mem).1,
     (UnlockW gbUnlock
       (r.2.call
         (Call.Buffer_To_Buffer this 0 0 (r.2.heap this).Width (r.2.heap this).Height
           buff.Get_Buffer buff.Get_Size)
         (R.Buffer_To_Buffer (r.2.heap this) 0 0 (r.2.heap this).Width (r.2.heap this).Height
           buff.Get_Buffer buff.Get_Size r.2.mem).2)
       this).2)
  else (return_code, r.2)

/-- `GraphicViewPortClass::Blit(buffer, x, y, w, h)`, the copy from a raw buffer. -/
def Blit4 (R : DrawBuff) (gbLock gbUnlock : GraphicViewPortClass → Bool × GraphicViewPortClass)
    (wd : World) (this : Nat) (buffer : Int) (x y w h : Int) : World :=
  let r := LockW gbLock wd this
  if r.1 then
    (UnlockW gbUnlock
      (r.2.call (Call.Buffer_To_Page x y w h buffer this)
        (R.Buffer_To_Page x y w h buffer (r.2.heap this) r.2.mem)) this).2
  else r.2

/-- `GraphicViewPortClass::Scale(dest, src_x, src_y, dst_x, dst_y, src_w, src_h,
dst_w, dst_h, trans, remap)` (stub 1).  The result is `none` when
`Linear_Scale_To_Linear` has no defined result. -/
def Scale (char_signed : Bool)
    (gbLock gbUnlock : GraphicViewPortClass → Bool × GraphicViewPortClass)
    (wd : World) (this dest : Nat) (src_x src_y dst_x dst_y src_w src_h dst_w dst_h : Int)
    (trans : Bool) (remap : Option Int) : Option World :=
  let r1 := LockW gbLock wd this
  if r1.1 then
    let r2 := LockW gbLock r1.2 dest
    if r2.1 then
      match Linear_Scale_To_Linear char_signed (r2.2.heap this) (r2.2.heap dest)
          src_x src_y dst_x dst_y src_w src_h dst_w dst_h trans remap r2.2.mem with
      | none => none
      | some mem1 =>
        some (UnlockW gbUnlock (UnlockW gbUnlock { r2.2 with mem := mem1 } dest).2 this).2
    else some (UnlockW gbUnlock r2.2 this).2
  else some r1.2

/-- `GraphicViewPortClass::Scale(dest, src_x, src_y, dst_x, dst_y, src_w, src_h,
dst_w, dst_h, remap)` (stub 2): the flag passed on is 0. -/
def Scale2 (char_signed : Bool)
    (gbLock gbUnlock : GraphicViewPortClass → Bool × GraphicViewPortClass)
    (wd : World) (this dest : Nat) (src_x src_y dst_x dst_y src_w src_h dst_w dst_h : Int)
    (remap : Option Int) : Option World :=
  let r1 := LockW gbLock wd this
  if r1.1 then
    let r2 := LockW gbLock r1.2 dest
    if r2.1 then
      match Linear_Scale_To_Linear char_signed (r2.2.heap this) (r2.2.heap dest)
          src_x src_y dst_x dst_y src_w src_h dst_w dst_h false remap r2.2.mem with
      | none => none
      | some mem1 =>
        some (UnlockW gbUnlock (UnlockW gbUnlock { r2.2 with mem := mem1 } dest).2 this).2
    else some (UnlockW gbUnlock r2.2 this).2
  else some r1.2

/-- `GraphicViewPortClass::Scale(dest, trans, remap)` (stub 3): the sizes are read
after the two Locks. -/
def Scale3 (char_signed : Bool)
    (gbLock gbUnlock : GraphicViewPortClass → Bool × GraphicViewPortClass)
    (wd : World) (this dest : Nat) (trans : Bool) (remap : Option Int) : Option World :=
  let r1 := LockW gbLock wd this
  if r1.1 then
    let r2 := LockW gbLock r1.2 dest
    if r2.1 then
      match Linear_Scale_To_Linear char_signed (r2.2.heap this) (r2.2.heap dest) 0 0 0 0
          (r2.2.heap this).Width (r2.2.heap this).Height
          (r2.2.heap dest).Get_Width (r2.2.heap dest).Get_Height trans remap r2.2.mem with
      | none => none
      | some mem1 =>
        some (UnlockW gbUnlock (UnlockW gbUnlock { r2.2 with mem := mem1 } dest).2 this).2
    else some (UnlockW gbUnlock r2.2 this).2
  else some r1.2

/-- `GraphicViewPortClass::Scale(dest, remap)` (stub 4): the flag passed on is
`false`. -/
def Scale4 (char_signed : Bool)
    (gbLock gbUnlock : GraphicViewPortClass → Bool × GraphicViewPortClass)
    (wd : World) (this dest : Nat) (remap : Option Int) : Option World :=
  let r1 := LockW gbLock wd this
  if r1.1 then
    let r2 := LockW gbLock r1.2 dest
    if r2.1 then
      match Linear_Scale_To_Linear char_signed (r2.2.heap this) (r2.2.heap dest) 0 0 0 0
          (r2.2.heap this).Width (r2.2.heap this).Height
          (r2.2.heap dest).Get_Width (r2.2.heap dest).Get_Height false remap r2.2.mem with
      | none => none
      | some mem1 =>
        some (UnlockW gbUnlock (UnlockW gbUnlock { r2.2 with mem := mem1 } dest).2 this).2
    else some (UnlockW gbUnlock r2.2 this).2
  else some r1.2

/-- `GraphicViewPortClass::Print(str, x, y, fcol, bcol)`, `str` the characters of
the string: the value returned and the world afterwards. -/
def Print (R : DrawBuff) (gbLock gbUnlock : GraphicViewPortClass → Bool × GraphicViewPortClass)
    (wd : World) (this : Nat) (str : String) (x y fcol bcol : Int) : Int × World :=
  let return_code := 0
  let r := LockW gbLock wd this
  if r.1 then
    ((R.Buffer_Print (r.2.heap this) str x y fcol bcol r.2.mem).1,
     (UnlockW gbUnlock
       (r.2.call (Call.Buffer_Print this str x y fcol bcol)
         (R.Buffer_Print (r.2.heap this) str x y fcol bcol r.2.mem).2) this).2)
  else (return_code, r.2)

/-- `GraphicViewPortClass::Print(int num, x, y, fcol, bcol)`: the string printed is
what `snprintf(str, sizeof(str), "%d", num)` leaves in `char str[17]`, the
decimal digits of `num` cut to 16 characters. -/
def Print2 (R : DrawBuff) (gbLock gbUnlock : GraphicViewPortClass → Bool × GraphicViewPortClass)
    (wd : World) (this : Nat) (num : Int) (x y fcol bcol : Int) : Int × World :=
  let return_code := 0
  let r := LockW gbLock wd this
  if r.1 then
    let str := (toString num).take 16
    ((R.Buffer_Print (r.2.heap this) str x y fcol bcol r.2.mem).1,
     (UnlockW gbUnlock
       (r.2.call (Call.Buffer_Print this str x y fcol bcol)
         (R.Buffer_Print (r.2.heap this) str x y fcol bcol r.2.mem).2) this).2)
  else (return_code, r.2)

/-- `GraphicViewPortClass::Print(short num, x, y, fcol, bcol)`: as for `int`, the
`short` being promoted. -/
def Print3 (R : DrawBuff) (gbLock gbUnlock : GraphicViewPortClass → Bool × GraphicViewPortClass)
    (wd : World) (this : Nat) (num : Int) (x y fcol bcol : Int) : Int × World :=
  let return_code := 0
  let r := LockW gbLock wd this
  if r.1 then
    let str := (toString num).take 16
    ((R.Buffer_Print (r.2.heap this) str x y fcol bcol r.2.mem).1,
     (UnlockW gbUnlock
       (r.2.call (Call.Buffer_Print this str x y fcol bcol)
         (R.Buffer_Print (r.2.heap this) str x y fcol bcol r.2.mem).2) this).2)
  else (return_code, r.2)

/-- `GraphicViewPortClass::Print(long num, x, y, fcol, bcol)`: the string is what
`snprintf(str, sizeof(str), "%ld", num)` leaves in `char str[33]`. -/
def Print4 (R : DrawBuff) (gbLock gbUnlock : GraphicViewPortClass → Bool × GraphicViewPortClass)
    (wd : World) (this : Nat) (num : Int) (x y fcol bcol : Int) : Int × World :=
  let return_code := 0
  let r := LockW gbLock wd this
  if r.1 then
    let str := (toString num).take 32
    ((R.Buffer_Print (r.2.heap this) str x y fcol bcol r.2.mem).1,
     (UnlockW gbUnlock
       (r.2.call (Call.Buffer_Print this str x y fcol bcol)
         (R.Buffer_Print (r.2.heap this) str x y fcol bcol r.2.mem).2) this).2)
  else (return_code, r.2)

/-- `GraphicViewPortClass::Draw_Stamp(icondata, icon, x_pixel, y_pixel, remap,
clip_window)`.  The call of `Unlock()` stands after the `if (Lock())` block, not
inside it. -/
def Draw_Stamp (R : DrawBuff) (W : WwWin)
    (gbLock gbUnlock : GraphicViewPortClass → Bool × GraphicViewPortClass)
    (wd : World) (this : Nat) (icondata : Int) (icon x_pixel y_pixel : Int) (remap : Int)
    (clip_window : Int) : World :=
  let r := LockW gbLock wd this
  let w1 :=
    if r.1 then
      r.2.call
        (Call.Buffer_Draw_Stamp_Clip this icondata icon x_pixel y_pixel remap
          (W.WindowList clip_window W.WINDOWX) (W.WindowList clip_window W.WINDOWY)
          (W.WindowList clip_window W.WINDOWWIDTH) (W.WindowList clip_window W.WINDOWHEIGHT))
        (R.Buffer_Draw_Stamp_Clip (r.2.heap this) icondata icon x_pixel y_pixel remap
          (W.WindowList clip_window W.WINDOWX) (W.WindowList clip_window W.WINDOWY)
          (W.WindowList clip_window W.WINDOWWIDTH) (W.WindowList clip_window W.WINDOWHEIGHT)
          r.2.mem)
    else r.2
  (UnlockW gbUnlock w1 this).2

/-- `GraphicViewPortClass::Draw_Line(sx, sy, dx, dy, color)`. -/
def Draw_Line (R : DrawBuff) (gbLock gbUnlock : GraphicViewPortClass → Bool × GraphicViewPortClass)
    (wd : World) (this : Nat) (sx sy dx dy : Int) (color : Nat) : World :=
  let r := LockW gbLock wd this
  if r.1 then
    (UnlockW gbUnlock
      (r.2.call (Call.Buffer_Draw_Line this sx sy dx dy color)
        (R.Buffer_Draw_Line (r.2.heap this) sx sy dx dy color r.2.mem)) this).2
  else r.2

/-- `GraphicViewPortClass::Fill_Rect(sx, sy, dx, dy, color)`.
`AllowHardwareBlitFills` is the global flag of that name, `IsReadyToBlit` what
`Get_DD_Surface()->IsReadyToBlit()` answers for a surface, and `Intersect` is
`Rect::Intersect` of rect.h, `Intersect a b` standing for `a.Intersect(b)`; none
of the three is defined in the sources. -/
def Fill_Rect (R : DrawBuff) (AllowHardwareBlitFills : Bool) (IsReadyToBlit : Nat → Bool)
    (Intersect : Rect → Rect → Rect)
    (gbLock gbUnlock : GraphicViewPortClass → Bool × GraphicViewPortClass)
    (wd : World) (this : Nat) (sx sy dx dy : Int) (color : Nat) : World :=
  if AllowHardwareBlitFills = true ∧ (wd.heap this).IsHardware = true
      ∧ (dx - sx) * (dy - sy) ≥ 32 * 32
      ∧ IsReadyToBlit (wd.heap this).GraphicBuff = true then
    let dest_rectangle : Rect :=
      { X := sx + (wd.heap this).XPos, Y := sy + (wd.heap this).YPos,
        Width := dx - sx, Height := dy - sy }
    let self_rect : Rect :=
      { X := (wd.heap this).XPos, Y := (wd.heap this).YPos,
        Width := (wd.heap this).Width, Height := (wd.heap this).Height }
    { wd with trace := wd.trace ++
        [Call.FillRect (wd.heap this).GraphicBuff (Intersect dest_rectangle self_rect) color] }
  else
    let r := LockW gbLock wd this
    if r.1 then
      (UnlockW gbUnlock
        (r.2.call (Call.Buffer_Fill_Rect this sx sy dx dy color)
          (R.Buffer_Fill_Rect (r.2.heap this) sx sy dx dy color r.2.mem)) this).2
    else r.2

/-- `GraphicViewPortClass::Remap(sx, sy, width, height, remap)`. -/
def Remap (R : DrawBuff) (gbLock gbUnlock : GraphicViewPortClass → Bool × GraphicViewPortClass)
    (wd : World) (this : Nat) (sx sy width height : Int) (remap : Int) : World :=
  let r := LockW gbLock wd this
  if r.1 then
    (UnlockW gbUnlock
      (r.2.call (Call.Buffer_Remap this sx sy width height remap)
        (R.Buffer_Remap (r.2.heap this) sx sy width height remap r.2.mem)) this).2
  else r.2

/-- `GraphicViewPortClass::Remap(remap)`, the short form for the whole viewport:
`Width` and `Height` are read after the Lock. -/
def Remap2 (R : DrawBuff) (gbLock gbUnlock : GraphicViewPortClass → Bool × GraphicViewPortClass)
    (wd : World) (this : Nat) (remap : Int) : World :=
  let r := LockW gbLock wd this
  if r.1 then
    (UnlockW gbUnlock
      (r.2.call (Call.Buffer_Remap this 0 0 (r.2.heap this).Width (r.2.heap this).Height remap)
        (R.Buffer_Remap (r.2.heap this) 0 0 (r.2.heap this).Width (r.2.heap this).Height remap
          r.2.mem)) this).2
  else r.2

/-- `GraphicViewPortClass::Draw_Rect(x1_pixel, y1_pixel, x2_pixel, y2_pixel,
color)`.  The value that `Lock()` returns is not looked at. -/
def Draw_Rect (R : DrawBuff) (gbLock gbUnlock : GraphicViewPortClass → Bool × GraphicViewPortClass)
    (wd : World) (this : Nat) (x1_pixel y1_pixel x2_pixel y2_pixel : Int) (color : Nat) : World :=
  let w0 := (LockW gbLock wd this).2
  let w1 := Draw_Line R gbLock gbUnlock w0 this x1_pixel y1_pixel x2_pixel y1_pixel color
  let w2 := Draw_Line R gbLock gbUnlock w1 this x1_pixel y2_pixel x2_pixel y2_pixel color
  let w3 := Draw_Line R gbLock gbUnlock w2 this x1_pixel y1_pixel x1_pixel y2_pixel color
  let w4 := Draw_Line R gbLock gbUnlock w3 this x2_pixel y1_pixel x2_pixel y2_pixel color
  (UnlockW gbUnlock w4 this).2

end GraphicViewPortClass

/-- Raw routines for examples: `Buffer_Put_Pixel` writes the pixel, `Buffer_Get_Pixel`
reads it, `Buffer_Fill_Rect` and `Buffer_Draw_Line` write the pixel of their first
corner, `Buffer_To_Buffer` and `Buffer_Print` return 7, and the others leave the
memory as it is. -/
def exampleDrawBuff : DrawBuff :=
  { Buffer_Put_Pixel := fun v x y color mem => mem.write (pixelAddr v x y) color,
    Buffer_Get_Pixel := fun v x y mem => (mem (pixelAddr v x y) : Int),
    Buffer_Clear := fun _ _ mem => mem,
    Buffer_To_Buffer := fun _ _ _ _ _ _ _ mem => (7, mem),
    Buffer_To_Page := fun _ _ _ _ _ _ mem => mem,
    Buffer_Print := fun _ _ _ _ _ _ mem => (7, mem),
    Buffer_Draw_Stamp_Clip := fun _ _ _ _ _ _ _ _ _ _ mem => mem,
    Buffer_Draw_Line := fun v sx sy _ _ color mem => mem.write (pixelAddr v sx sy) color,
    Buffer_Fill_Rect := fun v sx sy _ _ color mem => mem.write (pixelAddr v sx sy) color,
    Buffer_Remap := fun _ _ _ _ _ _ mem => mem }

/-- A window table for examples: window `n` is the rectangle (n, n, 10, 10). -/
def exampleWwWin : WwWin :=
  { WindowList := fun n c => if c < 2 then n else 10,
    WINDOWX := 0, WINDOWY := 1, WINDOWWIDTH := 2, WINDOWHEIGHT := 3 }

/-- An intersection of rectangles for examples. -/
def exampleIntersect (a b : Rect) : Rect :=
  { X := max a.X b.X, Y := max a.Y b.Y,
    Width := min (a.X + a.Width) (b.X + b.Width) - max a.X b.X,
    Height := min (a.Y + a.Height) (b.Y + b.Height) - max a.Y b.Y }

/-- A surface Lock that succeeds on a surface 20 wide only, and fails on every
other surface, leaving it as it was. -/
def exampleLockWide (g : GraphicViewPortClass) : Bool × GraphicViewPortClass :=
  if g.Width = 20 then (true, { g with LockCount := g.LockCount + 1 }) else (false, g)

/-- The software example store with a second surface at address 3: 8x8, without
row padding, base address 3000. -/
def exampleTwoSurfaces : World :=
  { heap := fun a =>
      if a = 3 then
        { Offset := 3000, Width := 8, Height := 8, XAdd := 0, XPos := 0, YPos := 0,
          Pitch := 0, GraphicBuff := 3, IsHardware := false, LockCount := 0 }
      else exampleAttached a,
    mem := exampleMemory, trace := [] }

/-- `Set_Logic_Page(GraphicViewPortClass* ptr)`.  The global pointer `LogicPage`
is state: the function takes its value before the call and gives the pointer
returned together with the value of `LogicPage` after the call. -/
def Set_Logic_Page (LogicPage : Nat) (ptr : Nat) : Nat × Nat :=
  let old := LogicPage
  let LogicPage := ptr
  (old, LogicPage)

/-- `Set_Logic_Page(GraphicViewPortClass& ptr)`, `ptr` being the address `&ptr` of
the object referred to. -/
def Set_Logic_Page2 (LogicPage : Nat) (ptr : Nat) : Nat × Nat :=
  let old := LogicPage
  let LogicPage := ptr
  (old, LogicPage)

namespace GraphicViewPortClass

/-- `Fat_Put_Pixel` as an operation on the world, called on the object at address
`this`: it reads the fields of the viewport and writes the memory; it calls no
collaborator, so the objects and the recorded calls stay as they are. -/
def Fat_Put_PixelW (wd : World) (this : Nat) (x y : Nat) (color : Nat) (size : Nat) : World :=
  { wd with mem := Fat_Put_Pixel (wd.heap this) x y color size wd.mem }

end GraphicViewPortClass

/-- The branch of `Linear_Blit_To_Linear` taken when `src < dst`, with `src`,
`dst` the start addresses of the two rectangles and `w`, `h` the clipped size:
the row pointers start at the last row, `esrc` and `edst`, and step back. -/
def blitReverseBranch (use_key : Int) (dst src dst_pitch src_pitch w h : Int) (mem : Memory) :
    Option Memory :=
  let esrc := src + (h - 1) * src_pitch
  let edst := dst + (h - 1) * dst_pitch
  if use_key ≠ 0 then
    (whileRows (fun s => some { dst := s.dst - dst_pitch, src := s.src - src_pitch,
                                mem := keyRowReverse s.mem s.dst s.src w })
      h.toNat h { dst := edst, src := esrc, mem := mem }).map BlitState.mem
  else
    (whileRows (fun s => (memmove s.mem s.dst s.src w).map (fun mem1 =>
                  { dst := s.dst - dst_pitch, src := s.src - src_pitch, mem := mem1 }))
      h.toNat h { dst := edst, src := esrc, mem := mem }).map BlitState.mem

/-- The branch of `Linear_Blit_To_Linear` taken when `src < dst` does not hold:
the row pointers start at the first row and step forward. -/
def blitForwardBranch (use_key : Int) (dst src dst_pitch src_pitch w h : Int) (mem : Memory) :
    Option Memory :=
  if use_key ≠ 0 then
    (whileRows (fun s => some { dst := s.dst + dst_pitch, src := s.src + src_pitch,
                                mem := keyRowForward s.mem s.dst s.src w })
      h.toNat h { dst := dst, src := src, mem := mem }).map BlitState.mem
  else
    (whileRows (fun s => (memmove s.mem s.dst s.src w).map (fun mem1 =>
                  { dst := s.dst + dst_pitch, src := s.src + src_pitch, mem := mem1 }))
      h.toNat h { dst := dst, src := src, mem := mem }).map BlitState.mem

/-- The two clamping tests of Attach on a coordinate compute min(max(x, 0), W - 1). -/
theorem clamp_eq (x W : Int) :
    (if (if x < 0 then 0 else x) ≥ W then W - 1 else if x < 0 then 0 else x)
      = min (max x 0) (W - 1) := by
  split_ifs <;> omega

/-- Clamping a clamped coordinate again changes nothing. -/
theorem clamp_idem (x W : Int) (hW : 1 ≤ W) :
    min (max (min (max x 0) (W - 1)) 0) (W - 1) = min (max x 0) (W - 1) := by
  omega

/-- The size adjustment of Attach applied to its own result changes nothing. -/
theorem shrink_idem (x w W : Int) :
    (if intAdd x (if intAdd x w > W then W - x else w) > W then W - x
      else (if intAdd x w > W then W - x else w))
      = (if intAdd x w > W then W - x else w) := by
  by_cases hc : intAdd x w > W
  · simp only [if_pos hc, ite_self]
  · simp only [if_neg hc]

/-- The object that Attach leaves at `this` when the guard does not fire. -/
theorem Attach_at_this (m : Heap) (this gbuffer : Nat) (x y w h : Int)
    (hself : this ≠ (m this).GraphicBuff) :
    Attach m this gbuffer x y w h this =
      { Offset := (m gbuffer).Offset
          + ((m gbuffer).Width + (m gbuffer).Pitch) * min (max y 0) ((m gbuffer).Height - 1)
          + min (max x 0) ((m gbuffer).Width - 1)
        XPos := min (max x 0) ((m gbuffer).Width - 1)
        YPos := min (max y 0) ((m gbuffer).Height - 1)
        XAdd := (m gbuffer).Width
          - (if intAdd (min (max x 0) ((m gbuffer).Width - 1)) w > (m gbuffer).Width
             then (m gbuffer).Width - min (max x 0) ((m gbuffer).Width - 1) else w)
        Width := if intAdd (min (max x 0) ((m gbuffer).Width - 1)) w > (m gbuffer).Width
          then (m gbuffer).Width - min (max x 0) ((m gbuffer).Width - 1) else w
        Height := if intAdd (min (max y 0) ((m gbuffer).Height - 1)) h > (m gbuffer).Height
          then (m gbuffer).Height - min (max y 0) ((m gbuffer).Height - 1) else h
        Pitch := (m gbuffer).Pitch
        GraphicBuff := gbuffer
        IsHardware := (m gbuffer).IsHardware
        LockCount := (m this).LockCount } := by
  simp only [Attach, Get_Graphic_Buffer, Get_Width, Get_Height, Get_Offset, Get_Pitch,
    if_neg hself, Heap.set, if_true, clamp_eq]

/-- Attach writes no object other than `this`. -/
theorem Attach_at_other (m : Heap) (this gbuffer q : Nat) (x y w h : Int) (hq : q ≠ this) :
    Attach m this gbuffer x y w h q = m q := by
  by_cases hself : this = (m this).Get_Graphic_Buffer
  · simp only [Attach, if_pos hself]
  · simp only [Attach, if_neg hself, Heap.set, if_neg hq]

/-- C1, counterexample: on the 20x20 example surface Attach(surface, 5, 0,
2147483647, 4) clamps nothing, the `int` sum 5 + 2147483647 comes out as
-2147483644, which is not larger than 20, so the width stays 2147483647 and
XPos + Width = 2147483652 is larger than the surface's Width; in the same way
Attach(surface, 0, 5, 4, 2147483647) stores the height 2147483647 at YPos = 5. -/
theorem Attach_within_surface_counterexample :
    (2 ≠ (exampleHeap 2).GraphicBuff ∧ 1 ≤ (exampleHeap 1).Width ∧ 1 ≤ (exampleHeap 1).Height) ∧
    (intAdd 5 2147483647 = -2147483644 ∧
     (Attach exampleHeap 2 1 5 0 2147483647 4 2).XPos = 5 ∧
     (Attach exampleHeap 2 1 5 0 2147483647 4 2).Width = 2147483647 ∧
     ¬ ((Attach exampleHeap 2 1 5 0 2147483647 4 2).XPos
          + (Attach exampleHeap 2 1 5 0 2147483647 4 2).Width ≤ (exampleHeap 1).Width)) ∧
    ((Attach exampleHeap 2 1 0 5 4 2147483647 2).YPos = 5 ∧
     (Attach exampleHeap 2 1 0 5 4 2147483647 2).Height = 2147483647 ∧
     ¬ ((Attach exampleHeap 2 1 0 5 4 2147483647 2).YPos
          + (Attach exampleHeap 2 1 0 5 4 2147483647 2).Height ≤ (exampleHeap 1).Height)) := by
  decide

/-- C1, amended: for a surface with Width >= 1 and Height >= 1 and any x, y, w,
h, Attach on a viewport that is not a self-view leaves it with 0 <= XPos and
0 <= YPos; with XPos + Width <= surface.Width when the sum XPos + w of the
clamped position and the width asked for is at most 2147483647, the largest
`int`; and with YPos + Height <= surface.Height when YPos + h is at most
2147483647. -/
theorem Attach_within_surface (m : Heap) (this gbuffer : Nat) (x y w h : Int)
    (hself : this ≠ (m this).GraphicBuff)
    (hW : 1 ≤ (m gbuffer).Width) (hH : 1 ≤ (m gbuffer).Height) :
    0 ≤ (Attach m this gbuffer x y w h this).XPos ∧
    0 ≤ (Attach m this gbuffer x y w h this).YPos ∧
    ((Attach m this gbuffer x y w h this).XPos + w ≤ 2147483647 →
      (Attach m this gbuffer x y w h this).XPos + (Attach m this gbuffer x y w h this).Width
        ≤ (m gbuffer).Width) ∧
    ((Attach m this gbuffer x y w h this).YPos + h ≤ 2147483647 →
      (Attach m this gbuffer x y w h this).YPos + (Attach m this gbuffer x y w h this).Height
        ≤ (m gbuffer).Height) := by
  rw [Attach_at_this m this gbuffer x y w h hself]
  simp only [intAdd]
  refine ⟨by omega, by omega, ?_, ?_⟩
  · intro hr
    split_ifs <;> omega
  · intro hr
    split_ifs <;> omega

/-- C1 (amended) at a concrete call: a default-constructed viewport attached to
the 20x20 example surface at (-3, 25) with size 30x4; the sums of the size tests
are 0 + 30 and 19 + 4. -/
theorem Attach_within_surface_witness :
    (2 ≠ (exampleHeap 2).GraphicBuff ∧ 1 ≤ (exampleHeap 1).Width ∧ 1 ≤ (exampleHeap 1).Height ∧
     (Attach exampleHeap 2 1 (-3) 25 30 4 2).XPos + 30 ≤ 2147483647 ∧
     (Attach exampleHeap 2 1 (-3) 25 30 4 2).YPos + 4 ≤ 2147483647) ∧
    0 ≤ (Attach exampleHeap 2 1 (-3) 25 30 4 2).XPos ∧
    0 ≤ (Attach exampleHeap 2 1 (-3) 25 30 4 2).YPos ∧
    (Attach exampleHeap 2 1 (-3) 25 30 4 2).XPos + (Attach exampleHeap 2 1 (-3) 25 30 4 2).Width
      ≤ (exampleHeap 1).Width ∧
    (Attach exampleHeap 2 1 (-3) 25 30 4 2).YPos + (Attach exampleHeap 2 1 (-3) 25 30 4 2).Height
      ≤ (exampleHeap 1).Height :=
  ⟨by decide,
   (Attach_within_surface exampleHeap 2 1 (-3) 25 30 4 (by decide) (by decide) (by decide)).1,
   (Attach_within_surface exampleHeap 2 1 (-3) 25 30 4 (by decide) (by decide) (by decide)).2.1,
   (Attach_within_surface exampleHeap 2 1 (-3) 25 30 4 (by decide) (by decide)
      (by decide)).2.2.1 (by decide),
   (Attach_within_surface exampleHeap 2 1 (-3) 25 30 4 (by decide) (by decide)
      (by decide)).2.2.2 (by decide)⟩

/-- C2, counterexample: the example surface (Width 20, Height 20) is its own
self-view; Attach with x = 5, y = 7 called on it stores nothing, so XPos and YPos
stay 0 and are not the clamped values 5 and 7. -/
theorem Attach_clamp_selfview_counterexample :
    (1 ≤ (exampleHeap 1).Width ∧ 1 ≤ (exampleHeap 1).Height) ∧
    (Attach exampleHeap 1 1 5 7 10 10 1).XPos = 0 ∧
    (Attach exampleHeap 1 1 5 7 10 10 1).YPos = 0 ∧
    min (max (5 : Int) 0) ((exampleHeap 1).Width - 1) = 5 ∧
    min (max (7 : Int) 0) ((exampleHeap 1).Height - 1) = 7 ∧
    (Attach exampleHeap 1 1 5 7 10 10 1).XPos ≠ min (max (5 : Int) 0) ((exampleHeap 1).Width - 1) ∧
    (Attach exampleHeap 1 1 5 7 10 10 1).YPos ≠ min (max (7 : Int) 0) ((exampleHeap 1).Height - 1) := by
  decide

/-- C2, amended: on a viewport that is not a self-view, Attach stores
XPos = min(max(x, 0), surface.Width - 1) and YPos = min(max(y, 0), surface.Height - 1),
so that XPos < surface.Width and YPos < surface.Height. -/
theorem Attach_clamps_position (m : Heap) (this gbuffer : Nat) (x y w h : Int)
    (hself : this ≠ (m this).GraphicBuff) :
    (Attach m this gbuffer x y w h this).XPos = min (max x 0) ((m gbuffer).Width - 1) ∧
    (Attach m this gbuffer x y w h this).YPos = min (max y 0) ((m gbuffer).Height - 1) ∧
    (Attach m this gbuffer x y w h this).XPos < (m gbuffer).Width ∧
    (Attach m this gbuffer x y w h this).YPos < (m gbuffer).Height := by
  simp only [Attach, Get_Graphic_Buffer, Get_Width, Get_Height, Get_Offset, Get_Pitch,
    if_neg hself, Heap.set, if_true]
  refine ⟨?_, ?_, ?_, ?_⟩ <;> split_ifs <;> omega

/-- C2 (amended) at a concrete call: the default-constructed viewport at address 2
attached to the example surface at (-3, 25). -/
theorem Attach_clamps_position_witness :
    2 ≠ (exampleHeap 2).GraphicBuff ∧
    ((Attach exampleHeap 2 1 (-3) 25 30 4 2).XPos = min (max (-3) 0) ((exampleHeap 1).Width - 1) ∧
     (Attach exampleHeap 2 1 (-3) 25 30 4 2).YPos = min (max 25 0) ((exampleHeap 1).Height - 1) ∧
     (Attach exampleHeap 2 1 (-3) 25 30 4 2).XPos < (exampleHeap 1).Width ∧
     (Attach exampleHeap 2 1 (-3) 25 30 4 2).YPos < (exampleHeap 1).Height) :=
  ⟨by decide, Attach_clamps_position exampleHeap 2 1 (-3) 25 30 4 (by decide)⟩

/-- C3: after Attach on a viewport that is not a self-view,
Offset = surface.Offset + (surface.Width + surface.Pitch) * YPos + XPos for the
stored XPos and YPos, which are the clamped coordinates, not the arguments. -/
theorem Attach_offset (m : Heap) (this gbuffer : Nat) (x y w h : Int)
    (hself : this ≠ (m this).GraphicBuff) :
    (Attach m this gbuffer x y w h this).Offset
      = (m gbuffer).Offset
        + ((m gbuffer).Width + (m gbuffer).Pitch) * (Attach m this gbuffer x y w h this).YPos
        + (Attach m this gbuffer x y w h this).XPos ∧
    (Attach m this gbuffer x y w h this).Offset
      = (m gbuffer).Offset
        + ((m gbuffer).Width + (m gbuffer).Pitch) * min (max y 0) ((m gbuffer).Height - 1)
        + min (max x 0) ((m gbuffer).Width - 1) := by
  simp only [Attach, Get_Graphic_Buffer, Get_Width, Get_Height, Get_Offset, Get_Pitch,
    if_neg hself, Heap.set, if_true]
  refine ⟨trivial, ?_⟩
  have hx : (if (if x < 0 then 0 else x) ≥ (m gbuffer).Width then (m gbuffer).Width - 1
      else if x < 0 then 0 else x) = min (max x 0) ((m gbuffer).Width - 1) := by
    split_ifs <;> omega
  have hy : (if (if y < 0 then 0 else y) ≥ (m gbuffer).Height then (m gbuffer).Height - 1
      else if y < 0 then 0 else y) = min (max y 0) ((m gbuffer).Height - 1) := by
    split_ifs <;> omega
  rw [hx, hy]

/-- C3 at a concrete call: attached at (-3, 25) the viewport starts at column 0
of row 19, at address 1000 + (20 + 4) * 19 + 0 = 1456. -/
theorem Attach_offset_witness :
    2 ≠ (exampleHeap 2).GraphicBuff ∧
    (Attach exampleHeap 2 1 (-3) 25 30 4 2).Offset = 1456 ∧
    ((Attach exampleHeap 2 1 (-3) 25 30 4 2).Offset
      = (exampleHeap 1).Offset
        + ((exampleHeap 1).Width + (exampleHeap 1).Pitch) * (Attach exampleHeap 2 1 (-3) 25 30 4 2).YPos
        + (Attach exampleHeap 2 1 (-3) 25 30 4 2).XPos ∧
     (Attach exampleHeap 2 1 (-3) 25 30 4 2).Offset
      = (exampleHeap 1).Offset
        + ((exampleHeap 1).Width + (exampleHeap 1).Pitch) * min (max 25 0) ((exampleHeap 1).Height - 1)
        + min (max (-3) 0) ((exampleHeap 1).Width - 1)) :=
  ⟨by decide, by decide, Attach_offset exampleHeap 2 1 (-3) 25 30 4 (by decide)⟩

/-- C5: on the degenerate self-view (this == its GraphicBuff), for every gbuffer,
x, y, w, h, Attach leaves the whole store, hence every field of the viewport,
unchanged, and Change returns false and leaves the store unchanged. -/
theorem Attach_Change_selfview_noop (m : Heap) (this gbuffer : Nat) (x y w h : Int)
    (hself : this = (m this).GraphicBuff) :
    Attach m this gbuffer x y w h = m ∧ Change m this x y w h = (false, m) := by
  constructor
  · simp only [Attach, Get_Graphic_Buffer, if_pos hself]
  · simp only [Change, Get_Graphic_Buffer, if_pos hself]

/-- C5 at a concrete call: the example surface is its own self-view. -/
theorem Attach_Change_selfview_noop_witness :
    1 = (exampleHeap 1).GraphicBuff ∧
    (Attach exampleHeap 1 1 5 7 10 10 = exampleHeap ∧
     Change exampleHeap 1 5 7 10 10 = (false, exampleHeap)) :=
  ⟨by decide, Attach_Change_selfview_noop exampleHeap 1 1 5 7 10 10 (by decide)⟩

/-- C6: on a viewport that is not the degenerate self-view, Change(x, y, w, h)
returns true and leaves the store exactly as Attach(own backing surface, x, y, w, h)
leaves it. -/
theorem Change_is_Attach_to_own_surface (m : Heap) (this : Nat) (x y w h : Int)
    (hself : this ≠ (m this).GraphicBuff) :
    (Change m this x y w h).1 = true ∧
    (Change m this x y w h).2 = Attach m this (m this).GraphicBuff x y w h := by
  simp only [Change, Get_Graphic_Buffer, if_neg hself, and_self]

/-- C6 at a concrete call: the attached example viewport is moved to (1, 1) with
size 5x5. -/
theorem Change_is_Attach_to_own_surface_witness :
    2 ≠ (exampleAttached 2).GraphicBuff ∧
    ((Change exampleAttached 2 1 1 5 5).1 = true ∧
     (Change exampleAttached 2 1 1 5 5).2
       = Attach exampleAttached 2 (exampleAttached 2).GraphicBuff 1 1 5 5) :=
  ⟨by decide, Change_is_Attach_to_own_surface exampleAttached 2 1 1 5 5 (by decide)⟩

/-- C7: for a viewport that is not a self-view and was attached to a surface with
Width >= 1 and Height >= 1 (its Offset may have been overwritten since), a Lock
for which the surface's Lock succeeds, leaving the surface with the Width, Height
and Pitch it had, returns true, leaves XPos, YPos, Width, Height, XAdd and Pitch
unchanged, and sets Offset to surface.Offset + (surface.Width + surface.Pitch) *
YPos + XPos for the surface as its Lock left it. -/
theorem Lock_success_reattaches
    (gbLock : GraphicViewPortClass → Bool × GraphicViewPortClass)
    (m0 m : Heap) (this gb : Nat) (x y w h off : Int)
    (h0 : this ≠ (m0 this).GraphicBuff) (hne : this ≠ gb)
    (hW : 1 ≤ (m0 gb).Width) (hH : 1 ≤ (m0 gb).Height)
    (hvp : m this = { Attach m0 this gb x y w h this with Offset := off })
    (hok : (gbLock (m gb)).1 = true)
    (hWidth : (gbLock (m gb)).2.Width = (m0 gb).Width)
    (hHeight : (gbLock (m gb)).2.Height = (m0 gb).Height)
    (hPitch : (gbLock (m gb)).2.Pitch = (m0 gb).Pitch) :
    (Lock gbLock m this).1 = true ∧
    ((Lock gbLock m this).2 this).XPos = (m this).XPos ∧
    ((Lock gbLock m this).2 this).YPos = (m this).YPos ∧
    ((Lock gbLock m this).2 this).Width = (m this).Width ∧
    ((Lock gbLock m this).2 this).Height = (m this).Height ∧
    ((Lock gbLock m this).2 this).XAdd = (m this).XAdd ∧
    ((Lock gbLock m this).2 this).Pitch = (m this).Pitch ∧
    (Lock gbLock m this).2 gb = (gbLock (m gb)).2 ∧
    ((Lock gbLock m this).2 this).Offset
      = ((Lock gbLock m this).2 gb).Offset
        + (((Lock gbLock m this).2 gb).Width + ((Lock gbLock m this).2 gb).Pitch) * (m this).YPos
        + (m this).XPos := by
  rw [Attach_at_this m0 this gb x y w h h0] at hvp
  have hgb : (m this).GraphicBuff = gb := by rw [hvp]
  have hgne : gb ≠ this := fun e => hne e.symm
  have hm1 : (m.set gb (gbLock (m gb)).2) this = m this := by
    simp only [Heap.set, if_neg hne]
  have hm1g : (m.set gb (gbLock (m gb)).2) gb = (gbLock (m gb)).2 := by
    simp only [Heap.set, if_true]
  have hL : Lock gbLock m this = (true, Attach (m.set gb (gbLock (m gb)).2) this gb
      (m this).XPos (m this).YPos (m this).Width (m this).Height) := by
    simp only [Lock, hgb, hok, hm1, Bool.not_true, Bool.false_eq_true, if_false, ne_eq, hne,
      not_false_eq_true, if_true]
  have hs : this ≠ ((m.set gb (gbLock (m gb)).2) this).GraphicBuff := by
    rw [hm1, hgb]; exact hne
  rw [hL]
  simp only [Attach_at_this _ this gb _ _ _ _ hs, Attach_at_other _ this gb gb _ _ _ _ hgne,
    hm1, hm1g, hWidth, hHeight, hPitch]
  rw [hvp]
  simp only [true_and, clamp_idem x _ hW, clamp_idem y _ hH, shrink_idem]

/-- C7 at a concrete call: the attached example viewport (at (2, 3), Offset 1074)
is locked; the surface's Lock hands out base address 5000; the viewport's Offset
becomes 5000 + 24 * 3 + 2 = 5074. -/
theorem Lock_success_reattaches_witness :
    (2 ≠ (exampleHeap 2).GraphicBuff ∧ 2 ≠ 1 ∧
     1 ≤ (exampleHeap 1).Width ∧ 1 ≤ (exampleHeap 1).Height ∧
     exampleAttached 2 = { Attach exampleHeap 2 1 2 3 10 8 2 with Offset := 1074 } ∧
     (exampleLockOk (exampleAttached 1)).1 = true ∧
     (exampleLockOk (exampleAttached 1)).2.Width = (exampleHeap 1).Width ∧
     (exampleLockOk (exampleAttached 1)).2.Height = (exampleHeap 1).Height ∧
     (exampleLockOk (exampleAttached 1)).2.Pitch = (exampleHeap 1).Pitch) ∧
    ((Lock exampleLockOk exampleAttached 2).2 2).Offset = 5074 ∧
    ((Lock exampleLockOk exampleAttached 2).1 = true ∧
     ((Lock exampleLockOk exampleAttached 2).2 2).XPos = (exampleAttached 2).XPos ∧
     ((Lock exampleLockOk exampleAttached 2).2 2).YPos = (exampleAttached 2).YPos ∧
     ((Lock exampleLockOk exampleAttached 2).2 2).Width = (exampleAttached 2).Width ∧
     ((Lock exampleLockOk exampleAttached 2).2 2).Height = (exampleAttached 2).Height ∧
     ((Lock exampleLockOk exampleAttached 2).2 2).XAdd = (exampleAttached 2).XAdd ∧
     ((Lock exampleLockOk exampleAttached 2).2 2).Pitch = (exampleAttached 2).Pitch ∧
     (Lock exampleLockOk exampleAttached 2).2 1 = (exampleLockOk (exampleAttached 1)).2 ∧
     ((Lock exampleLockOk exampleAttached 2).2 2).Offset
       = ((Lock exampleLockOk exampleAttached 2).2 1).Offset
         + (((Lock exampleLockOk exampleAttached 2).2 1).Width
            + ((Lock exampleLockOk exampleAttached 2).2 1).Pitch) * (exampleAttached 2).YPos
         + (exampleAttached 2).XPos) :=
  ⟨by decide, by decide,
   Lock_success_reattaches exampleLockOk exampleHeap exampleAttached 2 1 2 3 10 8 1074
     (by decide) (by decide) (by decide) (by decide) (by decide) (by decide) (by decide)
     (by decide) (by decide)⟩

/-- C8: if the backing surface's Lock fails, the viewport's Lock returns false
and leaves every field of the viewport unchanged.  (When the viewport is the
surface object itself its fields are the surface's, so this needs the failed
surface Lock to have left the surface as it was.) -/
theorem Lock_failure_changes_nothing
    (gbLock : GraphicViewPortClass → Bool × GraphicViewPortClass) (m : Heap) (this : Nat)
    (hfail : (gbLock (m (m this).GraphicBuff)).1 = false)
    (hframe : this ≠ (m this).GraphicBuff
      ∨ (gbLock (m (m this).GraphicBuff)).2 = m (m this).GraphicBuff) :
    (Lock gbLock m this).1 = false ∧ (Lock gbLock m this).2 this = m this := by
  simp only [Lock, hfail, Bool.not_false, if_true, Heap.set, true_and]
  rcases hframe with hne | hsame
  · simp only [if_neg hne]
  · split_ifs with h
    · rw [hsame, ← h]
    · rfl

/-- C8 at a concrete call: the attached example viewport, surface Lock failing. -/
theorem Lock_failure_changes_nothing_witness :
    ((exampleLockFail (exampleAttached (exampleAttached 2).GraphicBuff)).1 = false ∧
     (2 ≠ (exampleAttached 2).GraphicBuff
      ∨ (exampleLockFail (exampleAttached (exampleAttached 2).GraphicBuff)).2
          = exampleAttached (exampleAttached 2).GraphicBuff)) ∧
    ((Lock exampleLockFail exampleAttached 2).1 = false ∧
     (Lock exampleLockFail exampleAttached 2).2 2 = exampleAttached 2) :=
  ⟨by decide, Lock_failure_changes_nothing exampleLockFail exampleAttached 2
     (by decide) (by decide)⟩

/-- C9: the viewport's Unlock returns the flag of the surface's Unlock.  For a
viewport that is not the surface itself the object afterwards is the object
before with Offset set to 0 exactly when the surface's Unlock succeeded, IsHardware
is true and the surface's lock count, after its Unlock, is zero; in every other
case, a failed surface Unlock among them, it is the object before, and no field
other than Offset differs in either case.  For the surface itself the viewport's
Unlock writes nothing: the object is as the surface's own Unlock left it (the
surface's Unlock being taken not to re-point the surface's GraphicBuff). -/
theorem Unlock_offset_sentinel
    (gbUnlock : GraphicViewPortClass → Bool × GraphicViewPortClass) (m : Heap) (this : Nat)
    (hgb : this ≠ (m this).GraphicBuff
      ∨ (gbUnlock (m (m this).GraphicBuff)).2.GraphicBuff = (m this).GraphicBuff) :
    (Unlock gbUnlock m this).1 = (gbUnlock (m (m this).GraphicBuff)).1 ∧
    (Unlock gbUnlock m this).2 this =
      (if this = (m this).GraphicBuff then (gbUnlock (m (m this).GraphicBuff)).2
       else if (gbUnlock (m (m this).GraphicBuff)).1 = true ∧ (m this).IsHardware = true
           ∧ (gbUnlock (m (m this).GraphicBuff)).2.LockCount = 0
         then { m this with Offset := 0 }
         else m this) := by
  by_cases hself : this = (m this).GraphicBuff
  · have hg : (gbUnlock (m (m this).GraphicBuff)).2.GraphicBuff = (m this).GraphicBuff := by
      rcases hgb with h | h
      · exact absurd hself h
      · exact h
    have hm1 : (m.set (m this).GraphicBuff (gbUnlock (m (m this).GraphicBuff)).2) this
        = (gbUnlock (m (m this).GraphicBuff)).2 := by
      simp only [Heap.set, if_pos hself]
    have hns : ¬ (this ≠ (gbUnlock (m (m this).GraphicBuff)).2.GraphicBuff) := by
      rw [hg]; exact fun h => h hself
    cases hr : (gbUnlock (m (m this).GraphicBuff)).1 <;>
      simp [Unlock, hr, hm1, hns, if_pos hself]
  · have hm1 : (m.set (m this).GraphicBuff (gbUnlock (m (m this).GraphicBuff)).2) this
        = m this := by
      simp only [Heap.set, if_neg hself]
    have hm1g : (m.set (m this).GraphicBuff (gbUnlock (m (m this).GraphicBuff)).2)
        (m this).GraphicBuff = (gbUnlock (m (m this).GraphicBuff)).2 := by
      simp only [Heap.set, if_true]
    cases hr : (gbUnlock (m (m this).GraphicBuff)).1
    · simp [Unlock, hr, hm1, if_neg hself]
    · by_cases hc : (m this).IsHardware = true
          ∧ (gbUnlock (m (m this).GraphicBuff)).2.LockCount = 0
      · simp [Unlock, hr, hm1, hm1g, if_neg hself, hself, hc, Heap.set]
      · have hc2 : ¬ (this ≠ (m this).GraphicBuff ∧ (m this).IsHardware = true
            ∧ (gbUnlock (m (m this).GraphicBuff)).2.LockCount = 0) := fun h => hc h.2
        simp only [Unlock, hr, hm1, hm1g, Bool.not_true, Bool.false_eq_true, if_false,
          if_neg hc2, if_neg hself, true_and, if_neg hc]

/-- C9 at a concrete call: the hardware example viewport (Offset 1074) is unlocked
and the surface's lock count drops from 1 to 0, so Offset becomes the sentinel 0
and nothing else changes. -/
theorem Unlock_offset_sentinel_witness :
    (2 ≠ (exampleHardware 2).GraphicBuff
      ∨ (exampleUnlockOk (exampleHardware (exampleHardware 2).GraphicBuff)).2.GraphicBuff
          = (exampleHardware 2).GraphicBuff) ∧
    (exampleHardware 2).Offset = 1074 ∧
    (Unlock exampleUnlockOk exampleHardware 2).2 2 = { exampleHardware 2 with Offset := 0 } ∧
    ((Unlock exampleUnlockOk exampleHardware 2).1
       = (exampleUnlockOk (exampleHardware (exampleHardware 2).GraphicBuff)).1 ∧
     (Unlock exampleUnlockOk exampleHardware 2).2 2 =
      (if 2 = (exampleHardware 2).GraphicBuff
       then (exampleUnlockOk (exampleHardware (exampleHardware 2).GraphicBuff)).2
       else if (exampleUnlockOk (exampleHardware (exampleHardware 2).GraphicBuff)).1 = true
           ∧ (exampleHardware 2).IsHardware = true
           ∧ (exampleUnlockOk (exampleHardware (exampleHardware 2).GraphicBuff)).2.LockCount = 0
         then { exampleHardware 2 with Offset := 0 }
         else exampleHardware 2)) :=
  ⟨by decide, by decide, by decide,
   Unlock_offset_sentinel exampleUnlockOk exampleHardware 2 (by decide)⟩

/-- A row loop entered with h = 0 ends at once, whatever the fuel. -/
theorem whileRows_zero (body : BlitState → Option BlitState) (fuel : Nat) (s : BlitState) :
    whileRows body fuel 0 s = some s := by
  cases fuel <;> simp [whileRows]

/-- A row loop entered with a negative h never ends, whatever the fuel: the test
`h-- != 0` holds at every iteration. -/
theorem whileRows_negative (body : BlitState → Option BlitState) (fuel : Nat) :
    ∀ (h : Int) (s : BlitState), h < 0 → whileRows body fuel h s = none := by
  induction fuel with
  | zero =>
    intro h s hneg
    have hne : h ≠ 0 := by omega
    simp [whileRows, hne]
  | succ n ih =>
    intro h s hneg
    have hne : h ≠ 0 := by omega
    simp only [whileRows, if_pos hne]
    cases hb : body s with
    | none => rfl
    | some s1 => exact ih (h - 1) s1 (by omega)

/-- C10, amended: Linear_Blit_To_Linear returns with the memory, hence the
destination buffer, unchanged whenever src_x >= src.Width, src_y >= src.Height,
dst_x >= dst.Width, dst_y >= dst.Height, h < 0 or w < 1, and also when h == 0 and
the destination viewport's Height is not negative. -/
theorem Linear_Blit_To_Linear_rejected (this dst_vp : GraphicViewPortClass)
    (src_x src_y dst_x dst_y w h use_key : Int) (mem : Memory)
    (hrej : src_x ≥ this.Width ∨ src_y ≥ this.Height ∨ dst_x ≥ dst_vp.Width
      ∨ dst_y ≥ dst_vp.Height ∨ h < 0 ∨ w < 1 ∨ (h = 0 ∧ 0 ≤ dst_vp.Height)) :
    Linear_Blit_To_Linear this dst_vp src_x src_y dst_x dst_y w h use_key mem = some mem := by
  by_cases hchk : src_x ≥ this.Width ∨ src_y ≥ this.Height ∨ dst_x ≥ dst_vp.Width
      ∨ dst_y ≥ dst_vp.Height ∨ h < 0 ∨ w < 1
  · simp only [Linear_Blit_To_Linear, if_pos hchk]
  · have hh : h = 0 ∧ 0 ≤ dst_vp.Height := by
      rcases hrej with h1 | h1 | h1 | h1 | h1 | h1 | h1
      · exact absurd (Or.inl h1) hchk
      · exact absurd (Or.inr (Or.inl h1)) hchk
      · exact absurd (Or.inr (Or.inr (Or.inl h1))) hchk
      · exact absurd (Or.inr (Or.inr (Or.inr (Or.inl h1)))) hchk
      · exact absurd (Or.inr (Or.inr (Or.inr (Or.inr (Or.inl h1))))) hchk
      · exact absurd (Or.inr (Or.inr (Or.inr (Or.inr (Or.inr h1))))) hchk
      · exact h1
    obtain ⟨h0, hH⟩ := hh
    subst h0
    have hy : ¬ dst_y ≥ dst_vp.Height := fun e => hchk (Or.inr (Or.inr (Or.inr (Or.inl e))))
    have hclip : ¬ (max 0 dst_y + 0 > dst_vp.Height) := by omega
    simp only [Linear_Blit_To_Linear, if_neg hchk, if_neg hclip, whileRows_zero]
    split_ifs <;> rfl

/-- C10 (amended) at a concrete call: a blit of width 4 and height 0 from the
example surface to the attached example viewport is accepted by the rejection
test and copies nothing. -/
theorem Linear_Blit_To_Linear_rejected_witness :
    ((0 : Int) ≥ (exampleHeap 1).Width ∨ (0 : Int) ≥ (exampleHeap 1).Height
      ∨ (0 : Int) ≥ (exampleAttached 2).Width ∨ (0 : Int) ≥ (exampleAttached 2).Height
      ∨ (0 : Int) < 0 ∨ (4 : Int) < 1 ∨ ((0 : Int) = 0 ∧ 0 ≤ (exampleAttached 2).Height)) ∧
    Linear_Blit_To_Linear (exampleHeap 1) (exampleAttached 2) 0 0 0 0 4 0 0 exampleMemory
      = some exampleMemory :=
  ⟨by decide, Linear_Blit_To_Linear_rejected (exampleHeap 1) (exampleAttached 2) 0 0 0 0 4 0 0
     exampleMemory (by decide)⟩

/-- C10, counterexample: the destination is the viewport left by
Attach(surface, 0, 0, 10, -3), whose Height is -3.  The call with src_x = 5,
dst_y = -5, w = 1, h = 0 passes the rejection test (-5 >= -3 is false), dst_y is
clamped to 0 and h becomes -3 - 1 - 0 = -4, so the row loop is entered with a
negative h: it never ends, and its first pass stores the byte of address 1005
(237) over the destination byte at address 1000 (232). -/
theorem Linear_Blit_To_Linear_zero_rows_counterexample :
    exampleNegativeHeight.Height = -3 ∧
    Linear_Blit_To_Linear (exampleHeap 1) exampleNegativeHeight 5 0 0 (-5) 1 0 0 exampleMemory
      = none ∧
    Linear_Blit_To_Linear (exampleHeap 1) exampleNegativeHeight 5 0 0 (-5) 1 0 0 exampleMemory
      ≠ some exampleMemory ∧
    exampleMemory 1000 = 232 ∧
    (memmove exampleMemory 1000 1005 1).map (fun mem1 => mem1 1000) = some 237 := by
  refine ⟨by decide, rfl, ?_, by decide, by decide⟩
  intro hsome
  have hnone : Linear_Blit_To_Linear (exampleHeap 1) exampleNegativeHeight 5 0 0 (-5) 1 0 0
      exampleMemory = none := rfl
  rw [hnone] at hsome
  exact Option.noConfusion hsome

/-- A `memmove` of a length that is not negative has a result. -/
theorem memmove_eq_moveRow (mem : Memory) (dst src n : Int) (hn : 0 ≤ n) :
    memmove mem dst src n = some (moveRow n mem dst src) := by
  have h : ¬ n < 0 := by omega
  simp only [memmove, if_neg h]
  rfl

/-- A forward row loop of `n` passes whose body does the row operation `op` and
steps both row pointers forward: it ends, having done rows 0, ..., n - 1 in
ascending order. -/
theorem whileRows_forward (op : Memory → Int → Int → Memory) (dp sp : Int) (n : Nat) :
    ∀ (D S : Int) (mem : Memory),
      whileRows (fun s => some { dst := s.dst + dp, src := s.src + sp, mem := op s.mem s.dst s.src })
        n n { dst := D, src := S, mem := mem }
      = some { dst := D + n * dp, src := S + n * sp,
               mem := rowsFold op D S dp sp (List.range n) mem } := by
  induction n with
  | zero =>
    intro D S mem
    simp [whileRows, rowsFold]
  | succ n ih =>
    intro D S mem
    have hne : ((n + 1 : Nat) : Int) ≠ 0 := by omega
    have hdec : ((n + 1 : Nat) : Int) - 1 = (n : Int) := by omega
    simp only [whileRows, if_pos hne, Option.some_bind, hdec]
    rw [ih (D + dp) (S + sp) (op mem D S)]
    have hfold : rowsFold op (D + dp) (S + sp) dp sp (List.range n) (op mem D S)
        = rowsFold op D S dp sp (List.range (n + 1)) mem := by
      simp only [rowsFold, List.range_succ_eq_map, List.foldl_cons, List.foldl_map]
      have h0 : op mem (D + ((0 : Nat) : Int) * dp) (S + ((0 : Nat) : Int) * sp) = op mem D S := by
        simp
      rw [h0]
      congr 1
      funext m i
      have e1 : D + dp + (i : Int) * dp = D + ((Nat.succ i : Nat) : Int) * dp := by
        push_cast; ring
      have e2 : S + sp + (i : Int) * sp = S + ((Nat.succ i : Nat) : Int) * sp := by
        push_cast; ring
      rw [e1, e2]
    rw [hfold]
    congr 2
    · push_cast; ring
    · push_cast; ring

/-- A reverse row loop of `n` passes, started at the last row, whose body does the
row operation `op` and steps both row pointers back: it ends, having done rows
n - 1, ..., 0 in descending order. -/
theorem whileRows_reverse (op : Memory → Int → Int → Memory) (D S dp sp : Int) (n : Nat) :
    ∀ (mem : Memory),
      whileRows (fun s => some { dst := s.dst - dp, src := s.src - sp, mem := op s.mem s.dst s.src })
        n n { dst := D + ((n : Int) - 1) * dp, src := S + ((n : Int) - 1) * sp, mem := mem }
      = some { dst := D - dp, src := S - sp,
               mem := rowsFold op D S dp sp (List.range n).reverse mem } := by
  induction n with
  | zero =>
    intro mem
    simp [whileRows, rowsFold]
    constructor <;> ring
  | succ n ih =>
    intro mem
    have hne : ((n + 1 : Nat) : Int) ≠ 0 := by omega
    have hdec : ((n + 1 : Nat) : Int) - 1 = (n : Int) := by omega
    simp only [whileRows, if_pos hne, Option.some_bind, hdec]
    have e1 : D + (n : Int) * dp - dp = D + ((n : Int) - 1) * dp := by ring
    have e2 : S + (n : Int) * sp - sp = S + ((n : Int) - 1) * sp := by ring
    rw [e1, e2, ih]
    simp only [rowsFold, List.range_succ, List.reverse_append, List.reverse_cons,
      List.reverse_nil, List.nil_append, List.singleton_append, List.foldl_cons]

/-- The row operation of a colour-key blit scanned in reverse. -/
theorem blitRow_key_reverse (use_key w : Int) (hk : use_key ≠ 0) :
    blitRow use_key true w = fun m d s => keyRowReverse m d s w := by
  funext m d s
  simp only [blitRow, if_pos hk, if_true]

/-- The row operation of a colour-key blit scanned forward. -/
theorem blitRow_key_forward (use_key w : Int) (hk : use_key ≠ 0) :
    blitRow use_key false w = fun m d s => keyRowForward m d s w := by
  funext m d s
  simp only [blitRow, if_pos hk, Bool.false_eq_true, if_false]

/-- The row operation of a blit without colour key, in either scan direction. -/
theorem blitRow_move (use_key w : Int) (reverse : Bool) (hk : ¬ use_key ≠ 0) :
    blitRow use_key reverse w = fun m d s => moveRow w m d s := by
  funext m d s
  simp only [blitRow, if_neg hk]

/-- An accepted call of `Linear_Blit_To_Linear` whose clipped size is not negative
returns, and does exactly the blit of h' rows of w' columns from the clamped
source position to the clamped destination position, last row first when the
source start address is below the destination start address. -/
theorem Linear_Blit_To_Linear_eq_blitRows (this dst_vp : GraphicViewPortClass)
    (src_x src_y dst_x dst_y w h use_key : Int) (mem : Memory)
    (hacc : ¬ blitRejected this dst_vp src_x src_y dst_x dst_y w h)
    (hh : 0 ≤ clipH dst_vp dst_y h) (hw : 0 ≤ clipW dst_vp dst_x w) :
    Linear_Blit_To_Linear this dst_vp src_x src_y dst_x dst_y w h use_key mem
      = some (blitRows use_key
          (decide (pixelAddr this (max 0 src_x) (max 0 src_y)
            < pixelAddr dst_vp (max 0 dst_x) (max 0 dst_y)))
          (pixelAddr dst_vp (max 0 dst_x) (max 0 dst_y))
          (pixelAddr this (max 0 src_x) (max 0 src_y))
          (rowStride dst_vp) (rowStride this)
          (clipW dst_vp dst_x w) (clipH dst_vp dst_y h).toNat mem) := by
  obtain ⟨n, hn⟩ : ∃ n : Nat, clipH dst_vp dst_y h = (n : Int) :=
    ⟨(clipH dst_vp dst_y h).toNat, (Int.toNat_of_nonneg hh).symm⟩
  have hacc2 : ¬ (src_x ≥ this.Width ∨ src_y ≥ this.Height ∨ dst_x ≥ dst_vp.Width
      ∨ dst_y ≥ dst_vp.Height ∨ h < 0 ∨ w < 1) := hacc
  have hH : (if max 0 dst_y + h > dst_vp.Height then dst_vp.Height - 1 - max 0 dst_y else h)
      = (n : Int) := hn
  have hW : (if max 0 dst_x + w > dst_vp.Width then dst_vp.Width - 1 - max 0 dst_x else w)
      = clipW dst_vp dst_x w := rfl
  simp only [Linear_Blit_To_Linear, if_neg hacc2, hH, hW, Int.toNat_ofNat,
    memmove_eq_moveRow _ _ _ _ hw, Option.map_some']
  rw [hn]
  simp only [Int.toNat_ofNat, blitRows, blitRow, pixelAddr, rowStride]
  by_cases hlt : this.Offset + (max 0 src_x + max 0 src_y * (this.Pitch + this.XAdd + this.Width))
      < dst_vp.Offset + (max 0 dst_x + max 0 dst_y * (dst_vp.Pitch + dst_vp.XAdd + dst_vp.Width))
  · by_cases hk : use_key ≠ 0
    · simp only [if_pos hlt, if_pos hk, decide_True, if_true]
      rw [whileRows_reverse (fun m d s => keyRowReverse m d s (clipW dst_vp dst_x w))]
      simp only [Option.map_some', decide_eq_true hlt, blitRow_key_reverse _ _ hk, if_true]
    · simp only [if_pos hlt, if_neg hk, decide_True, if_true]
      rw [whileRows_reverse (fun m d s => moveRow (clipW dst_vp dst_x w) m d s)]
      simp only [Option.map_some', decide_eq_true hlt, blitRow_move _ _ _ hk, if_true]
  · by_cases hk : use_key ≠ 0
    · simp only [if_neg hlt, if_pos hk, decide_False, Bool.false_eq_true, if_false]
      rw [whileRows_forward (fun m d s => keyRowForward m d s (clipW dst_vp dst_x w))]
      simp only [Option.map_some', decide_eq_false hlt, blitRow_key_forward _ _ hk,
        Bool.false_eq_true, if_false]
    · simp only [if_neg hlt, if_neg hk, decide_False, Bool.false_eq_true, if_false]
      rw [whileRows_forward (fun m d s => moveRow (clipW dst_vp dst_x w) m d s)]
      simp only [Option.map_some', decide_eq_false hlt, blitRow_move _ _ _ hk,
        Bool.false_eq_true, if_false]

/-- Rows done in turn leave a byte alone that none of them writes. -/
theorem foldl_rows_frame (ops : Nat → Memory → Memory) (W : Nat → Int → Prop) (p : Int) :
    ∀ (l : List Nat) (mem : Memory),
      (∀ i ∈ l, ∀ m : Memory, ¬ W i p → ops i m p = m p) →
      (∀ i ∈ l, ¬ W i p) →
      (l.foldl (fun m i => ops i m) mem) p = mem p := by
  intro l
  induction l with
  | nil => intro mem _ _; rfl
  | cons k t ih =>
    intro mem hframe hout
    simp only [List.foldl_cons]
    rw [ih (ops k mem) (fun i hi => hframe i (List.mem_cons_of_mem k hi))
      (fun i hi => hout i (List.mem_cons_of_mem k hi))]
    exact hframe k (List.mem_cons_self k t) mem (hout k (List.mem_cons_self k t))

/-- Rows done in turn, each writing the bytes `W i` and giving byte `p` of them the
value `F i p` of the byte at `srcOf i p` and of the byte at `p` itself: when no row
writes a byte that a later row reads or writes, every written byte ends with the
value computed from the memory before the first row. -/
theorem foldl_rows_pixel (ops : Nat → Memory → Memory) (W : Nat → Int → Prop)
    (srcOf : Nat → Int → Int) (F : Nat → Int → Nat → Nat → Nat) (mem0 : Memory) :
    ∀ (l : List Nat) (mem : Memory),
      (∀ i ∈ l, ∀ (m : Memory) (p : Int), ¬ W i p → ops i m p = m p) →
      (∀ i ∈ l, ∀ (m : Memory) (p : Int), W i p → ops i m p = F i p (m (srcOf i p)) (m p)) →
      l.Pairwise (fun k k1 => ∀ p, W k p → ∀ p1, W k1 p1 → p ≠ srcOf k1 p1 ∧ p ≠ p1) →
      (∀ i ∈ l, ∀ p, W i p → mem (srcOf i p) = mem0 (srcOf i p) ∧ mem p = mem0 p) →
      ∀ i ∈ l, ∀ p, W i p →
        (l.foldl (fun m i => ops i m) mem) p = F i p (mem0 (srcOf i p)) (mem0 p) := by
  intro l
  induction l with
  | nil => intro mem _ _ _ _ i hi; exact absurd hi (List.not_mem_nil i)
  | cons k t ih =>
    intro mem hframe hspec hpw hmem i hi p hp
    rw [List.pairwise_cons] at hpw
    obtain ⟨hk, hpwt⟩ := hpw
    simp only [List.foldl_cons]
    by_cases hit : i ∈ t
    · refine ih (ops k mem) (fun a ha => hframe a (List.mem_cons_of_mem k ha))
        (fun a ha => hspec a (List.mem_cons_of_mem k ha)) hpwt ?_ i hit p hp
      intro a ha q hq
      have hm := hmem a (List.mem_cons_of_mem k ha) q hq
      have hns : ¬ W k (srcOf a q) := fun hw => (hk a ha (srcOf a q) hw q hq).1 rfl
      have hnq : ¬ W k q := fun hw => (hk a ha q hw q hq).2 rfl
      rw [hframe k (List.mem_cons_self k t) mem _ hns,
        hframe k (List.mem_cons_self k t) mem _ hnq]
      exact hm
    · have hik : i = k := by
        rcases List.mem_cons.mp hi with h | h
        · exact h
        · exact absurd h hit
      subst hik
      have hm := hmem i (List.mem_cons_self i t) p hp
      rw [foldl_rows_frame ops W p t (ops i mem)
        (fun a ha m hna => hframe a (List.mem_cons_of_mem i ha) m p hna)
        (fun a ha hw => (hk a ha p hp p hw).2 rfl)]
      rw [hspec i (List.mem_cons_self i t) mem p hp, hm.1, hm.2]

/-- What an assignment to a byte leaves at each address. -/
theorem Memory.write_apply (mem : Memory) (a : Int) (b : Nat) (p : Int) :
    mem.write a b p = if p = a then b else mem p := rfl

/-- What a block move of `n` bytes leaves at each address. -/
theorem moveRow_apply (n : Int) (mem : Memory) (dst src p : Int) :
    moveRow n mem dst src p
      = if dst ≤ p ∧ p < dst + n then mem (src + (p - dst)) else mem p := rfl

/-- The first `n` steps of the forward colour-key scan of a row whose source
starts at or after its destination, or ends before it: each of the `n` bytes at
`d` has the source byte where that is not 0 and its old value otherwise. -/
theorem keyRowForward_steps (d s : Int) (mem : Memory) (w : Nat)
    (hsafe : s ≥ d ∨ s + w ≤ d) :
    ∀ (n : Nat), n ≤ w → ∀ p : Int,
      ((List.range n).foldl (keyPixel d s) mem) p
        = if d ≤ p ∧ p < d + n then
            (if mem (s + (p - d)) ≠ 0 then mem (s + (p - d)) else mem p)
          else mem p := by
  intro n
  induction n with
  | zero =>
    intro _ p
    have h : ¬ (d ≤ p ∧ p < d + ((0 : Nat) : Int)) := by omega
    simp only [List.range_zero, List.foldl_nil, if_neg h]
  | succ n ih =>
    intro hn p
    have ihn := ih (by omega)
    simp only [List.range_succ, List.foldl_append, List.foldl_cons, List.foldl_nil, keyPixel,
      Memory.write]
    have hs : ¬ (d ≤ s + (n : Int) ∧ s + (n : Int) < d + (n : Int)) := by omega
    have hread : ((List.range n).foldl (keyPixel d s) mem) (s + (n : Int)) = mem (s + (n : Int)) := by
      rw [ihn (s + n), if_neg hs]
    rw [hread]
    by_cases hz : mem (s + (n : Int)) ≠ 0
    · simp only [if_pos hz]
      by_cases hp : p = d + (n : Int)
      · subst hp
        have hin : d ≤ d + (n : Int) ∧ d + (n : Int) < d + ((n + 1 : Nat) : Int) := by omega
        have e : s + (d + (n : Int) - d) = s + (n : Int) := by ring
        simp only [Memory.write_apply, if_true, if_pos hin, e, if_pos hz]
      · simp only [Memory.write_apply, if_neg hp]
        rw [ihn p]
        by_cases hin : d ≤ p ∧ p < d + (n : Int)
        · have hin2 : d ≤ p ∧ p < d + ((n + 1 : Nat) : Int) := by omega
          simp only [if_pos hin, if_pos hin2]
        · have hin2 : ¬ (d ≤ p ∧ p < d + ((n + 1 : Nat) : Int)) := by omega
          simp only [if_neg hin, if_neg hin2]
    · simp only [if_neg hz]
      rw [ihn p]
      by_cases hp : p = d + (n : Int)
      · subst hp
        have hin : d ≤ d + (n : Int) ∧ d + (n : Int) < d + ((n + 1 : Nat) : Int) := by omega
        have hin0 : ¬ (d ≤ d + (n : Int) ∧ d + (n : Int) < d + (n : Int)) := by omega
        have e : s + (d + (n : Int) - d) = s + (n : Int) := by ring
        simp only [if_pos hin, if_neg hin0, e, if_neg hz]
      · by_cases hin : d ≤ p ∧ p < d + (n : Int)
        · have hin2 : d ≤ p ∧ p < d + ((n + 1 : Nat) : Int) := by omega
          simp only [if_pos hin, if_pos hin2]
        · have hin2 : ¬ (d ≤ p ∧ p < d + ((n + 1 : Nat) : Int)) := by omega
          simp only [if_neg hin, if_neg hin2]

/-- What one step of a colour-key scan leaves at each address. -/
theorem keyPixel_apply (d s : Int) (mem : Memory) (i : Nat) (q : Int) :
    keyPixel d s mem i q
      = if mem (s + i) ≠ 0 then (if q = d + i then mem (s + i) else mem q) else mem q := by
  unfold keyPixel
  split_ifs <;> simp_all [Memory.write_apply]

/-- The reverse colour-key scan of `n` bytes of a row whose source starts at or
before its destination, or after its end: each of the `n` bytes at `d` has the
source byte where that is not 0 and its old value otherwise. -/
theorem keyRowReverse_steps (d s : Int) :
    ∀ (n : Nat) (mem : Memory), (s ≤ d ∨ s ≥ d + n) → ∀ p : Int,
      ((List.range n).reverse.foldl (keyPixel d s) mem) p
        = if d ≤ p ∧ p < d + n then
            (if mem (s + (p - d)) ≠ 0 then mem (s + (p - d)) else mem p)
          else mem p := by
  intro n
  induction n with
  | zero =>
    intro mem _ p
    have h : ¬ (d ≤ p ∧ p < d + ((0 : Nat) : Int)) := by omega
    simp only [List.range_zero, List.reverse_nil, List.foldl_nil, if_neg h]
  | succ n ih =>
    intro mem hsafe p
    have hsafe1 : s ≤ d ∨ s ≥ d + (n : Int) := by omega
    simp only [List.range_succ, List.reverse_append, List.reverse_cons, List.reverse_nil,
      List.nil_append, List.singleton_append, List.foldl_cons]
    rw [ih (keyPixel d s mem n) hsafe1 p]
    by_cases hin : d ≤ p ∧ p < d + (n : Int)
    · have hin2 : d ≤ p ∧ p < d + ((n + 1 : Nat) : Int) := by omega
      have h1 : s + (p - d) ≠ d + (n : Int) := by omega
      have h2 : p ≠ d + (n : Int) := by omega
      simp only [if_pos hin, if_pos hin2, keyPixel_apply, if_neg h1, if_neg h2, ite_self]
    · simp only [if_neg hin, keyPixel_apply]
      by_cases hp : p = d + (n : Int)
      · subst hp
        have hin2 : d ≤ d + (n : Int) ∧ d + (n : Int) < d + ((n + 1 : Nat) : Int) := by omega
        have e : s + (d + (n : Int) - d) = s + (n : Int) := by ring
        simp only [if_true, if_pos hin2, e]
      · have hin2 : ¬ (d ≤ p ∧ p < d + ((n + 1 : Nat) : Int)) := by omega
        simp only [if_neg hp, if_neg hin2, ite_self]

/-- What one row of a blit of `w` columns leaves at each address: each of the `w`
bytes at `d` has the source byte (with the colour key: where that is not 0, and
its old value otherwise).  For the colour-key scans the row's source must not
be overwritten before it is read: it starts on the safe side of the destination
for the scan direction, or the two rows do not overlap. -/
theorem blitRow_apply (use_key : Int) (reverse : Bool) (w : Int) (mem : Memory) (d s p : Int)
    (hsafe : use_key ≠ 0 →
      ((reverse = true ∧ s ≤ d) ∨ (reverse = false ∧ d ≤ s) ∨ s + w ≤ d ∨ d + w ≤ s)) :
    blitRow use_key reverse w mem d s p
      = if d ≤ p ∧ p < d + w then
          (if use_key ≠ 0 then (if mem (s + (p - d)) ≠ 0 then mem (s + (p - d)) else mem p)
           else mem (s + (p - d)))
        else mem p := by
  by_cases hk : use_key ≠ 0
  · have hs := hsafe hk
    by_cases hw : 0 ≤ w
    · obtain ⟨n, hn⟩ : ∃ n : Nat, w = (n : Int) := ⟨w.toNat, (Int.toNat_of_nonneg hw).symm⟩
      subst hn
      cases reverse
      · simp only [blitRow, if_pos hk, Bool.false_eq_true, if_false, keyRowForward, Int.toNat_ofNat]
        refine keyRowForward_steps d s mem n ?_ n (le_refl n) p
        rcases hs with h | h | h | h
        · exact absurd h.1 (by decide)
        · exact Or.inl h.2
        · exact Or.inr h
        · exact Or.inl (by omega)
      · simp only [blitRow, if_pos hk, if_true, keyRowReverse, Int.toNat_ofNat]
        refine keyRowReverse_steps d s n mem ?_ p
        rcases hs with h | h | h | h
        · exact Or.inl h.2
        · exact absurd h.1 (by decide)
        · exact Or.inl (by omega)
        · exact Or.inr (by omega)
    · have hn : w.toNat = 0 := by omega
      have hout : ¬ (d ≤ p ∧ p < d + w) := by omega
      cases reverse <;>
        simp [blitRow, hk, keyRowForward, keyRowReverse, hn, hout]
  · simp only [blitRow, if_neg hk, moveRow_apply]

/-- The pixels of a blit of `n` rows of `w` columns.  When, in the order in which
the rows are done, no row writes a byte that a later row reads, the destination
rows do not overlap each other, and (with the colour key) each row is safe to
scan, then pixel (i, j) of the destination rectangle ends with pixel (i, j) of the
source rectangle as it was before the blit, or, with the colour key and a source
byte 0, with its own old value. -/
theorem blitRows_pixel (use_key : Int) (reverse : Bool) (D S dp sp w : Int) (n : Nat)
    (mem : Memory)
    (hrow : ∀ k : Nat, k < n → use_key ≠ 0 →
      ((reverse = true ∧ S + k * sp ≤ D + k * dp) ∨ (reverse = false ∧ D + k * dp ≤ S + k * sp)
        ∨ S + k * sp + w ≤ D + k * dp ∨ D + k * dp + w ≤ S + k * sp))
    (horder : ∀ k k1 : Nat, k < n → k1 < n → (if reverse = true then k1 < k else k < k1) →
      ∀ j j1 : Int, 0 ≤ j → j < w → 0 ≤ j1 → j1 < w → D + k * dp + j ≠ S + k1 * sp + j1)
    (hdst : ∀ k k1 : Nat, k < n → k1 < n → k ≠ k1 →
      ∀ j j1 : Int, 0 ≤ j → j < w → 0 ≤ j1 → j1 < w → D + k * dp + j ≠ D + k1 * dp + j1)
    (i : Nat) (hi : i < n) (j : Int) (hj0 : 0 ≤ j) (hjw : j < w) :
    blitRows use_key reverse D S dp sp w n mem (D + i * dp + j)
      = if use_key ≠ 0 then
          (if mem (S + i * sp + j) ≠ 0 then mem (S + i * sp + j) else mem (D + i * dp + j))
        else mem (S + i * sp + j) := by
  have hmain := foldl_rows_pixel
    (fun (k : Nat) (m : Memory) => blitRow use_key reverse w m (D + k * dp) (S + k * sp))
    (fun (k : Nat) (p : Int) => k < n ∧ D + k * dp ≤ p ∧ p < D + k * dp + w)
    (fun (k : Nat) (p : Int) => S + k * sp + (p - (D + k * dp)))
    (fun _ _ s d => if use_key ≠ 0 then (if s ≠ 0 then s else d) else s)
    mem
    (if reverse = true then (List.range n).reverse else List.range n) mem
    (by
      intro k hk m p hW
      have hkn : k < n := by
        split_ifs at hk
        · exact List.mem_range.mp (List.mem_reverse.mp hk)
        · exact List.mem_range.mp hk
      have hout : ¬ (D + k * dp ≤ p ∧ p < D + k * dp + w) := fun h => hW ⟨hkn, h⟩
      show blitRow use_key reverse w m (D + k * dp) (S + k * sp) p = m p
      rw [blitRow_apply use_key reverse w m _ _ p (hrow k hkn), if_neg hout])
    (by
      intro k _ m p hW
      show blitRow use_key reverse w m (D + k * dp) (S + k * sp) p = _
      rw [blitRow_apply use_key reverse w m _ _ p (hrow k hW.1), if_pos hW.2])
    (by
      have key : ∀ k k1 : Nat, (if reverse = true then k1 < k else k < k1) →
          ∀ p, (k < n ∧ D + k * dp ≤ p ∧ p < D + k * dp + w) →
          ∀ p1, (k1 < n ∧ D + k1 * dp ≤ p1 ∧ p1 < D + k1 * dp + w) →
            p ≠ S + k1 * sp + (p1 - (D + k1 * dp)) ∧ p ≠ p1 := by
        intro k k1 hord p hp p1 hp1
        have hne : k ≠ k1 := by
          intro e; subst e; split_ifs at hord <;> omega
        have h1 := horder k k1 hp.1 hp1.1 hord (p - (D + k * dp)) (p1 - (D + k1 * dp))
          (by omega) (by omega) (by omega) (by omega)
        have h2 := hdst k k1 hp.1 hp1.1 hne (p - (D + k * dp)) (p1 - (D + k1 * dp))
          (by omega) (by omega) (by omega) (by omega)
        constructor
        · intro e; apply h1; rw [← e]; ring
        · intro e; apply h2; rw [← e]; ring
      by_cases hr : reverse = true
      · simp only [if_pos hr]
        rw [List.pairwise_reverse]
        refine List.Pairwise.imp ?_ (List.pairwise_lt_range n)
        intro a b hab
        exact key b a (by simp only [if_pos hr]; exact hab)
      · simp only [if_neg hr]
        refine List.Pairwise.imp ?_ (List.pairwise_lt_range n)
        intro a b hab
        exact key a b (by simp only [if_neg hr]; exact hab))
    (by intro _ _ _ _; exact ⟨rfl, rfl⟩)
    i
    (by
      split_ifs
      · exact List.mem_reverse.mpr (List.mem_range.mpr hi)
      · exact List.mem_range.mpr hi)
    (D + i * dp + j) ⟨hi, by omega, by omega⟩
  have e : S + (i : Int) * sp + (D + i * dp + j - (D + i * dp)) = S + i * sp + j := by ring
  simp only [e] at hmain
  exact hmain

/-- Rows of `w` bytes laid out with a stride of at least `w` do not overlap. -/
theorem rows_disjoint (D dp w : Int) (hw : w ≤ dp) (k k1 : Nat) (hne : k ≠ k1)
    (j j1 : Int) (hj0 : 0 ≤ j) (hj : j < w) (hj10 : 0 ≤ j1) (hj1 : j1 < w) :
    D + k * dp + j ≠ D + k1 * dp + j1 := by
  have hdp : 0 < dp := by omega
  intro e
  rcases Nat.lt_or_gt_of_ne hne with hlt | hgt
  · have h1 : ((k1 : Int) - k) * dp ≥ 1 * dp :=
      mul_le_mul_of_nonneg_right (by omega) (le_of_lt hdp)
    nlinarith
  · have h1 : ((k : Int) - k1) * dp ≥ 1 * dp :=
      mul_le_mul_of_nonneg_right (by omega) (le_of_lt hdp)
    nlinarith

/-- The clipped height of an accepted call on a destination of height >= 1 is
not negative. -/
theorem clipH_nonneg (this dst_vp : GraphicViewPortClass) (src_x src_y dst_x dst_y w h : Int)
    (hacc : ¬ blitRejected this dst_vp src_x src_y dst_x dst_y w h)
    (hH : 1 ≤ dst_vp.Height) : 0 ≤ clipH dst_vp dst_y h := by
  unfold blitRejected at hacc
  unfold clipH
  split_ifs <;> omega

/-- The clipped width of an accepted call on a destination of width >= 1 is not
negative. -/
theorem clipW_nonneg (this dst_vp : GraphicViewPortClass) (src_x src_y dst_x dst_y w h : Int)
    (hacc : ¬ blitRejected this dst_vp src_x src_y dst_x dst_y w h)
    (hW : 1 ≤ dst_vp.Width) : 0 ≤ clipW dst_vp dst_x w := by
  unfold blitRejected at hacc
  unfold clipW
  split_ifs <;> omega

/-- The clipped width fits between the clamped column and the right edge. -/
theorem clipW_le (dst_vp : GraphicViewPortClass) (dst_x w : Int) :
    max 0 dst_x + clipW dst_vp dst_x w ≤ dst_vp.Width := by
  unfold clipW
  split_ifs <;> omega

/-- Pixel (i, j) of an accepted blit whose destination rectangle shares no
address with its source rectangle and whose destination rows do not overlap
(the row padding Pitch + XAdd of the destination is not negative): the call
returns, and the destination pixel has the source pixel, or, with the colour key
and a source byte 0, its old value. -/
theorem Linear_Blit_To_Linear_pixel_disjoint (this dst_vp : GraphicViewPortClass)
    (src_x src_y dst_x dst_y w h use_key : Int) (mem : Memory) (i j : Int)
    (hacc : ¬ blitRejected this dst_vp src_x src_y dst_x dst_y w h)
    (hi0 : 0 ≤ i) (hi : i < clipH dst_vp dst_y h) (hj0 : 0 ≤ j) (hj : j < clipW dst_vp dst_x w)
    (hpad : 0 ≤ dst_vp.Pitch + dst_vp.XAdd)
    (hdisj : ∀ i1 j1 i2 j2 : Int, 0 ≤ i1 → i1 < clipH dst_vp dst_y h →
      0 ≤ j1 → j1 < clipW dst_vp dst_x w → 0 ≤ i2 → i2 < clipH dst_vp dst_y h →
      0 ≤ j2 → j2 < clipW dst_vp dst_x w →
      pixelAddr dst_vp (max 0 dst_x + j1) (max 0 dst_y + i1)
        ≠ pixelAddr this (max 0 src_x + j2) (max 0 src_y + i2)) :
    ∃ mem1, Linear_Blit_To_Linear this dst_vp src_x src_y dst_x dst_y w h use_key mem = some mem1 ∧
      mem1 (pixelAddr dst_vp (max 0 dst_x + j) (max 0 dst_y + i))
        = if use_key ≠ 0 then
            (if mem (pixelAddr this (max 0 src_x + j) (max 0 src_y + i)) ≠ 0
             then mem (pixelAddr this (max 0 src_x + j) (max 0 src_y + i))
             else mem (pixelAddr dst_vp (max 0 dst_x + j) (max 0 dst_y + i)))
          else mem (pixelAddr this (max 0 src_x + j) (max 0 src_y + i)) := by
  have hh : 0 ≤ clipH dst_vp dst_y h := by omega
  have hw : 0 ≤ clipW dst_vp dst_x w := by omega
  refine ⟨_, Linear_Blit_To_Linear_eq_blitRows this dst_vp src_x src_y dst_x dst_y w h use_key mem
    hacc hh hw, ?_⟩
  have hwle := clipW_le dst_vp dst_x w
  have hstride : clipW dst_vp dst_x w ≤ rowStride dst_vp := by
    unfold rowStride; omega
  -- the addresses of the two rectangles, row by row
  have hD : ∀ (k : Int) (c : Int), pixelAddr dst_vp (max 0 dst_x + c) (max 0 dst_y + k)
      = pixelAddr dst_vp (max 0 dst_x) (max 0 dst_y) + k * rowStride dst_vp + c := by
    intro k c; unfold pixelAddr; ring
  have hS : ∀ (k : Int) (c : Int), pixelAddr this (max 0 src_x + c) (max 0 src_y + k)
      = pixelAddr this (max 0 src_x) (max 0 src_y) + k * rowStride this + c := by
    intro k c; unfold pixelAddr; ring
  have hne : ∀ (k k1 : Nat), k < (clipH dst_vp dst_y h).toNat → k1 < (clipH dst_vp dst_y h).toNat →
      ∀ c c1 : Int, 0 ≤ c → c < clipW dst_vp dst_x w → 0 ≤ c1 → c1 < clipW dst_vp dst_x w →
      pixelAddr dst_vp (max 0 dst_x) (max 0 dst_y) + k * rowStride dst_vp + c
        ≠ pixelAddr this (max 0 src_x) (max 0 src_y) + k1 * rowStride this + c1 := by
    intro k k1 hk hk1 c c1 hc0 hc hc10 hc1
    rw [← hD, ← hS]
    exact hdisj k c k1 c1 (by omega) (by omega) hc0 hc (by omega) (by omega) hc10 hc1
  obtain ⟨n, hn⟩ : ∃ n : Nat, i = (n : Int) := ⟨i.toNat, (Int.toNat_of_nonneg hi0).symm⟩
  subst hn
  rw [hD, hS]
  refine blitRows_pixel use_key _ _ _ _ _ _ _ mem ?_ ?_ ?_ n (by omega) j hj0 hj
  · intro k hk _
    right; right
    by_contra hcon
    push_neg at hcon
    by_cases hle : pixelAddr dst_vp (max 0 dst_x) (max 0 dst_y) + k * rowStride dst_vp
        ≤ pixelAddr this (max 0 src_x) (max 0 src_y) + k * rowStride this
    · exact hne k k hk hk
        (pixelAddr this (max 0 src_x) (max 0 src_y) + k * rowStride this
          - (pixelAddr dst_vp (max 0 dst_x) (max 0 dst_y) + k * rowStride dst_vp)) 0
        (by omega) (by omega) (le_refl 0) (by omega) (by ring)
    · exact hne k k hk hk 0
        (pixelAddr dst_vp (max 0 dst_x) (max 0 dst_y) + k * rowStride dst_vp
          - (pixelAddr this (max 0 src_x) (max 0 src_y) + k * rowStride this))
        (le_refl 0) (by omega) (by omega) (by omega) (by ring)
  · intro k k1 hk hk1 _ c c1 hc0 hc hc10 hc1
    exact hne k k1 hk hk1 c c1 hc0 hc hc10 hc1
  · intro k k1 _ _ hkk c c1 hc0 hc hc10 hc1
    exact rows_disjoint _ _ _ hstride k k1 hkk c c1 hc0 hc hc10 hc1

/-- Pixel (i, j) of an accepted blit between two viewports with the same row
stride whose rows do not overlap each other (the row padding Pitch + XAdd of the
destination is not negative), wherever the two rectangles lie, overlapping or
not: the call returns, and the destination pixel has the source pixel as it was
before the call, or, with the colour key and a source byte 0, its own old value. -/
theorem Linear_Blit_To_Linear_pixel_same_stride (this dst_vp : GraphicViewPortClass)
    (src_x src_y dst_x dst_y w h use_key : Int) (mem : Memory) (i j : Int)
    (hacc : ¬ blitRejected this dst_vp src_x src_y dst_x dst_y w h)
    (hi0 : 0 ≤ i) (hi : i < clipH dst_vp dst_y h) (hj0 : 0 ≤ j) (hj : j < clipW dst_vp dst_x w)
    (hsame : rowStride this = rowStride dst_vp)
    (hpad : 0 ≤ dst_vp.Pitch + dst_vp.XAdd) :
    ∃ mem1, Linear_Blit_To_Linear this dst_vp src_x src_y dst_x dst_y w h use_key mem = some mem1 ∧
      mem1 (pixelAddr dst_vp (max 0 dst_x + j) (max 0 dst_y + i))
        = if use_key ≠ 0 then
            (if mem (pixelAddr this (max 0 src_x + j) (max 0 src_y + i)) ≠ 0
             then mem (pixelAddr this (max 0 src_x + j) (max 0 src_y + i))
             else mem (pixelAddr dst_vp (max 0 dst_x + j) (max 0 dst_y + i)))
          else mem (pixelAddr this (max 0 src_x + j) (max 0 src_y + i)) := by
  have hh : 0 ≤ clipH dst_vp dst_y h := by omega
  have hw : 0 ≤ clipW dst_vp dst_x w := by omega
  refine ⟨_, Linear_Blit_To_Linear_eq_blitRows this dst_vp src_x src_y dst_x dst_y w h use_key mem
    hacc hh hw, ?_⟩
  have hwle := clipW_le dst_vp dst_x w
  have hstride : clipW dst_vp dst_x w ≤ rowStride dst_vp := by
    unfold rowStride; omega
  have hP : 0 < rowStride dst_vp := by omega
  have hD : ∀ (k : Int) (c : Int), pixelAddr dst_vp (max 0 dst_x + c) (max 0 dst_y + k)
      = pixelAddr dst_vp (max 0 dst_x) (max 0 dst_y) + k * rowStride dst_vp + c := by
    intro k c; unfold pixelAddr; ring
  have hS : ∀ (k : Int) (c : Int), pixelAddr this (max 0 src_x + c) (max 0 src_y + k)
      = pixelAddr this (max 0 src_x) (max 0 src_y) + k * rowStride this + c := by
    intro k c; unfold pixelAddr; ring
  obtain ⟨n, hn⟩ : ∃ n : Nat, i = (n : Int) := ⟨i.toNat, (Int.toNat_of_nonneg hi0).symm⟩
  subst hn
  rw [hD, hS]
  refine blitRows_pixel use_key _ _ _ _ _ _ _ mem ?_ ?_ ?_ n (by omega) j hj0 hj
  · intro k _ _
    rw [hsame]
    by_cases hlt : pixelAddr this (max 0 src_x) (max 0 src_y)
        < pixelAddr dst_vp (max 0 dst_x) (max 0 dst_y)
    · left
      exact ⟨decide_eq_true hlt, by omega⟩
    · right; left
      exact ⟨decide_eq_false hlt, by omega⟩
  · intro k k1 _ _ hord c c1 hc0 hc hc10 hc1
    rw [hsame]
    by_cases hlt : pixelAddr this (max 0 src_x) (max 0 src_y)
        < pixelAddr dst_vp (max 0 dst_x) (max 0 dst_y)
    · rw [if_pos (decide_eq_true hlt)] at hord
      have h1 : ((k : Int) - k1) * rowStride dst_vp ≥ 1 * rowStride dst_vp :=
        mul_le_mul_of_nonneg_right (by omega) (le_of_lt hP)
      intro e
      nlinarith
    · have hf : ¬ (decide (pixelAddr this (max 0 src_x) (max 0 src_y)
          < pixelAddr dst_vp (max 0 dst_x) (max 0 dst_y)) = true) := by
        rw [decide_eq_false hlt]; exact Bool.false_ne_true
      rw [if_neg hf] at hord
      have h1 : ((k1 : Int) - k) * rowStride dst_vp ≥ 1 * rowStride dst_vp :=
        mul_le_mul_of_nonneg_right (by omega) (le_of_lt hP)
      intro e
      nlinarith
  · intro k k1 _ _ hkk c c1 hc0 hc hc10 hc1
    exact rows_disjoint _ _ _ hstride k k1 hkk c c1 hc0 hc hc10 hc1

/-- C11, counterexample: the source is the viewport left by Attach(surface, 0, 0,
0, 5), of width 0.  With src_x = -1 the call passes the rejection test (-1 >= 0
is false), src_x is clamped to 0 and one byte is copied from address 1000 to
address 1003; the same call with src_x = 0 is rejected (0 >= 0) and copies
nothing. -/
theorem Linear_Blit_To_Linear_negative_source_counterexample :
    exampleZeroWidth.Width = 0 ∧
    (Linear_Blit_To_Linear exampleZeroWidth (exampleHeap 1) (-1) 0 3 0 1 1 0 exampleMemory).map
      (fun mem1 => mem1 1003) = some 232 ∧
    (Linear_Blit_To_Linear exampleZeroWidth (exampleHeap 1) 0 0 3 0 1 1 0 exampleMemory).map
      (fun mem1 => mem1 1003) = some 235 ∧
    Linear_Blit_To_Linear exampleZeroWidth (exampleHeap 1) (-1) 0 3 0 1 1 0 exampleMemory
      ≠ Linear_Blit_To_Linear exampleZeroWidth (exampleHeap 1) 0 0 3 0 1 1 0 exampleMemory := by
  have h1 : (Linear_Blit_To_Linear exampleZeroWidth (exampleHeap 1) (-1) 0 3 0 1 1 0
      exampleMemory).map (fun mem1 => mem1 1003) = some 232 := by decide
  have h2 : (Linear_Blit_To_Linear exampleZeroWidth (exampleHeap 1) 0 0 3 0 1 1 0
      exampleMemory).map (fun mem1 => mem1 1003) = some 235 := by decide
  refine ⟨by decide, h1, h2, ?_⟩
  intro e
  rw [e, h2] at h1
  exact absurd h1 (by decide)

/-- C11, amended: a call of Linear_Blit_To_Linear with a negative src_x, src_y,
dst_x or dst_y has the result of the same call with that coordinate replaced by
0 and w, h as given, when the dimension that the rejection test compares the
coordinate with is at least 1: the Width of the source for src_x, the Height of
the source for src_y, the Width of the destination for dst_x and the Height of
the destination for dst_y. -/
theorem Linear_Blit_To_Linear_negative_clamped (this dst_vp : GraphicViewPortClass)
    (src_x src_y dst_x dst_y w h use_key : Int) (mem : Memory) :
    (src_x < 0 → 1 ≤ this.Width →
      Linear_Blit_To_Linear this dst_vp src_x src_y dst_x dst_y w h use_key mem
        = Linear_Blit_To_Linear this dst_vp 0 src_y dst_x dst_y w h use_key mem) ∧
    (src_y < 0 → 1 ≤ this.Height →
      Linear_Blit_To_Linear this dst_vp src_x src_y dst_x dst_y w h use_key mem
        = Linear_Blit_To_Linear this dst_vp src_x 0 dst_x dst_y w h use_key mem) ∧
    (dst_x < 0 → 1 ≤ dst_vp.Width →
      Linear_Blit_To_Linear this dst_vp src_x src_y dst_x dst_y w h use_key mem
        = Linear_Blit_To_Linear this dst_vp src_x src_y 0 dst_y w h use_key mem) ∧
    (dst_y < 0 → 1 ≤ dst_vp.Height →
      Linear_Blit_To_Linear this dst_vp src_x src_y dst_x dst_y w h use_key mem
        = Linear_Blit_To_Linear this dst_vp src_x src_y dst_x 0 w h use_key mem) := by
  have hm0 : max (0 : Int) 0 = 0 := max_self 0
  refine ⟨?_, ?_, ?_, ?_⟩
  · intro hneg hsw
    have hc : (this.Width ≤ src_x) = (this.Width ≤ 0) := by
      apply propext; constructor <;> intro <;> omega
    have hm : max 0 src_x = 0 := by omega
    simp only [Linear_Blit_To_Linear, ge_iff_le, hc, hm, hm0]
  · intro hneg hsh
    have hc : (this.Height ≤ src_y) = (this.Height ≤ 0) := by
      apply propext; constructor <;> intro <;> omega
    have hm : max 0 src_y = 0 := by omega
    simp only [Linear_Blit_To_Linear, ge_iff_le, hc, hm, hm0]
  · intro hneg hdw
    have hc : (dst_vp.Width ≤ dst_x) = (dst_vp.Width ≤ 0) := by
      apply propext; constructor <;> intro <;> omega
    have hm : max 0 dst_x = 0 := by omega
    simp only [Linear_Blit_To_Linear, ge_iff_le, hc, hm, hm0]
  · intro hneg hdh
    have hc : (dst_vp.Height ≤ dst_y) = (dst_vp.Height ≤ 0) := by
      apply propext; constructor <;> intro <;> omega
    have hm : max 0 dst_y = 0 := by omega
    simp only [Linear_Blit_To_Linear, ge_iff_le, hc, hm, hm0]

/-- C11 (amended) at concrete calls: a 4x2 blit from the example surface to the
attached example viewport from source column -2 has the result of the blit from
source column 0, and to destination row -1 that of the blit to row 0.  The
source of width 0 of the counterexample, which has Height 5, is within the
amended claim for src_y: from its row -1 the call has the result of the call
from row 0. -/
theorem Linear_Blit_To_Linear_negative_clamped_witness :
    ((-2 : Int) < 0 ∧ 1 ≤ (exampleHeap 1).Width ∧
     (-1 : Int) < 0 ∧ 1 ≤ (exampleAttached 2).Height ∧
     exampleZeroWidth.Width = 0 ∧ 1 ≤ exampleZeroWidth.Height) ∧
    Linear_Blit_To_Linear (exampleHeap 1) (exampleAttached 2) (-2) 1 3 (-1) 4 2 0 exampleMemory
      = Linear_Blit_To_Linear (exampleHeap 1) (exampleAttached 2) 0 1 3 (-1) 4 2 0 exampleMemory ∧
    Linear_Blit_To_Linear (exampleHeap 1) (exampleAttached 2) (-2) 1 3 (-1) 4 2 0 exampleMemory
      = Linear_Blit_To_Linear (exampleHeap 1) (exampleAttached 2) (-2) 1 3 0 4 2 0 exampleMemory ∧
    Linear_Blit_To_Linear exampleZeroWidth (exampleHeap 1) (-1) (-1) 3 0 1 1 0 exampleMemory
      = Linear_Blit_To_Linear exampleZeroWidth (exampleHeap 1) (-1) 0 3 0 1 1 0 exampleMemory :=
  ⟨by decide,
   (Linear_Blit_To_Linear_negative_clamped (exampleHeap 1) (exampleAttached 2) (-2) 1 3 (-1) 4 2 0
      exampleMemory).1 (by decide) (by decide),
   (Linear_Blit_To_Linear_negative_clamped (exampleHeap 1) (exampleAttached 2) (-2) 1 3 (-1) 4 2 0
      exampleMemory).2.2.2 (by decide) (by decide),
   (Linear_Blit_To_Linear_negative_clamped exampleZeroWidth (exampleHeap 1) (-1) (-1) 3 0 1 1 0
      exampleMemory).2.1 (by decide) (by decide)⟩

/-- C13: for an accepted call of Linear_Blit_To_Linear without colour key
(use_key = 0) between buffers that are not aliased (no address of the clipped
destination rectangle is an address of the clipped source rectangle, and the
rows of the destination, of stride Pitch + XAdd + Width, do not overlap), with
(w', h') the clipped size and clamped coordinates: for 0 <= i < h' and
0 <= j < w' the call returns and the destination byte at row dst_y + i, column
dst_x + j is the source byte at row src_y + i, column src_x + j. -/
theorem Linear_Blit_To_Linear_opaque_copies (this dst_vp : GraphicViewPortClass)
    (src_x src_y dst_x dst_y w h : Int) (mem : Memory) (i j : Int)
    (hacc : ¬ blitRejected this dst_vp src_x src_y dst_x dst_y w h)
    (hi0 : 0 ≤ i) (hi : i < clipH dst_vp dst_y h) (hj0 : 0 ≤ j) (hj : j < clipW dst_vp dst_x w)
    (hpad : 0 ≤ dst_vp.Pitch + dst_vp.XAdd)
    (hdisj : ∀ i1 j1 i2 j2 : Int, 0 ≤ i1 → i1 < clipH dst_vp dst_y h →
      0 ≤ j1 → j1 < clipW dst_vp dst_x w → 0 ≤ i2 → i2 < clipH dst_vp dst_y h →
      0 ≤ j2 → j2 < clipW dst_vp dst_x w →
      pixelAddr dst_vp (max 0 dst_x + j1) (max 0 dst_y + i1)
        ≠ pixelAddr this (max 0 src_x + j2) (max 0 src_y + i2)) :
    ∃ mem1, Linear_Blit_To_Linear this dst_vp src_x src_y dst_x dst_y w h 0 mem = some mem1 ∧
      mem1 (dst_vp.Offset + ((max 0 dst_x + j)
          + (max 0 dst_y + i) * (dst_vp.Pitch + dst_vp.XAdd + dst_vp.Width)))
        = mem (this.Offset + ((max 0 src_x + j)
          + (max 0 src_y + i) * (this.Pitch + this.XAdd + this.Width))) := by
  obtain ⟨mem1, h1, h2⟩ := Linear_Blit_To_Linear_pixel_disjoint this dst_vp src_x src_y dst_x
    dst_y w h 0 mem i j hacc hi0 hi hj0 hj hpad hdisj
  refine ⟨mem1, h1, ?_⟩
  have hk : ¬ ((0 : Int) ≠ 0) := fun e => e rfl
  rw [if_neg hk] at h2
  exact h2

/-- C13 at a concrete call: the row 0, 5, 0, 7 at address 100 is blitted over the
row at address 10; pixel 1 of the destination (address 11) receives 5. -/
theorem Linear_Blit_To_Linear_opaque_copies_witness :
    (¬ blitRejected (exampleRow 100) (exampleRow 10) 0 0 0 0 4 1 ∧
     (0 : Int) ≤ 0 ∧ (0 : Int) < clipH (exampleRow 10) 0 1 ∧
     (0 : Int) ≤ 1 ∧ (1 : Int) < clipW (exampleRow 10) 0 4 ∧
     0 ≤ (exampleRow 10).Pitch + (exampleRow 10).XAdd ∧
     (∀ i1 j1 i2 j2 : Int, 0 ≤ i1 → i1 < clipH (exampleRow 10) 0 1 →
        0 ≤ j1 → j1 < clipW (exampleRow 10) 0 4 → 0 ≤ i2 → i2 < clipH (exampleRow 10) 0 1 →
        0 ≤ j2 → j2 < clipW (exampleRow 10) 0 4 →
        pixelAddr (exampleRow 10) (max 0 0 + j1) (max 0 0 + i1)
          ≠ pixelAddr (exampleRow 100) (max 0 0 + j2) (max 0 0 + i2))) ∧
    exampleKeyMemory 101 = 5 ∧
    (∃ mem1, Linear_Blit_To_Linear (exampleRow 100) (exampleRow 10) 0 0 0 0 4 1 0 exampleKeyMemory
        = some mem1 ∧
      mem1 ((exampleRow 10).Offset + ((max 0 0 + 1)
          + (max 0 0 + 0) * ((exampleRow 10).Pitch + (exampleRow 10).XAdd + (exampleRow 10).Width)))
        = exampleKeyMemory ((exampleRow 100).Offset + ((max 0 0 + 1)
          + (max 0 0 + 0) * ((exampleRow 100).Pitch + (exampleRow 100).XAdd
            + (exampleRow 100).Width)))) := by
  have hd : ∀ i1 j1 i2 j2 : Int, 0 ≤ i1 → i1 < clipH (exampleRow 10) 0 1 →
      0 ≤ j1 → j1 < clipW (exampleRow 10) 0 4 → 0 ≤ i2 → i2 < clipH (exampleRow 10) 0 1 →
      0 ≤ j2 → j2 < clipW (exampleRow 10) 0 4 →
      pixelAddr (exampleRow 10) (max 0 0 + j1) (max 0 0 + i1)
        ≠ pixelAddr (exampleRow 100) (max 0 0 + j2) (max 0 0 + i2) := by
    intro i1 j1 i2 j2 h1 h2 h3 h4 h5 h6 h7 h8
    simp [pixelAddr, rowStride, exampleRow, clipH, clipW] at *
    omega
  exact ⟨⟨by decide, by decide, by decide, by decide, by decide, by decide, hd⟩, by decide,
    Linear_Blit_To_Linear_opaque_copies (exampleRow 100) (exampleRow 10) 0 0 0 0 4 1
      exampleKeyMemory 0 1 (by decide) (by decide) (by decide) (by decide) (by decide)
      (by decide) hd⟩

/-- C14: for an accepted call of Linear_Blit_To_Linear with the colour key
(use_key != 0) between buffers that are not aliased, whichever way the rows are
scanned: for every pixel (i, j) of the clipped rectangle the call returns and
the destination byte is the source byte if that is not 0 and its own previous
value if the source byte is 0. -/
theorem Linear_Blit_To_Linear_colour_key (this dst_vp : GraphicViewPortClass)
    (src_x src_y dst_x dst_y w h use_key : Int) (mem : Memory) (i j : Int)
    (hkey : use_key ≠ 0)
    (hacc : ¬ blitRejected this dst_vp src_x src_y dst_x dst_y w h)
    (hi0 : 0 ≤ i) (hi : i < clipH dst_vp dst_y h) (hj0 : 0 ≤ j) (hj : j < clipW dst_vp dst_x w)
    (hpad : 0 ≤ dst_vp.Pitch + dst_vp.XAdd)
    (hdisj : ∀ i1 j1 i2 j2 : Int, 0 ≤ i1 → i1 < clipH dst_vp dst_y h →
      0 ≤ j1 → j1 < clipW dst_vp dst_x w → 0 ≤ i2 → i2 < clipH dst_vp dst_y h →
      0 ≤ j2 → j2 < clipW dst_vp dst_x w →
      pixelAddr dst_vp (max 0 dst_x + j1) (max 0 dst_y + i1)
        ≠ pixelAddr this (max 0 src_x + j2) (max 0 src_y + i2)) :
    ∃ mem1, Linear_Blit_To_Linear this dst_vp src_x src_y dst_x dst_y w h use_key mem = some mem1 ∧
      mem1 (pixelAddr dst_vp (max 0 dst_x + j) (max 0 dst_y + i))
        = if mem (pixelAddr this (max 0 src_x + j) (max 0 src_y + i)) ≠ 0
          then mem (pixelAddr this (max 0 src_x + j) (max 0 src_y + i))
          else mem (pixelAddr dst_vp (max 0 dst_x + j) (max 0 dst_y + i)) := by
  obtain ⟨mem1, h1, h2⟩ := Linear_Blit_To_Linear_pixel_disjoint this dst_vp src_x src_y dst_x
    dst_y w h use_key mem i j hacc hi0 hi hj0 hj hpad hdisj
  refine ⟨mem1, h1, ?_⟩
  rw [if_pos hkey] at h2
  exact h2

/-- C14 at concrete calls: the source row 0, 5, 0, 7 over the destination row
1, 1, 1, 1 yields 1, 5, 1, 7, both with the source at address 100, above the
destination at address 10 (forward scan), and with the source at address 0,
below it (reverse scan); and the theorem at pixel 2 of the forward call, whose
source byte is 0. -/
theorem Linear_Blit_To_Linear_colour_key_witness :
    (Linear_Blit_To_Linear (exampleRow 100) (exampleRow 10) 0 0 0 0 4 1 1 exampleKeyMemory).map
      (fun mem1 => [mem1 10, mem1 11, mem1 12, mem1 13]) = some [1, 5, 1, 7] ∧
    (Linear_Blit_To_Linear (exampleRow 0) (exampleRow 10) 0 0 0 0 4 1 1 exampleKeyMemory).map
      (fun mem1 => [mem1 10, mem1 11, mem1 12, mem1 13]) = some [1, 5, 1, 7] ∧
    ((1 : Int) ≠ 0 ∧ ¬ blitRejected (exampleRow 100) (exampleRow 10) 0 0 0 0 4 1 ∧
     (0 : Int) ≤ 0 ∧ (0 : Int) < clipH (exampleRow 10) 0 1 ∧
     (0 : Int) ≤ 2 ∧ (2 : Int) < clipW (exampleRow 10) 0 4 ∧
     0 ≤ (exampleRow 10).Pitch + (exampleRow 10).XAdd ∧
     (∀ i1 j1 i2 j2 : Int, 0 ≤ i1 → i1 < clipH (exampleRow 10) 0 1 →
        0 ≤ j1 → j1 < clipW (exampleRow 10) 0 4 → 0 ≤ i2 → i2 < clipH (exampleRow 10) 0 1 →
        0 ≤ j2 → j2 < clipW (exampleRow 10) 0 4 →
        pixelAddr (exampleRow 10) (max 0 0 + j1) (max 0 0 + i1)
          ≠ pixelAddr (exampleRow 100) (max 0 0 + j2) (max 0 0 + i2))) ∧
    (∃ mem1, Linear_Blit_To_Linear (exampleRow 100) (exampleRow 10) 0 0 0 0 4 1 1 exampleKeyMemory
        = some mem1 ∧
      mem1 (pixelAddr (exampleRow 10) (max 0 0 + 2) (max 0 0 + 0))
        = if exampleKeyMemory (pixelAddr (exampleRow 100) (max 0 0 + 2) (max 0 0 + 0)) ≠ 0
          then exampleKeyMemory (pixelAddr (exampleRow 100) (max 0 0 + 2) (max 0 0 + 0))
          else exampleKeyMemory (pixelAddr (exampleRow 10) (max 0 0 + 2) (max 0 0 + 0))) := by
  have hd : ∀ i1 j1 i2 j2 : Int, 0 ≤ i1 → i1 < clipH (exampleRow 10) 0 1 →
      0 ≤ j1 → j1 < clipW (exampleRow 10) 0 4 → 0 ≤ i2 → i2 < clipH (exampleRow 10) 0 1 →
      0 ≤ j2 → j2 < clipW (exampleRow 10) 0 4 →
      pixelAddr (exampleRow 10) (max 0 0 + j1) (max 0 0 + i1)
        ≠ pixelAddr (exampleRow 100) (max 0 0 + j2) (max 0 0 + i2) := by
    intro i1 j1 i2 j2 h1 h2 h3 h4 h5 h6 h7 h8
    simp [pixelAddr, rowStride, exampleRow, clipH, clipW] at *
    omega
  exact ⟨by decide, by decide,
    ⟨by decide, by decide, by decide, by decide, by decide, by decide, by decide, hd⟩,
    Linear_Blit_To_Linear_colour_key (exampleRow 100) (exampleRow 10) 0 0 0 0 4 1 1
      exampleKeyMemory 0 2 (by decide) (by decide) (by decide) (by decide) (by decide)
      (by decide) (by decide) hd⟩

/-- C15: for an accepted call of Linear_Blit_To_Linear without colour key between
two viewports with the same row stride Pitch + XAdd + Width (as two viewports
over one buffer have), the rows of the stride not overlapping each other, and
wherever the source and destination rectangles lie, overlapping in either
direction or not: for every pixel (i, j) of the clipped rectangle the call
returns and the destination pixel is the source pixel as it was before the
call, as in a copy from a snapshot of the buffer. -/
theorem Linear_Blit_To_Linear_overlap_safe (this dst_vp : GraphicViewPortClass)
    (src_x src_y dst_x dst_y w h : Int) (mem : Memory) (i j : Int)
    (hacc : ¬ blitRejected this dst_vp src_x src_y dst_x dst_y w h)
    (hi0 : 0 ≤ i) (hi : i < clipH dst_vp dst_y h) (hj0 : 0 ≤ j) (hj : j < clipW dst_vp dst_x w)
    (hsame : rowStride this = rowStride dst_vp)
    (hpad : 0 ≤ dst_vp.Pitch + dst_vp.XAdd) :
    ∃ mem1, Linear_Blit_To_Linear this dst_vp src_x src_y dst_x dst_y w h 0 mem = some mem1 ∧
      mem1 (pixelAddr dst_vp (max 0 dst_x + j) (max 0 dst_y + i))
        = mem (pixelAddr this (max 0 src_x + j) (max 0 src_y + i)) := by
  obtain ⟨mem1, h1, h2⟩ := Linear_Blit_To_Linear_pixel_same_stride this dst_vp src_x src_y dst_x
    dst_y w h 0 mem i j hacc hi0 hi hj0 hj hsame hpad
  refine ⟨mem1, h1, ?_⟩
  have hk : ¬ ((0 : Int) ≠ 0) := fun e => e rfl
  rw [if_neg hk] at h2
  exact h2

/-- C15 at a concrete call: the 10x10 region at the top left of the 20x20 example
surface is blitted 3 bytes to the right of itself.  Every pixel (i, j) of the
destination region has afterwards what pixel (i, j) of the source region had
before; and the theorem at pixel (4, 0), which is read after row 4 of the
source region has been overwritten in columns 3..9. -/
theorem Linear_Blit_To_Linear_overlap_safe_witness :
    (∀ i : Nat, i < 10 → ∀ j : Nat, j < 10 →
      (Linear_Blit_To_Linear (exampleHeap 1) (exampleHeap 1) 0 0 3 0 10 10 0 exampleMemory).map
        (fun mem1 => mem1 (pixelAddr (exampleHeap 1) (3 + j) i))
        = some (exampleMemory (pixelAddr (exampleHeap 1) j i))) ∧
    (¬ blitRejected (exampleHeap 1) (exampleHeap 1) 0 0 3 0 10 10 ∧
     (0 : Int) ≤ 4 ∧ (4 : Int) < clipH (exampleHeap 1) 0 10 ∧
     (0 : Int) ≤ 0 ∧ (0 : Int) < clipW (exampleHeap 1) 3 10 ∧
     rowStride (exampleHeap 1) = rowStride (exampleHeap 1) ∧
     0 ≤ (exampleHeap 1).Pitch + (exampleHeap 1).XAdd) ∧
    (∃ mem1, Linear_Blit_To_Linear (exampleHeap 1) (exampleHeap 1) 0 0 3 0 10 10 0 exampleMemory
        = some mem1 ∧
      mem1 (pixelAddr (exampleHeap 1) (max 0 3 + 0) (max 0 0 + 4))
        = exampleMemory (pixelAddr (exampleHeap 1) (max 0 0 + 0) (max 0 0 + 4))) :=
  ⟨by decide, by decide,
   Linear_Blit_To_Linear_overlap_safe (exampleHeap 1) (exampleHeap 1) 0 0 3 0 10 10 exampleMemory
     4 0 (by decide) (by decide) (by decide) (by decide) (by decide) (by decide) (by decide)⟩

/-- C17: the overload Blit(dest, trans).  When both viewports have IsHardware set
it makes the one hardware Blt with origins (XPos, YPos) and (dest.XPos,
dest.YPos), width max(Width, dest.Width) and height max(Height, dest.Height),
and touches nothing else.  Otherwise, when the two locks succeed, the memory it
leaves is that of Linear_Blit_To_Linear(dest, 0, 0, 0, 0, Width, Height, trans)
with the Width and Height of the source viewport itself (as read at the call,
after the locks). -/
theorem Blit3_sizes
    (gbLock gbUnlock : GraphicViewPortClass → Bool × GraphicViewPortClass)
    (wd : World) (this dest : Nat) (trans : Bool) :
    (((wd.heap this).IsHardware = true ∧ (wd.heap dest).IsHardware = true) →
      Blit3 gbLock gbUnlock wd this dest trans
        = some { heap := wd.heap, mem := wd.mem,
                 trace := wd.trace ++
                   [Call.Blt (wd.heap dest).GraphicBuff
                      { X := (wd.heap dest).XPos, Y := (wd.heap dest).YPos,
                        Width := max (wd.heap this).Width (wd.heap dest).Width,
                        Height := max (wd.heap this).Height (wd.heap dest).Height }
                      (wd.heap this).GraphicBuff
                      { X := (wd.heap this).XPos, Y := (wd.heap this).YPos,
                        Width := max (wd.heap this).Width (wd.heap dest).Width,
                        Height := max (wd.heap this).Height (wd.heap dest).Height }
                      trans] }) ∧
    (¬ ((wd.heap this).IsHardware = true ∧ (wd.heap dest).IsHardware = true) →
      (LockW gbLock wd this).1 = true →
      (LockW gbLock (LockW gbLock wd this).2 dest).1 = true →
      (Blit3 gbLock gbUnlock wd this dest trans).map World.mem
        = Linear_Blit_To_Linear
            ((LockW gbLock (LockW gbLock wd this).2 dest).2.heap this)
            ((LockW gbLock (LockW gbLock wd this).2 dest).2.heap dest)
            0 0 0 0
            ((LockW gbLock (LockW gbLock wd this).2 dest).2.heap this).Width
            ((LockW gbLock (LockW gbLock wd this).2 dest).2.heap this).Height
            (if trans then 1 else 0) wd.mem) := by
  constructor
  · intro hhw
    simp only [Blit3, hhw.1, hhw.2, Bool.and_self, if_true, DD_Linear_Blit_To_Linear, Get_XPos,
      Get_YPos, Get_Width, Get_Height]
  · intro hsw h1 h2
    have hc : ¬ (((wd.heap this).IsHardware && (wd.heap dest).IsHardware) = true) := by
      intro e
      rw [Bool.and_eq_true] at e
      exact hsw e
    have hmem : (LockW gbLock (LockW gbLock wd this).2 dest).2.mem = wd.mem := rfl
    simp only [Blit3, if_neg hc, h1, h2, if_true, hmem]
    cases hb : Linear_Blit_To_Linear
        ((LockW gbLock (LockW gbLock wd this).2 dest).2.heap this)
        ((LockW gbLock (LockW gbLock wd this).2 dest).2.heap dest) 0 0 0 0
        ((LockW gbLock (LockW gbLock wd this).2 dest).2.heap this).Width
        ((LockW gbLock (LockW gbLock wd this).2 dest).2.heap this).Height
        (if trans then 1 else 0) wd.mem with
    | none => rfl
    | some mem1 => rfl

/-- C17 at concrete calls.  In the hardware example store the 10x8 viewport at
(2, 3) blits to the 20x20 surface view with the one hardware Blt of size
max(10, 20) x max(8, 20) = 20x20.  In the software example store (the surface's
Lock hands out base address 5000) the same blit copies the viewport's own
10x8 pixels: the memory is that of Linear_Blit_To_Linear(dest, 0, 0, 0, 0, 10, 8,
0), and destination pixel (0, 0) at address 5000 receives the byte of the
viewport's pixel (0, 0) at address 5074, which is 210. -/
theorem Blit3_sizes_witness :
    (((exampleWorldHardware.heap 2).IsHardware = true ∧
      (exampleWorldHardware.heap 1).IsHardware = true) ∧
     max (exampleWorldHardware.heap 2).Width (exampleWorldHardware.heap 1).Width = 20 ∧
     max (exampleWorldHardware.heap 2).Height (exampleWorldHardware.heap 1).Height = 20 ∧
     Blit3 exampleLockOk exampleUnlockOk exampleWorldHardware 2 1 true
       = some { heap := exampleWorldHardware.heap, mem := exampleWorldHardware.mem,
                trace := exampleWorldHardware.trace ++
                  [Call.Blt (exampleWorldHardware.heap 1).GraphicBuff
                     { X := (exampleWorldHardware.heap 1).XPos,
                       Y := (exampleWorldHardware.heap 1).YPos,
                       Width := max (exampleWorldHardware.heap 2).Width
                         (exampleWorldHardware.heap 1).Width,
                       Height := max (exampleWorldHardware.heap 2).Height
                         (exampleWorldHardware.heap 1).Height }
                     (exampleWorldHardware.heap 2).GraphicBuff
                     { X := (exampleWorldHardware.heap 2).XPos,
                       Y := (exampleWorldHardware.heap 2).YPos,
                       Width := max (exampleWorldHardware.heap 2).Width
                         (exampleWorldHardware.heap 1).Width,
                       Height := max (exampleWorldHardware.heap 2).Height
                         (exampleWorldHardware.heap 1).Height }
                     true] }) ∧
    ((¬ ((exampleWorld.heap 2).IsHardware = true ∧ (exampleWorld.heap 1).IsHardware = true) ∧
      (LockW exampleLockOk exampleWorld 2).1 = true ∧
      (LockW exampleLockOk (LockW exampleLockOk exampleWorld 2).2 1).1 = true) ∧
     ((LockW exampleLockOk (LockW exampleLockOk exampleWorld 2).2 1).2.heap 2).Width = 10 ∧
     ((LockW exampleLockOk (LockW exampleLockOk exampleWorld 2).2 1).2.heap 2).Height = 8 ∧
     (Blit3 exampleLockOk exampleUnlockOk exampleWorld 2 1 false).map
       (fun wd1 => wd1.mem 5000) = some 210 ∧
     (Blit3 exampleLockOk exampleUnlockOk exampleWorld 2 1 false).map World.mem
       = Linear_Blit_To_Linear
           ((LockW exampleLockOk (LockW exampleLockOk exampleWorld 2).2 1).2.heap 2)
           ((LockW exampleLockOk (LockW exampleLockOk exampleWorld 2).2 1).2.heap 1)
           0 0 0 0
           ((LockW exampleLockOk (LockW exampleLockOk exampleWorld 2).2 1).2.heap 2).Width
           ((LockW exampleLockOk (LockW exampleLockOk exampleWorld 2).2 1).2.heap 2).Height
           (if false then 1 else 0) exampleWorld.mem) :=
  ⟨⟨by decide, by decide, by decide,
    (Blit3_sizes exampleLockOk exampleUnlockOk exampleWorldHardware 2 1 true).1
      ⟨by decide, by decide⟩⟩,
   ⟨by decide, by decide, by decide, by decide,
    (Blit3_sizes exampleLockOk exampleUnlockOk exampleWorld 2 1 false).2
      (by decide) (by decide) (by decide)⟩⟩

/-- The state of the column loop after `n` columns: the destination pointer has
advanced by `n`, the fixed-point position is `n * x_ratio`, and column `j` has
been sampled at `(j * x_ratio) >> 16`. -/
theorem scaleRow_state (pixel : Memory → Int → Nat → Memory) (s x_ratio d : Int) (mem : Memory)
    (n : Nat) :
    (List.range n).foldl
      (fun (st : ScaleState) (_ : Nat) =>
        { d := st.d + 1, xrat := st.xrat + x_ratio,
          mem := pixel st.mem st.d (st.mem (s + (st.xrat >>> (16 : Nat)))) })
      { d := d, xrat := 0, mem := mem }
    = { d := d + n, xrat := n * x_ratio,
        mem := (List.range n).foldl
          (fun (m : Memory) (j : Nat) =>
            pixel m (d + (j : Int)) (m (s + (((j : Int) * x_ratio) >>> (16 : Nat))))) mem } := by
  induction n with
  | zero => simp
  | succ n ih =>
    rw [List.range_succ, List.foldl_append, ih]
    simp only [List.foldl_cons, List.foldl_nil, List.foldl_append]
    congr 1
    · push_cast; ring
    · push_cast; ring

/-- The column loop of one row, with the accumulated position written out. -/
theorem scaleRow_eq (pixel : Memory → Int → Nat → Memory) (s x_ratio d : Int) (mem : Memory)
    (n : Nat) :
    scaleRow pixel s x_ratio n d mem
      = (List.range n).foldl
          (fun (m : Memory) (j : Nat) =>
            pixel m (d + (j : Int)) (m (s + (((j : Int) * x_ratio) >>> (16 : Nat))))) mem := by
  unfold scaleRow
  rw [scaleRow_state]

/-- What the column loop of the plain mode (no transparency, no remap) leaves at
each address, when the loop overwrites none of the source bytes it samples: byte
`j` of the destination row has the byte sampled at `(j * x_ratio) >> 16`. -/
theorem scaleRow_plain_apply (s x_ratio d : Int) (mem : Memory) (w : Nat)
    (hsafe : ∀ j j1 : Nat, j < w → j1 < w → d + (j : Int) ≠ s + (((j1 : Int) * x_ratio) >>> (16 : Nat))) :
    ∀ (n : Nat), n ≤ w → ∀ p : Int,
      ((List.range n).foldl
          (fun (m : Memory) (j : Nat) =>
            m.write (d + (j : Int)) (m (s + (((j : Int) * x_ratio) >>> (16 : Nat))))) mem) p
        = if d ≤ p ∧ p < d + n then mem (s + (((p - d) * x_ratio) >>> (16 : Nat))) else mem p := by
  intro n
  induction n with
  | zero =>
    intro _ p
    have h : ¬ (d ≤ p ∧ p < d + ((0 : Nat) : Int)) := by omega
    simp only [List.range_zero, List.foldl_nil, if_neg h]
  | succ n ih =>
    intro hn p
    have ihn := ih (by omega)
    simp only [List.range_succ, List.foldl_append, List.foldl_cons, List.foldl_nil,
      Memory.write_apply]
    have hread : ((List.range n).foldl
        (fun (m : Memory) (j : Nat) =>
          m.write (d + (j : Int)) (m (s + (((j : Int) * x_ratio) >>> (16 : Nat))))) mem)
        (s + (((n : Int) * x_ratio) >>> (16 : Nat))) = mem (s + (((n : Int) * x_ratio) >>> (16 : Nat))) := by
      rw [ihn]
      have hout : ¬ (d ≤ s + (((n : Int) * x_ratio) >>> (16 : Nat))
          ∧ s + (((n : Int) * x_ratio) >>> (16 : Nat)) < d + (n : Int)) := by
        intro hc
        have h1 := hsafe (s + (((n : Int) * x_ratio) >>> (16 : Nat)) - d).toNat n (by omega) (by omega)
        apply h1
        rw [Int.toNat_of_nonneg (by omega)]
        ring
      rw [if_neg hout]
    rw [hread]
    clear hread
    by_cases hp : p = d + (n : Int)
    · subst hp
      have hin : d ≤ d + (n : Int) ∧ d + (n : Int) < d + ((n + 1 : Nat) : Int) := by omega
      have e : d + (n : Int) - d = (n : Int) := by ring
      simp only [if_true, if_pos hin, e]
    · simp only [if_neg hp]
      rw [ihn p]
      by_cases hin : d ≤ p ∧ p < d + (n : Int)
      · have hin2 : d ≤ p ∧ p < d + ((n + 1 : Nat) : Int) := by omega
        simp only [if_pos hin, if_pos hin2]
      · have hin2 : ¬ (d ≤ p ∧ p < d + ((n + 1 : Nat) : Int)) := by omega
        simp only [if_neg hin, if_neg hin2]

/-- A call of `Linear_Scale_To_Linear` with positive sizes that none of the
clipping tests changes (the source rectangle starts at or after 0 and ends at
most one past the source viewport, and so does the destination rectangle in the
destination viewport) returns, having run the row and column loops over the
whole destination rectangle with the ratios computed from the given sizes. -/
theorem Linear_Scale_To_Linear_unclipped (char_signed : Bool)
    (this dst_vp : GraphicViewPortClass)
    (src_x src_y dst_x dst_y src_width src_height dst_width dst_height : Int)
    (trans : Bool) (remap : Option Int) (mem : Memory)
    (hsw : 0 < src_width) (hsh : 0 < src_height) (hdw : 0 < dst_width) (hdh : 0 < dst_height)
    (hsx : 0 ≤ src_x) (hsy : 0 ≤ src_y)
    (hsxw : src_x + src_width ≤ this.Width + 1) (hsyh : src_y + src_height ≤ this.Height + 1)
    (hdx : 0 ≤ dst_x) (hdy : 0 ≤ dst_y)
    (hdxw : dst_x + dst_width ≤ dst_vp.Width + 1) (hdyh : dst_y + dst_height ≤ dst_vp.Height + 1) :
    Linear_Scale_To_Linear char_signed this dst_vp src_x src_y dst_x dst_y
        src_width src_height dst_width dst_height trans remap mem
      = some (scaleRows (scalePixel char_signed trans remap)
          (src_y * rowStride this + src_x + this.Offset)
          (dst_y * rowStride dst_vp + dst_x + dst_vp.Offset)
          (rowStride this) (rowStride dst_vp)
          (Int.tdiv (src_width * 65536) dst_width + 1)
          (Int.tdiv (src_height * 65536) dst_height + 1)
          dst_width.toNat dst_height.toNat mem) := by
  have c0 : ¬ (src_width ≤ 0 ∨ src_height ≤ 0 ∨ dst_width ≤ 0 ∨ dst_height ≤ 0) := by omega
  have c1 : ¬ src_x < 0 := by omega
  have c2 : ¬ src_y < 0 := by omega
  have c3 : ¬ src_x + src_width > this.Width + 1 := by omega
  have c4 : ¬ src_y + src_height > this.Height + 1 := by omega
  have c5 : ¬ dst_x < 0 := by omega
  have c6 : ¬ dst_y < 0 := by omega
  have c7 : ¬ dst_width + dst_x > dst_vp.Width + 1 := by omega
  have c8 : ¬ dst_height + dst_y > dst_vp.Height + 1 := by omega
  have c9 : ¬ (dst_y > dst_height + dst_y ∨ dst_x > dst_width + dst_x) := by omega
  have e1 : dst_width + dst_x - dst_x = dst_width := by ring
  have e2 : dst_height + dst_y - dst_y = dst_height := by ring
  have c10 : ¬ dst_width = 0 := by omega
  have c11 : ¬ dst_height = 0 := by omega
  simp only [Linear_Scale_To_Linear, Get_Width, Get_Height, Get_Pitch, Get_XAdd, Get_Offset,
    if_neg c0, if_neg c1, if_neg c2, if_neg c3, if_neg c4, if_neg c5, if_neg c6, if_neg c7,
    if_neg c8, if_neg c9, e1, e2, if_neg c10, if_neg c11, rowStride]
  cases trans <;> cases remap <;> rfl

/-- The pixels of the plain scale loops (no transparency, no remap) over a window
of `nx` columns and `ny` rows.  When no destination byte of the window is one of
the sampled source bytes and the destination rows do not overlap, destination
pixel (j, i) ends with the byte sampled for it: the source byte in column
`(j * x_ratio) >> 16` of row `(i * y_ratio) >> 16`, as it was before. -/
theorem scaleRows_plain_pixel (S D ss ds xr yr : Int) (nx ny : Nat) (mem : Memory)
    (hsafe : ∀ k k1 j j1 : Nat, k < ny → k1 < ny → j < nx → j1 < nx →
      D + (k : Int) * ds + (j : Int)
        ≠ S + (((k1 : Int) * yr) >>> (16 : Nat)) * ss + (((j1 : Int) * xr) >>> (16 : Nat)))
    (hstride : (nx : Int) ≤ ds)
    (i : Nat) (hi : i < ny) (j : Nat) (hj : j < nx) :
    scaleRows (fun m d tmp => m.write d tmp) S D ss ds xr yr nx ny mem
        (D + (i : Int) * ds + (j : Int))
      = mem (S + (((i : Int) * yr) >>> (16 : Nat)) * ss + (((j : Int) * xr) >>> (16 : Nat))) := by
  have hrow : ∀ (k : Nat), k < ny → ∀ (m : Memory) (p : Int),
      scaleRow (fun m d tmp => m.write d tmp) (S + (((k : Int) * yr) >>> (16 : Nat)) * ss) xr nx
          (D + (k : Int) * ds) m p
        = if D + (k : Int) * ds ≤ p ∧ p < D + (k : Int) * ds + nx
          then m (S + (((k : Int) * yr) >>> (16 : Nat)) * ss + (((p - (D + (k : Int) * ds)) * xr) >>> (16 : Nat)))
          else m p := by
    intro k hk m p
    rw [scaleRow_eq]
    exact scaleRow_plain_apply _ xr _ m nx (fun a a1 ha ha1 => hsafe k k a a1 hk hk ha ha1)
      nx (le_refl nx) p
  have hmain := foldl_rows_pixel
    (fun (k : Nat) (m : Memory) =>
      scaleRow (fun m d tmp => m.write d tmp) (S + (((k : Int) * yr) >>> (16 : Nat)) * ss) xr nx
        (D + (k : Int) * ds) m)
    (fun (k : Nat) (p : Int) => k < ny ∧ D + (k : Int) * ds ≤ p ∧ p < D + (k : Int) * ds + nx)
    (fun (k : Nat) (p : Int) =>
      S + (((k : Int) * yr) >>> (16 : Nat)) * ss + (((p - (D + (k : Int) * ds)) * xr) >>> (16 : Nat)))
    (fun _ _ s _ => s)
    mem (List.range ny) mem
    (by
      intro k hk m p hW
      have hkn : k < ny := List.mem_range.mp hk
      have hout : ¬ (D + (k : Int) * ds ≤ p ∧ p < D + (k : Int) * ds + nx) :=
        fun h => hW ⟨hkn, h⟩
      show scaleRow _ _ _ _ _ m p = m p
      rw [hrow k hkn m p, if_neg hout])
    (by
      intro k _ m p hW
      show scaleRow _ _ _ _ _ m p = _
      rw [hrow k hW.1 m p, if_pos hW.2])
    (by
      refine List.Pairwise.imp ?_ (List.pairwise_lt_range ny)
      intro k k1 hkk p hp p1 hp1
      have hne : k ≠ k1 := Nat.ne_of_lt hkk
      have h1 := hsafe k k1 (p - (D + (k : Int) * ds)).toNat (p1 - (D + (k1 : Int) * ds)).toNat
        hp.1 hp1.1 (by omega) (by omega)
      rw [Int.toNat_of_nonneg (by omega), Int.toNat_of_nonneg (by omega)] at h1
      have h2 := rows_disjoint D ds nx hstride k k1 hne (p - (D + (k : Int) * ds))
        (p1 - (D + (k1 : Int) * ds)) (by omega) (by omega) (by omega) (by omega)
      have ep : D + (k : Int) * ds + (p - (D + (k : Int) * ds)) = p := by ring
      have ep1 : D + (k1 : Int) * ds + (p1 - (D + (k1 : Int) * ds)) = p1 := by ring
      rw [ep] at h1 h2
      rw [ep1] at h2
      exact ⟨fun e => h1 e, fun e => h2 e⟩)
    (by intro _ _ _ _; exact ⟨rfl, rfl⟩)
    i (List.mem_range.mpr hi)
    (D + (i : Int) * ds + (j : Int)) ⟨hi, by omega, by omega⟩
  have e : D + (i : Int) * ds + (j : Int) - (D + (i : Int) * ds) = (j : Int) := by ring
  simp only [e] at hmain
  exact hmain

/-- C18: Linear_Scale_To_Linear returns with the memory, hence the destination
buffer, unchanged whenever one of src_width, src_height, dst_width, dst_height
is <= 0. -/
theorem Linear_Scale_To_Linear_nothing_to_scale (char_signed : Bool)
    (this dst_vp : GraphicViewPortClass)
    (src_x src_y dst_x dst_y src_width src_height dst_width dst_height : Int)
    (trans : Bool) (remap : Option Int) (mem : Memory)
    (hsize : src_width ≤ 0 ∨ src_height ≤ 0 ∨ dst_width ≤ 0 ∨ dst_height ≤ 0) :
    Linear_Scale_To_Linear char_signed this dst_vp src_x src_y dst_x dst_y
      src_width src_height dst_width dst_height trans remap mem = some mem := by
  simp only [Linear_Scale_To_Linear, if_pos hsize]

/-- C18 at a concrete call: a scale of the 2x2 example picture to a window of
width 4 and height 0. -/
theorem Linear_Scale_To_Linear_nothing_to_scale_witness :
    ((2 : Int) ≤ 0 ∨ (2 : Int) ≤ 0 ∨ (4 : Int) ≤ 0 ∨ (0 : Int) ≤ 0) ∧
    Linear_Scale_To_Linear true (exampleView 0 2 2) (exampleView 100 4 4) 0 0 0 0 2 2 4 0
      false none examplePicture = some examplePicture :=
  ⟨by decide, Linear_Scale_To_Linear_nothing_to_scale true (exampleView 0 2 2)
     (exampleView 100 4 4) 0 0 0 0 2 2 4 0 false none examplePicture (by decide)⟩

/-- The truncating division of the ratio computation is the floor, the operands
not being negative. -/
theorem ratio_tdiv_eq (a b : Int) (ha : 0 < a) (hb : 0 < b) :
    Int.tdiv (a * 65536) b + 1 = a * 65536 / b + 1 := by
  rw [Int.tdiv_eq_ediv (by positivity) (by omega)]

/-- With sizes below 32768 the fixed-point position `j * ratio` of a column (or
row) `j` of the destination stays below 2^31. -/
theorem ratio_position_bound (a b j : Int) (ha : 1 ≤ a) (ha2 : a < 32768) (hb : 1 ≤ b)
    (hb2 : b < 32768) (hj : j < b) : j * (a * 65536 / b + 1) < 2147483648 := by
  have hq := Int.ediv_mul_le (a * 65536) (b := b) (by omega)
  have hq0 : 0 ≤ a * 65536 / b := Int.ediv_nonneg (by omega) (by omega)
  have h1 : j * (a * 65536 / b + 1) ≤ (b - 1) * (a * 65536 / b + 1) :=
    mul_le_mul_of_nonneg_right (by omega) (by omega)
  nlinarith

/-- C19: for Linear_Scale_To_Linear without transparency and without remap, with
the source and destination rectangles inside their viewports and all sizes in
1..32767, between buffers that are not aliased (no destination pixel of the
rectangle is at the address of a sampled source pixel, and the destination rows
do not overlap): with xRatio = floor(srcW * 65536 / dstW) + 1 and
yRatio = floor(srcH * 65536 / dstH) + 1 the call returns, and for 0 <= i < dstH,
0 <= j < dstW the destination pixel (dst_x + j, dst_y + i) is the source pixel
(src_x + ((j * xRatio) >> 16), src_y + ((i * yRatio) >> 16)); the positions
j * xRatio and i * yRatio stay below 2^31. -/
theorem Linear_Scale_To_Linear_samples (char_signed : Bool)
    (this dst_vp : GraphicViewPortClass)
    (src_x src_y dst_x dst_y srcW srcH dstW dstH : Int) (mem : Memory)
    (hsw : 1 ≤ srcW) (hsw2 : srcW < 32768) (hsh : 1 ≤ srcH) (hsh2 : srcH < 32768)
    (hdw : 1 ≤ dstW) (hdw2 : dstW < 32768) (hdh : 1 ≤ dstH) (hdh2 : dstH < 32768)
    (hsx : 0 ≤ src_x) (hsxw : src_x + srcW ≤ this.Width)
    (hsy : 0 ≤ src_y) (hsyh : src_y + srcH ≤ this.Height)
    (hdx : 0 ≤ dst_x) (hdxw : dst_x + dstW ≤ dst_vp.Width)
    (hdy : 0 ≤ dst_y) (hdyh : dst_y + dstH ≤ dst_vp.Height)
    (hpad : 0 ≤ dst_vp.Pitch + dst_vp.XAdd)
    (hdisj : ∀ i1 j1 i2 j2 : Int, 0 ≤ i1 → i1 < dstH → 0 ≤ j1 → j1 < dstW →
      0 ≤ i2 → i2 < dstH → 0 ≤ j2 → j2 < dstW →
      pixelAddr dst_vp (dst_x + j1) (dst_y + i1)
        ≠ pixelAddr this (src_x + ((j2 * (srcW * 65536 / dstW + 1)) >>> (16 : Nat)))
            (src_y + ((i2 * (srcH * 65536 / dstH + 1)) >>> (16 : Nat)))) :
    ∃ mem1, Linear_Scale_To_Linear char_signed this dst_vp src_x src_y dst_x dst_y
        srcW srcH dstW dstH false none mem = some mem1 ∧
      ∀ i j : Int, 0 ≤ i → i < dstH → 0 ≤ j → j < dstW →
        mem1 (pixelAddr dst_vp (dst_x + j) (dst_y + i))
          = mem (pixelAddr this (src_x + ((j * (srcW * 65536 / dstW + 1)) >>> (16 : Nat)))
              (src_y + ((i * (srcH * 65536 / dstH + 1)) >>> (16 : Nat))))
        ∧ j * (srcW * 65536 / dstW + 1) < 2147483648
        ∧ i * (srcH * 65536 / dstH + 1) < 2147483648 := by
  refine ⟨_, Linear_Scale_To_Linear_unclipped char_signed this dst_vp src_x src_y dst_x dst_y
    srcW srcH dstW dstH false none mem (by omega) (by omega) (by omega) (by omega) hsx hsy
    (by omega) (by omega) hdx hdy (by omega) (by omega), ?_⟩
  intro i j hi0 hi hj0 hj
  refine ⟨?_, ratio_position_bound srcW dstW j hsw hsw2 hdw hdw2 hj,
    ratio_position_bound srcH dstH i hsh hsh2 hdh hdh2 hi⟩
  rw [ratio_tdiv_eq srcW dstW (by omega) (by omega),
    ratio_tdiv_eq srcH dstH (by omega) (by omega)]
  obtain ⟨ni, hni⟩ : ∃ n : Nat, i = (n : Int) := ⟨i.toNat, (Int.toNat_of_nonneg hi0).symm⟩
  obtain ⟨nj, hnj⟩ : ∃ n : Nat, j = (n : Int) := ⟨j.toNat, (Int.toNat_of_nonneg hj0).symm⟩
  subst hni hnj
  have hstride : ((dstW.toNat : Nat) : Int) ≤ rowStride dst_vp := by
    unfold rowStride; omega
  have hD : ∀ (k c : Int), pixelAddr dst_vp (dst_x + c) (dst_y + k)
      = dst_y * rowStride dst_vp + dst_x + dst_vp.Offset + k * rowStride dst_vp + c := by
    intro k c; unfold pixelAddr; ring
  have hS : ∀ (r c : Int), pixelAddr this (src_x + c) (src_y + r)
      = src_y * rowStride this + src_x + this.Offset + r * rowStride this + c := by
    intro r c; unfold pixelAddr; ring
  rw [hD, hS]
  have hsc : scalePixel char_signed false none = fun m d tmp => m.write d tmp := rfl
  rw [hsc]
  refine scaleRows_plain_pixel _ _ _ _ _ _ _ _ mem ?_ hstride ni (by omega) nj (by omega)
  intro k k1 c c1 hk hk1 hc hc1
  rw [← hD, ← hS]
  exact hdisj k c k1 c1 (by omega) (by omega) (by omega) (by omega) (by omega) (by omega)
    (by omega) (by omega)

/-- C19 at a concrete call: the 2x2 example picture 1, 2 / 3, 4 at address 0 is
scaled to the 4x4 viewport at address 100, with ratios 2 * 65536 / 4 + 1 = 32769;
the destination is 1,1,2,2 / 1,1,2,2 / 3,3,4,4 / 3,3,4,4. -/
theorem Linear_Scale_To_Linear_samples_witness :
    (Linear_Scale_To_Linear true (exampleView 0 2 2) (exampleView 100 4 4) 0 0 0 0 2 2 4 4
        false none examplePicture).map (fun mem1 => (List.range 16).map (fun k => mem1 (100 + k)))
      = some [1, 1, 2, 2, 1, 1, 2, 2, 3, 3, 4, 4, 3, 3, 4, 4] ∧
    ((0 : Int) ≤ 0 ∧ (0 : Int) + 2 ≤ (exampleView 0 2 2).Width ∧
     (0 : Int) + 2 ≤ (exampleView 0 2 2).Height ∧
     (0 : Int) + 4 ≤ (exampleView 100 4 4).Width ∧ (0 : Int) + 4 ≤ (exampleView 100 4 4).Height ∧
     0 ≤ (exampleView 100 4 4).Pitch + (exampleView 100 4 4).XAdd) ∧
    (∃ mem1, Linear_Scale_To_Linear true (exampleView 0 2 2) (exampleView 100 4 4) 0 0 0 0 2 2 4 4
        false none examplePicture = some mem1 ∧
      ∀ i j : Int, 0 ≤ i → i < 4 → 0 ≤ j → j < 4 →
        mem1 (pixelAddr (exampleView 100 4 4) (0 + j) (0 + i))
          = examplePicture (pixelAddr (exampleView 0 2 2)
              (0 + ((j * (2 * 65536 / 4 + 1)) >>> (16 : Nat)))
              (0 + ((i * (2 * 65536 / 4 + 1)) >>> (16 : Nat))))
        ∧ j * (2 * 65536 / 4 + 1) < 2147483648
        ∧ i * (2 * 65536 / 4 + 1) < 2147483648) := by
  have hd : ∀ i1 j1 i2 j2 : Int, 0 ≤ i1 → i1 < 4 → 0 ≤ j1 → j1 < 4 →
      0 ≤ i2 → i2 < 4 → 0 ≤ j2 → j2 < 4 →
      pixelAddr (exampleView 100 4 4) (0 + j1) (0 + i1)
        ≠ pixelAddr (exampleView 0 2 2) (0 + ((j2 * (2 * 65536 / 4 + 1)) >>> (16 : Nat)))
            (0 + ((i2 * (2 * 65536 / 4 + 1)) >>> (16 : Nat))) := by
    intro i1 j1 i2 j2 h1 h2 h3 h4 h5 h6 h7 h8
    simp only [pixelAddr, rowStride, exampleView, Int.shiftRight_eq_div_pow]
    norm_num
    omega
  exact ⟨by decide, by decide,
    Linear_Scale_To_Linear_samples true (exampleView 0 2 2) (exampleView 100 4 4) 0 0 0 0 2 2 4 4
      examplePicture (by decide) (by decide) (by decide) (by decide) (by decide) (by decide)
      (by decide) (by decide) (by decide) (by decide) (by decide) (by decide) (by decide)
      (by decide) (by decide) (by decide) (by decide) hd⟩

/-- With equal sizes below 65536 the ratio is 65537 and the sampled index of
column (or row) `j` is `j` itself. -/
theorem identity_sample (w j : Int) (hw : 0 < w) (hj0 : 0 ≤ j) (hj : j < 65536) :
    (j * (w * 65536 / w + 1)) >>> (16 : Nat) = j := by
  rw [Int.mul_ediv_cancel_left _ (ne_of_gt hw), Int.shiftRight_eq_div_pow]
  norm_num
  omega

/-- C20: Linear_Scale_To_Linear with dst_width == src_width and
dst_height == src_height, no remap and no transparency, for rectangles inside
both viewports and sizes in 1..32767: the sampled source index is the
destination index, ((j * xRatio) >> 16) == j for j < width and
((i * yRatio) >> 16) == i for i < height, and the call returns, having done an
identity copy: pixel by pixel in scan order, destination pixel
(dst_x + j, dst_y + i) received source pixel (src_x + j, src_y + i). -/
theorem Linear_Scale_To_Linear_identity (char_signed : Bool)
    (this dst_vp : GraphicViewPortClass)
    (src_x src_y dst_x dst_y width height : Int) (mem : Memory)
    (hw : 1 ≤ width) (hw2 : width < 32768) (hh : 1 ≤ height) (hh2 : height < 32768)
    (hsx : 0 ≤ src_x) (hsxw : src_x + width ≤ this.Width)
    (hsy : 0 ≤ src_y) (hsyh : src_y + height ≤ this.Height)
    (hdx : 0 ≤ dst_x) (hdxw : dst_x + width ≤ dst_vp.Width)
    (hdy : 0 ≤ dst_y) (hdyh : dst_y + height ≤ dst_vp.Height) :
    (∀ j : Int, 0 ≤ j → j < width → (j * (width * 65536 / width + 1)) >>> (16 : Nat) = j) ∧
    (∀ i : Int, 0 ≤ i → i < height → (i * (height * 65536 / height + 1)) >>> (16 : Nat) = i) ∧
    Linear_Scale_To_Linear char_signed this dst_vp src_x src_y dst_x dst_y
        width height width height false none mem
      = some (identityCopy this dst_vp src_x src_y dst_x dst_y width.toNat height.toNat mem) := by
  refine ⟨fun j hj0 hj => identity_sample width j (by omega) hj0 (by omega),
    fun i hi0 hi => identity_sample height i (by omega) hi0 (by omega), ?_⟩
  rw [Linear_Scale_To_Linear_unclipped char_signed this dst_vp src_x src_y dst_x dst_y
    width height width height false none mem (by omega) (by omega) (by omega) (by omega) hsx hsy
    (by omega) (by omega) hdx hdy (by omega) (by omega),
    ratio_tdiv_eq width width (by omega) (by omega),
    ratio_tdiv_eq height height (by omega) (by omega)]
  have hsc : scalePixel char_signed false none = fun m d tmp => m.write d tmp := rfl
  rw [hsc]
  congr 1
  unfold scaleRows identityCopy
  apply List.foldl_ext
  intro m i hi
  have hin : i < height.toNat := List.mem_range.mp hi
  rw [scaleRow_eq]
  apply List.foldl_ext
  intro m1 j hj
  have hjn : j < width.toNat := List.mem_range.mp hj
  rw [identity_sample width j (by omega) (by omega) (by omega),
    identity_sample height i (by omega) (by omega) (by omega)]
  have e1 : dst_y * rowStride dst_vp + dst_x + dst_vp.Offset + (i : Int) * rowStride dst_vp
      + (j : Int) = pixelAddr dst_vp (dst_x + j) (dst_y + i) := by
    unfold pixelAddr; ring
  have e2 : src_y * rowStride this + src_x + this.Offset + (i : Int) * rowStride this
      + (j : Int) = pixelAddr this (src_x + j) (src_y + i) := by
    unfold pixelAddr; ring
  rw [e1, e2]

/-- C20 at a concrete call: the 2x2 example picture is scaled to the same size at
(1, 1) of the 4x4 viewport at address 100; the destination is
0,0,0,0 / 0,1,2,0 / 0,3,4,0 / 0,0,0,0. -/
theorem Linear_Scale_To_Linear_identity_witness :
    (Linear_Scale_To_Linear true (exampleView 0 2 2) (exampleView 100 4 4) 0 0 1 1 2 2 2 2
        false none examplePicture).map (fun mem1 => (List.range 16).map (fun k => mem1 (100 + k)))
      = some [0, 0, 0, 0, 0, 1, 2, 0, 0, 3, 4, 0, 0, 0, 0, 0] ∧
    ((0 : Int) + 2 ≤ (exampleView 0 2 2).Width ∧ (0 : Int) + 2 ≤ (exampleView 0 2 2).Height ∧
     (1 : Int) + 2 ≤ (exampleView 100 4 4).Width ∧ (1 : Int) + 2 ≤ (exampleView 100 4 4).Height) ∧
    ((∀ j : Int, 0 ≤ j → j < 2 → (j * (2 * 65536 / 2 + 1)) >>> (16 : Nat) = j) ∧
     (∀ i : Int, 0 ≤ i → i < 2 → (i * (2 * 65536 / 2 + 1)) >>> (16 : Nat) = i) ∧
     Linear_Scale_To_Linear true (exampleView 0 2 2) (exampleView 100 4 4) 0 0 1 1 2 2 2 2
        false none examplePicture
      = some (identityCopy (exampleView 0 2 2) (exampleView 100 4 4) 0 0 1 1
          (2 : Int).toNat (2 : Int).toNat examplePicture)) :=
  ⟨by decide, by decide,
   Linear_Scale_To_Linear_identity true (exampleView 0 2 2) (exampleView 100 4 4) 0 0 1 1 2 2
     examplePicture (by decide) (by decide) (by decide) (by decide) (by decide) (by decide)
     (by decide) (by decide) (by decide) (by decide) (by decide) (by decide)⟩

/-- The pixel statement of each of the four modes of `Linear_Scale_To_Linear`: with
transparency a sample 0 leaves the memory as it is and any other sample is
assigned; without transparency every sample is assigned.  The value assigned is
the sample itself without a remap table, and with one the byte at the index that
the `char` sample denotes. -/
theorem scalePixel_spec (char_signed : Bool) (table : Int) (m : Memory) (d : Int) (b : Nat) :
    scalePixel char_signed true (some table) m d 0 = m ∧
    scalePixel char_signed true none m d 0 = m ∧
    (b ≠ 0 → scalePixel char_signed true (some table) m d b
      = m.write d (m (table + charIndex char_signed b))) ∧
    (b ≠ 0 → scalePixel char_signed true none m d b = m.write d b) ∧
    scalePixel char_signed false (some table) m d b
      = m.write d (m (table + charIndex char_signed b)) ∧
    scalePixel char_signed false none m d b = m.write d b := by
  refine ⟨rfl, rfl, ?_, ?_, rfl, rfl⟩
  · intro hb
    simp only [scalePixel, ne_eq, hb, not_false_eq_true, if_true]
  · intro hb
    simp only [scalePixel, ne_eq, hb, not_false_eq_true, if_true]

/-- The index that a `char` sample denotes is the byte value itself for the bytes
below 128, and for every byte where plain `char` is unsigned; where it is signed
the bytes from 128 on denote the indices -128..-1. -/
theorem charIndex_spec (b : Nat) :
    charIndex false b = b ∧ (b < 128 → charIndex true b = b) ∧
    (128 ≤ b → charIndex true b = (b : Int) - 256) := by
  refine ⟨?_, ?_, ?_⟩
  · simp [charIndex]
  · intro hb
    have h : ¬ (true = true ∧ 128 ≤ b) := by omega
    rw [charIndex, if_neg h]
  · intro hb
    have h : (true = true ∧ 128 ≤ b) := ⟨rfl, hb⟩
    rw [charIndex, if_pos h]

/-- C21: where plain `char` is signed, Linear_Scale_To_Linear in remap mode without
transparency does not write remapTable[b] for a sample b >= 128.  The 2x2 picture
1, 2 / 200, 4 is scaled to the same size through the table at address 1000 whose
entry i is i + 10: the samples 1, 2 and 4 are written as 11, 12 and 14, but the
sample 200 is written as 77, the byte at index 200 - 256 = -56 before the table,
and not as entry 200, which is 210.  Where plain `char` is unsigned the same call
writes 210. -/
theorem Linear_Scale_To_Linear_remap_signed_char :
    (Linear_Scale_To_Linear true (exampleView 0 2 2) (exampleView 100 2 2) 0 0 0 0 2 2 2 2
        false (some 1000) exampleRemapMemory).map
        (fun mem1 => (List.range 4).map (fun k => mem1 (100 + k)))
      = some [11, 12, 77, 14] ∧
    exampleRemapMemory (1000 + 200) = 210 ∧
    exampleRemapMemory (1000 + (200 - 256)) = 77 ∧
    (Linear_Scale_To_Linear false (exampleView 0 2 2) (exampleView 100 2 2) 0 0 0 0 2 2 2 2
        false (some 1000) exampleRemapMemory).map
        (fun mem1 => (List.range 4).map (fun k => mem1 (100 + k)))
      = some [11, 12, 210, 14] := by
  refine ⟨by decide, by decide, by decide, by decide⟩

/-- C22: Linear_Scale_To_Linear in transparency mode with a remap table, where
plain `char` is signed.  The 2x2 picture 0, 5 / 200, 7 is scaled onto the bytes
50, 51, 52, 53 through a table with entry 0 = 9, entry 5 = 0, entry 7 = 3 and
entry 200 = 42.  The sample 0 leaves 50 in place although entry 0 is not 0, the
sample 5 is written as entry 5 = 0 and the sample 7 as entry 7 = 3, as the claim
says; but the sample 200 is written as 77, the byte at index -56 before the
table, and not as entry 200 = 42.  Without a remap table the same call writes the
samples 5, 200 and 7 and leaves 50 in place. -/
theorem Linear_Scale_To_Linear_transparent_signed_char :
    (Linear_Scale_To_Linear true (exampleView 0 2 2) (exampleView 100 2 2) 0 0 0 0 2 2 2 2
        true (some 1000) exampleTransMemory).map
        (fun mem1 => (List.range 4).map (fun k => mem1 (100 + k)))
      = some [50, 0, 77, 3] ∧
    (List.range 4).map (fun k => exampleTransMemory (100 + k)) = [50, 51, 52, 53] ∧
    exampleTransMemory (1000 + 0) = 9 ∧ exampleTransMemory (1000 + 5) = 0 ∧
    exampleTransMemory (1000 + 7) = 3 ∧ exampleTransMemory (1000 + 200) = 42 ∧
    (Linear_Scale_To_Linear true (exampleView 0 2 2) (exampleView 100 2 2) 0 0 0 0 2 2 2 2
        true none exampleTransMemory).map
        (fun mem1 => (List.range 4).map (fun k => mem1 (100 + k)))
      = some [50, 5, 200, 7] := by
  refine ⟨by decide, by decide, by decide, by decide, by decide, by decide, by decide⟩

/-- C23: a call of Linear_Scale_To_Linear with positive sizes whose clipped
destination window has no columns, or no rows, is not skipped: the test before
the ratios is `dst_y0 > dst_y1 || dst_x0 > dst_x1`, which an empty window
(dst_x0 == dst_x1) passes, and the ratio is then computed by a division by the
span 0.  Scaling a 2x2 source to 2x2 at dst_x == dst.Width == 4, or at
dst_y == dst.Height == 4, of a 4x4 destination has no defined result, in every
mode. -/
theorem Linear_Scale_To_Linear_zero_span_divides (char_signed trans : Bool)
    (remap : Option Int) (mem : Memory) :
    Linear_Scale_To_Linear char_signed (exampleView 0 2 2) (exampleView 100 4 4) 0 0 4 0 2 2 2 2
      trans remap mem = none ∧
    Linear_Scale_To_Linear char_signed (exampleView 0 2 2) (exampleView 100 4 4) 0 0 0 4 2 2 2 2
      trans remap mem = none :=
  ⟨rfl, rfl⟩

/-- C24: the clipped destination window of Linear_Scale_To_Linear can end one
column past dst.Width and one row past dst.Height, because the clipping tests
compare with `Get_Width() + 1` and `Get_Height() + 1`.  Scaling the 2x2 picture
1, 2 / 3, 4 to 2x2 at (3, 3) of the 4x4 destination at addresses 100..115 keeps
dst_x1 = dst_y1 = 5: pixel (3, 3) at address 115 receives 1, and the bytes
116, 119 and 120 (column 4 of row 3, columns 3 and 4 of row 4), which are past
the end of the destination, receive 2, 3 and 4. -/
theorem Linear_Scale_To_Linear_writes_past_window :
    (Linear_Scale_To_Linear true (exampleView 0 2 2) (exampleView 100 4 4) 0 0 3 3 2 2 2 2
        false none examplePicture).map
        (fun mem1 => (List.range 24).map (fun k => mem1 (100 + k)))
      = some [0, 0, 0, 0, 0, 0, 0, 0, 0, 0, 0, 0, 0, 0, 0, 1, 2, 0, 0, 3, 4, 0, 0, 0] ∧
    pixelAddr (exampleView 100 4 4) 4 3 = 116 ∧
    pixelAddr (exampleView 100 4 4) 3 4 = 119 ∧
    pixelAddr (exampleView 100 4 4) 4 4 = 120 ∧
    (List.range 24).map (fun k => examplePicture (100 + k)) = List.replicate 24 0 := by
  refine ⟨by decide, by decide, by decide, by decide, by decide⟩

/-- A non-negative value below 2^32 is its own conversion to `unsigned int`. -/
theorem toUnsigned_of_nonneg (v : Int) (h0 : 0 ≤ v) (h1 : v < 4294967296) : toUnsigned v = v := by
  unfold toUnsigned
  omega

/-- The conversion to `unsigned int` of a non-negative value is at most the value. -/
theorem toUnsigned_le (v : Int) (h0 : 0 ≤ v) : toUnsigned v ≤ v := by
  unfold toUnsigned
  omega

/-- C25, counterexample: the code compares x and y with Width and Height
converted to `unsigned int`.  On the viewport left by Attach(surface, 0, 0, 10,
-3), whose Height is -3, the call Fat_Put_Pixel(0, 0, 9, 1) has y = 0 >= Height,
yet (unsigned)Height is 4294967293 and the byte at the viewport's Offset is
written; on a viewport of Width -3 at address 100 the call Fat_Put_Pixel(1, 0, 9,
1) has x = 1 >= Width, yet the byte at address 101 is written. -/
theorem Fat_Put_Pixel_negative_size_counterexample :
    (exampleNegativeHeight.Height = -3 ∧ ((0 : Nat) : Int) ≥ exampleNegativeHeight.Height ∧
     toUnsigned exampleNegativeHeight.Height = 4294967293 ∧
     examplePicture exampleNegativeHeight.Offset = 0 ∧
     Fat_Put_Pixel exampleNegativeHeight 0 0 9 1 examplePicture exampleNegativeHeight.Offset = 9 ∧
     Fat_Put_Pixel exampleNegativeHeight 0 0 9 1 examplePicture ≠ examplePicture) ∧
    ((exampleView 100 (-3) 5).Width = -3 ∧ ((1 : Nat) : Int) ≥ (exampleView 100 (-3) 5).Width ∧
     toUnsigned (exampleView 100 (-3) 5).Width = 4294967293 ∧
     examplePicture 101 = 0 ∧
     Fat_Put_Pixel (exampleView 100 (-3) 5) 1 0 9 1 examplePicture 101 = 9 ∧
     Fat_Put_Pixel (exampleView 100 (-3) 5) 1 0 9 1 examplePicture ≠ examplePicture) := by
  have h1 : Fat_Put_Pixel exampleNegativeHeight 0 0 9 1 examplePicture
      exampleNegativeHeight.Offset = 9 := by decide
  have h2 : Fat_Put_Pixel (exampleView 100 (-3) 5) 1 0 9 1 examplePicture 101 = 9 := by decide
  refine ⟨⟨by decide, by decide, by decide, by decide, h1, ?_⟩,
    ⟨by decide, by decide, by decide, by decide, h2, ?_⟩⟩
  · intro e
    rw [e] at h1
    exact absurd h1 (by decide)
  · intro e
    rw [e] at h2
    exact absurd h2 (by decide)

/-- C25, amended: Fat_Put_Pixel(x, y, color, size) returns the memory unchanged
when size == 0, or x >= Width and Width is not negative, or y >= Height and
Height is not negative, x and y being unsigned. -/
theorem Fat_Put_Pixel_outside (this : GraphicViewPortClass) (x y color size : Nat)
    (mem : Memory) :
    (size = 0 → Fat_Put_Pixel this x y color size mem = mem) ∧
    (0 ≤ this.Width → (x : Int) ≥ this.Width → Fat_Put_Pixel this x y color size mem = mem) ∧
    (0 ≤ this.Height → (y : Int) ≥ this.Height → Fat_Put_Pixel this x y color size mem = mem) := by
  have main : (y : Int) ≥ toUnsigned this.Height ∨ (x : Int) ≥ toUnsigned this.Width →
      Fat_Put_Pixel this x y color size mem = mem := by
    intro hout
    unfold Fat_Put_Pixel
    by_cases hs : size = 0
    · simp only [if_pos hs]
    · simp only [if_neg hs, if_pos hout]
  refine ⟨?_, ?_, ?_⟩
  · intro hs
    unfold Fat_Put_Pixel
    simp only [if_pos hs]
  · intro hW h
    exact main (Or.inr (le_trans (toUnsigned_le _ hW) h))
  · intro hH h
    exact main (Or.inl (le_trans (toUnsigned_le _ hH) h))

/-- C25 (amended) at concrete calls on the 5x5 viewport at address 100: size 0
at (1, 1), x = 5 = Width and y = 7 > Height all leave the memory unchanged. -/
theorem Fat_Put_Pixel_outside_witness :
    ((0 : Nat) = 0 ∧ 0 ≤ (exampleView 100 5 5).Width ∧ ((5 : Nat) : Int) ≥ (exampleView 100 5 5).Width ∧
     0 ≤ (exampleView 100 5 5).Height ∧ ((7 : Nat) : Int) ≥ (exampleView 100 5 5).Height) ∧
    Fat_Put_Pixel (exampleView 100 5 5) 1 1 9 0 examplePicture = examplePicture ∧
    Fat_Put_Pixel (exampleView 100 5 5) 5 1 9 3 examplePicture = examplePicture ∧
    Fat_Put_Pixel (exampleView 100 5 5) 1 7 9 3 examplePicture = examplePicture :=
  ⟨by decide,
   (Fat_Put_Pixel_outside (exampleView 100 5 5) 1 1 9 0 examplePicture).1 rfl,
   (Fat_Put_Pixel_outside (exampleView 100 5 5) 5 1 9 3 examplePicture).2.1 (by decide) (by decide),
   (Fat_Put_Pixel_outside (exampleView 100 5 5) 1 7 9 3 examplePicture).2.2 (by decide) (by decide)⟩

/-- A byte that has the colour keeps it through the rows of `Fat_Put_Pixel`. -/
theorem fatRows_keeps (color : Nat) (w pitch : Int) (p : Int) :
    ∀ (n : Nat) (buf : Int) (mem : Memory), mem p = color →
      fatRows color w pitch n buf mem p = color := by
  intro n
  induction n with
  | zero => intro buf mem h; exact h
  | succ n ih =>
    intro buf mem h
    simp only [fatRows]
    apply ih
    simp only [memset]
    split_ifs
    · rfl
    · exact h

/-- A byte inside one of the `n` rows of `Fat_Put_Pixel` ends with the colour. -/
theorem fatRows_inside (color : Nat) (w pitch : Int) (p : Int) :
    ∀ (n : Nat) (buf : Int) (mem : Memory) (i : Nat), i < n →
      buf + (i : Int) * pitch ≤ p → p < buf + (i : Int) * pitch + w →
      fatRows color w pitch n buf mem p = color := by
  intro n
  induction n with
  | zero => intro buf mem i hi; omega
  | succ n ih =>
    intro buf mem i hi h1 h2
    simp only [fatRows]
    cases i with
    | zero =>
      apply fatRows_keeps
      have hin : buf ≤ p ∧ p < buf + w := by
        simp only [Nat.cast_zero, zero_mul, add_zero] at h1 h2
        exact ⟨h1, h2⟩
      simp only [memset, if_pos hin]
    | succ k =>
      apply ih (buf + pitch) _ k (by omega)
      · have e : buf + pitch + (k : Int) * pitch = buf + ((k + 1 : Nat) : Int) * pitch := by
          push_cast; ring
        rw [e]; exact h1
      · have e : buf + pitch + (k : Int) * pitch = buf + ((k + 1 : Nat) : Int) * pitch := by
          push_cast; ring
        rw [e]; exact h2

/-- A byte outside all of the `n` rows of `Fat_Put_Pixel` is left as it was. -/
theorem fatRows_outside (color : Nat) (w pitch : Int) (p : Int) :
    ∀ (n : Nat) (buf : Int) (mem : Memory),
      (∀ i : Nat, i < n → ¬ (buf + (i : Int) * pitch ≤ p ∧ p < buf + (i : Int) * pitch + w)) →
      fatRows color w pitch n buf mem p = mem p := by
  intro n
  induction n with
  | zero => intro buf mem _; rfl
  | succ n ih =>
    intro buf mem h
    simp only [fatRows]
    rw [ih (buf + pitch)]
    · have h0 := h 0 (by omega)
      simp only [Nat.cast_zero, zero_mul, add_zero] at h0
      simp only [memset, if_neg h0]
    · intro i hi hc
      apply h (i + 1) (by omega)
      have e : buf + ((i + 1 : Nat) : Int) * pitch = buf + pitch + (i : Int) * pitch := by
        push_cast; ring
      rw [e]; exact hc

/-- C26: for size >= 1 and (x, y) with x + size <= Width and y + size <= Height,
Fat_Put_Pixel sets the pixels (x + j, y + i), 0 <= i, j < size, to color and
leaves every byte that is none of these pixels unchanged.  Width and Height are
`int` values (below 2^31), and the offset x + y * stride of the pixel (x, y) from
the origin of the viewport is a value of `unsigned int`, in which the code
computes it. -/
theorem Fat_Put_Pixel_block (this : GraphicViewPortClass) (x y color size : Nat)
    (mem : Memory)
    (hsize : 1 ≤ size)
    (hx : (x : Int) + size ≤ this.Width) (hy : (y : Int) + size ≤ this.Height)
    (hW : this.Width < 2147483648) (hH : this.Height < 2147483648)
    (hoff : 0 ≤ (x : Int) + (y : Int) * rowStride this
      ∧ (x : Int) + (y : Int) * rowStride this < 4294967296) :
    (∀ i j : Nat, i < size → j < size →
      Fat_Put_Pixel this x y color size mem (pixelAddr this ((x : Int) + j) ((y : Int) + i))
        = color) ∧
    (∀ p : Int,
      (∀ i j : Nat, i < size → j < size →
        p ≠ pixelAddr this ((x : Int) + j) ((y : Int) + i)) →
      Fat_Put_Pixel this x y color size mem p = mem p) := by
  have hs : ¬ size = 0 := by omega
  have hin : ¬ ((y : Int) ≥ toUnsigned this.Height ∨ (x : Int) ≥ toUnsigned this.Width) := by
    rw [toUnsigned_of_nonneg _ (by omega) (by omega), toUnsigned_of_nonneg _ (by omega) (by omega)]
    omega
  have hbuf : toUnsigned ((x : Int) + rowStride this * (y : Int))
      = (x : Int) + (y : Int) * rowStride this := by
    have e : (x : Int) + rowStride this * (y : Int) = (x : Int) + (y : Int) * rowStride this := by
      ring
    rw [e]
    exact toUnsigned_of_nonneg _ hoff.1 hoff.2
  have hw : toSigned (size : Int) % 18446744073709551616 = (size : Int) := by
    unfold toSigned
    have h1 : (size : Int) < 2147483648 := by omega
    rw [if_pos h1]
    omega
  have hpitch : this.Get_Full_Pitch = rowStride this := rfl
  have hF : Fat_Put_Pixel this x y color size mem
      = fatRows color (size : Int) (rowStride this) size
          ((x : Int) + (y : Int) * rowStride this + this.Offset) mem := by
    simp only [Fat_Put_Pixel, if_neg hs, if_neg hin, hpitch, hbuf, hw]
  rw [hF]
  clear hF hw hbuf hin hoff hW hH hx hy
  have e : ∀ i j : Nat, pixelAddr this ((x : Int) + j) ((y : Int) + i)
      = (x : Int) + (y : Int) * rowStride this + this.Offset + (i : Int) * rowStride this
        + (j : Int) := by
    intro i j; unfold pixelAddr; ring
  constructor
  · intro i j hi hj
    rw [e]
    apply fatRows_inside color _ _ _ size _ mem i hi
    · omega
    · omega
  · intro p hp
    apply fatRows_outside
    intro i hi hc
    have hj0 : 0 ≤ p - ((x : Int) + (y : Int) * rowStride this + this.Offset
        + (i : Int) * rowStride this) := by omega
    apply hp i (p - ((x : Int) + (y : Int) * rowStride this + this.Offset
        + (i : Int) * rowStride this)).toNat hi
    · omega
    · rw [e, Int.toNat_of_nonneg hj0]
      ring

/-- C26 at a concrete call: size 3 at (1, 1) of the 5x5 viewport at address 100
paints the 3x3 block with corners (1, 1) and (3, 3) with the colour 9 and nothing
else. -/
theorem Fat_Put_Pixel_block_witness :
    (List.range 25).map
        (fun k => Fat_Put_Pixel (exampleView 100 5 5) 1 1 9 3 examplePicture (100 + k))
      = [0, 0, 0, 0, 0, 0, 9, 9, 9, 0, 0, 9, 9, 9, 0, 0, 9, 9, 9, 0, 0, 0, 0, 0, 0] ∧
    ((1 : Nat) ≤ 3 ∧ ((1 : Nat) : Int) + (3 : Nat) ≤ (exampleView 100 5 5).Width
      ∧ ((1 : Nat) : Int) + (3 : Nat) ≤ (exampleView 100 5 5).Height) ∧
    ((∀ i j : Nat, i < 3 → j < 3 →
      Fat_Put_Pixel (exampleView 100 5 5) 1 1 9 3 examplePicture
          (pixelAddr (exampleView 100 5 5) (((1 : Nat) : Int) + j) (((1 : Nat) : Int) + i))
        = 9) ∧
    (∀ p : Int,
      (∀ i j : Nat, i < 3 → j < 3 →
        p ≠ pixelAddr (exampleView 100 5 5) (((1 : Nat) : Int) + j) (((1 : Nat) : Int) + i)) →
      Fat_Put_Pixel (exampleView 100 5 5) 1 1 9 3 examplePicture p = examplePicture p)) :=
  ⟨by decide, by decide,
   Fat_Put_Pixel_block (exampleView 100 5 5) 1 1 9 3 examplePicture (by decide) (by decide)
     (by decide) (by decide) (by decide) (by decide)⟩

/-- The flag that `Lock()` returns is the flag that the surface's Lock returns. -/
theorem Lock_fst (gbLock : GraphicViewPortClass → Bool × GraphicViewPortClass)
    (m : Heap) (this : Nat) :
    (Lock gbLock m this).1 = (gbLock (m (m this).GraphicBuff)).1 := by
  unfold Lock
  by_cases h : (gbLock (m (m this).GraphicBuff)).1 = true
  · simp only [h, Bool.not_true, Bool.false_eq_true, if_false]
    split_ifs <;> rfl
  · have h1 : (gbLock (m (m this).GraphicBuff)).1 = false := Bool.eq_false_iff.mpr h
    simp only [h1, Bool.not_false, if_true]

/-- `Lock()` as a step of a drawing operation leaves the memory alone and records
one call of the surface's Lock. -/
theorem LockW_spec (gbLock : GraphicViewPortClass → Bool × GraphicViewPortClass)
    (wd : World) (this : Nat) :
    (LockW gbLock wd this).2.mem = wd.mem ∧
    (LockW gbLock wd this).2.trace = wd.trace ++ [Call.SurfaceLock (wd.heap this).GraphicBuff] ∧
    (LockW gbLock wd this).1 = (gbLock (wd.heap (wd.heap this).GraphicBuff)).1 :=
  ⟨rfl, rfl, Lock_fst gbLock wd.heap this⟩

/-- `Unlock()` as a step of a drawing operation leaves the memory alone and
records one call of the surface's Unlock. -/
theorem UnlockW_spec (gbUnlock : GraphicViewPortClass → Bool × GraphicViewPortClass)
    (wd : World) (this : Nat) :
    (UnlockW gbUnlock wd this).2.mem = wd.mem ∧
    (UnlockW gbUnlock wd this).2.trace
      = wd.trace ++ [Call.SurfaceUnlock (wd.heap this).GraphicBuff] :=
  ⟨rfl, rfl⟩

/-- C27: when the Lock of the viewport `this` fails, Put_Pixel, Fill_Rect (on its
software path) and the three Blit stubs with `this` as the source (on their
software path) leave the world as the failed Lock left it: the memory is
unchanged and the only call made is the failed Lock of the surface, so no raw
buffer routine is called; Get_Pixel, the three To_Buffer stubs and the four Print
stubs return 0 in that same world.  When `this` is the destination of a Blit whose
source `other` locks and the Lock of `this` then fails, the memory is unchanged
as well, and the calls made are the two Locks and the Unlock of the source. -/
theorem Lock_failure_is_silent (R : DrawBuff) (AllowHardwareBlitFills : Bool)
    (IsReadyToBlit : Nat → Bool) (Intersect : Rect → Rect → Rect)
    (gbLock gbUnlock : GraphicViewPortClass → Bool × GraphicViewPortClass)
    (wd : World) (this other : Nat) (x y w h dx dy fcol bcol num buff size : Int)
    (color : Nat) (bc : BufferClass) (str : String) (trans : Bool) :
    ((LockW gbLock wd this).1 = false →
      (LockW gbLock wd this).2.mem = wd.mem ∧
      (LockW gbLock wd this).2.trace
        = wd.trace ++ [Call.SurfaceLock (wd.heap this).GraphicBuff] ∧
      Put_Pixel R gbLock gbUnlock wd this x y color = (LockW gbLock wd this).2 ∧
      (¬ (AllowHardwareBlitFills = true ∧ (wd.heap this).IsHardware = true
          ∧ (dx - x) * (dy - y) ≥ 32 * 32
          ∧ IsReadyToBlit (wd.heap this).GraphicBuff = true) →
        Fill_Rect R AllowHardwareBlitFills IsReadyToBlit Intersect gbLock gbUnlock wd this
          x y dx dy color = (LockW gbLock wd this).2) ∧
      Get_Pixel R gbLock gbUnlock wd this x y = (0, (LockW gbLock wd this).2) ∧
      To_Buffer R gbLock gbUnlock wd this x y w h buff size = (0, (LockW gbLock wd this).2) ∧
      To_Buffer2 R gbLock gbUnlock wd this x y w h bc = (0, (LockW gbLock wd this).2) ∧
      To_Buffer3 R gbLock gbUnlock wd this bc = (0, (LockW gbLock wd this).2) ∧
      Print R gbLock gbUnlock wd this str x y fcol bcol = (0, (LockW gbLock wd this).2) ∧
      Print2 R gbLock gbUnlock wd this num x y fcol bcol = (0, (LockW gbLock wd this).2) ∧
      Print3 R gbLock gbUnlock wd this num x y fcol bcol = (0, (LockW gbLock wd this).2) ∧
      Print4 R gbLock gbUnlock wd this num x y fcol bcol = (0, (LockW gbLock wd this).2) ∧
      (((wd.heap this).IsHardware && (wd.heap other).IsHardware) = false →
        Blit gbLock gbUnlock wd this other x y dx dy w h trans = some (LockW gbLock wd this).2 ∧
        Blit2 gbLock gbUnlock wd this other dx dy trans = some (LockW gbLock wd this).2 ∧
        Blit3 gbLock gbUnlock wd this other trans = some (LockW gbLock wd this).2)) ∧
    (((wd.heap other).IsHardware && (wd.heap this).IsHardware) = false →
      (LockW gbLock wd other).1 = true →
      (LockW gbLock (LockW gbLock wd other).2 this).1 = false →
      Blit gbLock gbUnlock wd other this x y dx dy w h trans
        = some (UnlockW gbUnlock (LockW gbLock (LockW gbLock wd other).2 this).2 other).2 ∧
      Blit2 gbLock gbUnlock wd other this dx dy trans
        = some (UnlockW gbUnlock (LockW gbLock (LockW gbLock wd other).2 this).2 other).2 ∧
      Blit3 gbLock gbUnlock wd other this trans
        = some (UnlockW gbUnlock (LockW gbLock (LockW gbLock wd other).2 this).2 other).2 ∧
      (UnlockW gbUnlock (LockW gbLock (LockW gbLock wd other).2 this).2 other).2.mem = wd.mem ∧
      (UnlockW gbUnlock (LockW gbLock (LockW gbLock wd other).2 this).2 other).2.trace
        = wd.trace ++
          [Call.SurfaceLock (wd.heap other).GraphicBuff,
           Call.SurfaceLock ((LockW gbLock wd other).2.heap this).GraphicBuff,
           Call.SurfaceUnlock
             ((LockW gbLock (LockW gbLock wd other).2 this).2.heap other).GraphicBuff]) := by
  constructor
  · intro hfail
    refine ⟨rfl, rfl, ?_, ?_, ?_, ?_, ?_, ?_, ?_, ?_, ?_, ?_, ?_⟩
    · simp only [Put_Pixel, hfail, Bool.false_eq_true, if_false]
    · intro hsoft
      simp only [Fill_Rect, if_neg hsoft, hfail, Bool.false_eq_true, if_false]
    · simp only [Get_Pixel, hfail, Bool.false_eq_true, if_false]
    · simp only [To_Buffer, hfail, Bool.false_eq_true, if_false]
    · simp only [To_Buffer2, hfail, Bool.false_eq_true, if_false]
    · simp only [To_Buffer3, hfail, Bool.false_eq_true, if_false]
    · simp only [Print, hfail, Bool.false_eq_true, if_false]
    · simp only [Print2, hfail, Bool.false_eq_true, if_false]
    · simp only [Print3, hfail, Bool.false_eq_true, if_false]
    · simp only [Print4, hfail, Bool.false_eq_true, if_false]
    · intro hsw
      refine ⟨?_, ?_, ?_⟩
      · simp only [Blit, hsw, hfail, Bool.false_eq_true, if_false]
      · simp only [Blit2, hsw, hfail, Bool.false_eq_true, if_false]
      · simp only [Blit3, hsw, hfail, Bool.false_eq_true, if_false]
  · intro hsw hsrc hdst
    refine ⟨?_, ?_, ?_, rfl, ?_⟩
    · simp only [Blit, hsw, hsrc, hdst, Bool.false_eq_true, if_false, if_true]
    · simp only [Blit2, hsw, hsrc, hdst, Bool.false_eq_true, if_false, if_true]
    · simp only [Blit3, hsw, hsrc, hdst, Bool.false_eq_true, if_false, if_true]
    · simp only [UnlockW, LockW, List.append_assoc, List.cons_append, List.nil_append]

/-- C27 at concrete calls.  On the software example store every surface Lock
fails: Put_Pixel and Fill_Rect leave the memory unchanged and Get_Pixel returns
0, the only call made being the failed Lock of surface 1.  On the store with two
surfaces the Lock succeeds for surface 1 and fails for surface 3: a Blit from the
viewport at 2 to the surface at 3 leaves the memory unchanged and makes the calls
Lock 1, Lock 3, Unlock 1. -/
theorem Lock_failure_is_silent_witness :
    ((LockW exampleLockFail exampleWorld 2).1 = false ∧
      (Put_Pixel exampleDrawBuff exampleLockFail exampleUnlockOk exampleWorld 2 1 1 9).trace
        = [Call.SurfaceLock 1] ∧
      (LockW exampleLockFail exampleWorld 2).2.mem = exampleWorld.mem ∧
      Put_Pixel exampleDrawBuff exampleLockFail exampleUnlockOk exampleWorld 2 1 1 9
        = (LockW exampleLockFail exampleWorld 2).2 ∧
      Fill_Rect exampleDrawBuff true (fun _ => true) exampleIntersect exampleLockFail
          exampleUnlockOk exampleWorld 2 1 1 4 3 9
        = (LockW exampleLockFail exampleWorld 2).2 ∧
      Get_Pixel exampleDrawBuff exampleLockFail exampleUnlockOk exampleWorld 2 1 1
        = (0, (LockW exampleLockFail exampleWorld 2).2)) ∧
    ((exampleTwoSurfaces.heap 2).IsHardware && (exampleTwoSurfaces.heap 3).IsHardware) = false ∧
    (LockW exampleLockWide exampleTwoSurfaces 2).1 = true ∧
    (LockW exampleLockWide (LockW exampleLockWide exampleTwoSurfaces 2).2 3).1 = false ∧
    (Blit exampleLockWide exampleUnlockOk exampleTwoSurfaces 2 3 1 1 4 3 2 2 false).map
        (fun wd1 => wd1.trace)
      = some [Call.SurfaceLock 1, Call.SurfaceLock 3, Call.SurfaceUnlock 1] ∧
    Blit exampleLockWide exampleUnlockOk exampleTwoSurfaces 2 3 1 1 4 3 2 2 false
      = some (UnlockW exampleUnlockOk
          (LockW exampleLockWide (LockW exampleLockWide exampleTwoSurfaces 2).2 3).2 2).2 ∧
    (UnlockW exampleUnlockOk
        (LockW exampleLockWide (LockW exampleLockWide exampleTwoSurfaces 2).2 3).2 2).2.mem
      = exampleTwoSurfaces.mem :=
  ⟨⟨by decide, by decide,
    ((Lock_failure_is_silent exampleDrawBuff true (fun _ => true) exampleIntersect
      exampleLockFail exampleUnlockOk exampleWorld 2 3 1 1 2 2 4 3 0 0 0 0 0 9 ⟨0, 0⟩ default
      false).1 (by decide)).1,
    ((Lock_failure_is_silent exampleDrawBuff true (fun _ => true) exampleIntersect
      exampleLockFail exampleUnlockOk exampleWorld 2 3 1 1 2 2 4 3 0 0 0 0 0 9 ⟨0, 0⟩ default
      false).1 (by decide)).2.2.1,
    ((Lock_failure_is_silent exampleDrawBuff true (fun _ => true) exampleIntersect
      exampleLockFail exampleUnlockOk exampleWorld 2 3 1 1 2 2 4 3 0 0 0 0 0 9 ⟨0, 0⟩ default
      false).1 (by decide)).2.2.2.1 (by decide),
    ((Lock_failure_is_silent exampleDrawBuff true (fun _ => true) exampleIntersect
      exampleLockFail exampleUnlockOk exampleWorld 2 3 1 1 2 2 4 3 0 0 0 0 0 9 ⟨0, 0⟩ default
      false).1 (by decide)).2.2.2.2.1⟩,
   by decide, by decide, by decide, by decide,
   ((Lock_failure_is_silent exampleDrawBuff true (fun _ => true) exampleIntersect
      exampleLockWide exampleUnlockOk exampleTwoSurfaces 3 2 1 1 2 2 4 3 0 0 0 0 0 9 ⟨0, 0⟩ default
      false).2 (by decide) (by decide) (by decide)).1,
   ((Lock_failure_is_silent exampleDrawBuff true (fun _ => true) exampleIntersect
      exampleLockWide exampleUnlockOk exampleTwoSurfaces 3 2 1 1 2 2 4 3 0 0 0 0 0 9 ⟨0, 0⟩ default
      false).2 (by decide) (by decide) (by decide)).2.2.2.1⟩

/-- C28: Draw_Stamp and Draw_Rect call the surface's Unlock after a Lock that
failed.  On the software example store, where every Lock of surface 1 fails,
Draw_Stamp on the viewport at address 2 makes the calls Lock, Unlock (its
`Unlock()` stands after the `if (Lock())` block), and Draw_Rect makes the calls
Lock, four more Locks (one by each Draw_Line), Unlock (it does not look at what
`Lock()` returns); neither calls a raw routine.  Whatever the raw routines and
the window table are. -/
theorem Draw_Stamp_unlocks_after_failed_Lock (R : DrawBuff) (W : WwWin)
    (icondata icon x_pixel y_pixel remap clip_window x1 y1 x2 y2 : Int) (color : Nat) :
    (LockW exampleLockFail exampleWorld 2).1 = false ∧
    (Draw_Stamp R W exampleLockFail exampleUnlockOk exampleWorld 2 icondata icon x_pixel y_pixel
        remap clip_window).trace
      = [Call.SurfaceLock 1, Call.SurfaceUnlock 1] ∧
    (Draw_Rect R exampleLockFail exampleUnlockOk exampleWorld 2 x1 y1 x2 y2 color).trace
      = [Call.SurfaceLock 1, Call.SurfaceLock 1, Call.SurfaceLock 1, Call.SurfaceLock 1,
         Call.SurfaceLock 1, Call.SurfaceUnlock 1] :=
  ⟨rfl, rfl, rfl⟩

/-- The calls that one Draw_Line adds: the Lock, and when it succeeded the raw line
draw and the Unlock. -/
theorem Draw_Line_trace (R : DrawBuff)
    (gbLock gbUnlock : GraphicViewPortClass → Bool × GraphicViewPortClass)
    (wd : World) (this : Nat) (sx sy dx dy : Int) (color : Nat) :
    ∃ seg : List Call,
      (Draw_Line R gbLock gbUnlock wd this sx sy dx dy color).trace = wd.trace ++ seg ∧
      (seg.filter Call.isDraw).Sublist [Call.Buffer_Draw_Line this sx sy dx dy color] ∧
      ((LockW gbLock wd this).1 = true →
        seg.filter Call.isDraw = [Call.Buffer_Draw_Line this sx sy dx dy color]) := by
  by_cases h : (LockW gbLock wd this).1 = true
  · refine ⟨[Call.SurfaceLock (wd.heap this).GraphicBuff,
        Call.Buffer_Draw_Line this sx sy dx dy color,
        Call.SurfaceUnlock ((LockW gbLock wd this).2.heap this).GraphicBuff], ?_, ?_, ?_⟩
    · simp only [Draw_Line, h, if_true]
      simp only [UnlockW, World.call, LockW, List.append_assoc, List.cons_append,
        List.nil_append]
    · simp [List.filter, Call.isDraw]
    · intro _
      simp [List.filter, Call.isDraw]
  · refine ⟨[Call.SurfaceLock (wd.heap this).GraphicBuff], ?_, ?_, ?_⟩
    · simp only [Draw_Line, h, if_false]
      rfl
    · simp [List.filter, Call.isDraw]
    · intro h1
      exact absurd h1 h

/-- C29: Draw_Rect(x1, y1, x2, y2, color) is the Lock, the four calls
Draw_Line(x1, y1, x2, y1), Draw_Line(x1, y2, x2, y2), Draw_Line(x1, y1, x1, y2),
Draw_Line(x2, y1, x2, y2) with the given colour in that order, and the Unlock.  Of
the calls it makes, those that draw are raw line draws with these endpoints and
this colour, in that order and each at most once; when the surface's Lock
succeeds they are exactly these four. -/
theorem Draw_Rect_four_lines (R : DrawBuff)
    (gbLock gbUnlock : GraphicViewPortClass → Bool × GraphicViewPortClass)
    (wd : World) (this : Nat) (x1 y1 x2 y2 : Int) (color : Nat) :
    Draw_Rect R gbLock gbUnlock wd this x1 y1 x2 y2 color
      = (UnlockW gbUnlock
          (Draw_Line R gbLock gbUnlock
            (Draw_Line R gbLock gbUnlock
              (Draw_Line R gbLock gbUnlock
                (Draw_Line R gbLock gbUnlock (LockW gbLock wd this).2 this x1 y1 x2 y1 color)
                this x1 y2 x2 y2 color)
              this x1 y1 x1 y2 color)
            this x2 y1 x2 y2 color)
          this).2 ∧
    ∃ calls : List Call,
      (Draw_Rect R gbLock gbUnlock wd this x1 y1 x2 y2 color).trace = wd.trace ++ calls ∧
      (calls.filter Call.isDraw).Sublist
        [Call.Buffer_Draw_Line this x1 y1 x2 y1 color,
         Call.Buffer_Draw_Line this x1 y2 x2 y2 color,
         Call.Buffer_Draw_Line this x1 y1 x1 y2 color,
         Call.Buffer_Draw_Line this x2 y1 x2 y2 color] ∧
      ((∀ g, (gbLock g).1 = true) →
        calls.filter Call.isDraw
          = [Call.Buffer_Draw_Line this x1 y1 x2 y1 color,
             Call.Buffer_Draw_Line this x1 y2 x2 y2 color,
             Call.Buffer_Draw_Line this x1 y1 x1 y2 color,
             Call.Buffer_Draw_Line this x2 y1 x2 y2 color]) := by
  refine ⟨rfl, ?_⟩
  obtain ⟨s1, e1, sub1, all1⟩ :=
    Draw_Line_trace R gbLock gbUnlock (LockW gbLock wd this).2 this x1 y1 x2 y1 color
  obtain ⟨s2, e2, sub2, all2⟩ :=
    Draw_Line_trace R gbLock gbUnlock
      (Draw_Line R gbLock gbUnlock (LockW gbLock wd this).2 this x1 y1 x2 y1 color)
      this x1 y2 x2 y2 color
  obtain ⟨s3, e3, sub3, all3⟩ :=
    Draw_Line_trace R gbLock gbUnlock
      (Draw_Line R gbLock gbUnlock
        (Draw_Line R gbLock gbUnlock (LockW gbLock wd this).2 this x1 y1 x2 y1 color)
        this x1 y2 x2 y2 color)
      this x1 y1 x1 y2 color
  obtain ⟨s4, e4, sub4, all4⟩ :=
    Draw_Line_trace R gbLock gbUnlock
      (Draw_Line R gbLock gbUnlock
        (Draw_Line R gbLock gbUnlock
          (Draw_Line R gbLock gbUnlock (LockW gbLock wd this).2 this x1 y1 x2 y1 color)
          this x1 y2 x2 y2 color)
        this x1 y1 x1 y2 color)
      this x2 y1 x2 y2 color
  refine ⟨[Call.SurfaceLock (wd.heap this).GraphicBuff] ++ s1 ++ s2 ++ s3 ++ s4
      ++ [Call.SurfaceUnlock
        ((Draw_Line R gbLock gbUnlock
          (Draw_Line R gbLock gbUnlock
            (Draw_Line R gbLock gbUnlock
              (Draw_Line R gbLock gbUnlock (LockW gbLock wd this).2 this x1 y1 x2 y1 color)
              this x1 y2 x2 y2 color)
            this x1 y1 x1 y2 color)
          this x2 y1 x2 y2 color).heap this).GraphicBuff], ?_, ?_, ?_⟩
  · show (UnlockW gbUnlock _ this).2.trace = _
    rw [(UnlockW_spec gbUnlock _ this).2, e4, e3, e2, e1, (LockW_spec gbLock wd this).2.1]
    simp only [List.append_assoc]
  · have hf : (([Call.SurfaceLock (wd.heap this).GraphicBuff] ++ s1 ++ s2 ++ s3 ++ s4
        ++ [Call.SurfaceUnlock
          ((Draw_Line R gbLock gbUnlock
            (Draw_Line R gbLock gbUnlock
              (Draw_Line R gbLock gbUnlock
                (Draw_Line R gbLock gbUnlock (LockW gbLock wd this).2 this x1 y1 x2 y1 color)
                this x1 y2 x2 y2 color)
              this x1 y1 x1 y2 color)
            this x2 y1 x2 y2 color).heap this).GraphicBuff]).filter Call.isDraw)
        = s1.filter Call.isDraw ++ s2.filter Call.isDraw ++ s3.filter Call.isDraw
          ++ s4.filter Call.isDraw := by
      simp [List.filter_append, Call.isDraw]
    rw [hf]
    exact ((sub1.append sub2).append sub3).append sub4
  · intro hall
    have hl : ∀ w : World, (LockW gbLock w this).1 = true := fun w => by
      rw [(LockW_spec gbLock w this).2.2]; exact hall _
    have hf : (([Call.SurfaceLock (wd.heap this).GraphicBuff] ++ s1 ++ s2 ++ s3 ++ s4
        ++ [Call.SurfaceUnlock
          ((Draw_Line R gbLock gbUnlock
            (Draw_Line R gbLock gbUnlock
              (Draw_Line R gbLock gbUnlock
                (Draw_Line R gbLock gbUnlock (LockW gbLock wd this).2 this x1 y1 x2 y1 color)
                this x1 y2 x2 y2 color)
              this x1 y1 x1 y2 color)
            this x2 y1 x2 y2 color).heap this).GraphicBuff]).filter Call.isDraw)
        = s1.filter Call.isDraw ++ s2.filter Call.isDraw ++ s3.filter Call.isDraw
          ++ s4.filter Call.isDraw := by
      simp [List.filter_append, Call.isDraw]
    rw [hf, all1 (hl _), all2 (hl _), all3 (hl _), all4 (hl _)]
    rfl

/-- C29 at a concrete call: on the software example store with a Lock that
succeeds, Draw_Rect(1, 2, 3, 4, 9) on the viewport at address 2 makes, between
the Lock and the Unlock, the four line draws of its outline, each between a Lock
and an Unlock of its own. -/
theorem Draw_Rect_four_lines_witness :
    (Draw_Rect exampleDrawBuff exampleLockOk exampleUnlockOk exampleWorld 2 1 2 3 4 9).trace
      = [Call.SurfaceLock 1,
         Call.SurfaceLock 1, Call.Buffer_Draw_Line 2 1 2 3 2 9, Call.SurfaceUnlock 1,
         Call.SurfaceLock 1, Call.Buffer_Draw_Line 2 1 4 3 4 9, Call.SurfaceUnlock 1,
         Call.SurfaceLock 1, Call.Buffer_Draw_Line 2 1 2 1 4 9, Call.SurfaceUnlock 1,
         Call.SurfaceLock 1, Call.Buffer_Draw_Line 2 3 2 3 4 9, Call.SurfaceUnlock 1,
         Call.SurfaceUnlock 1] ∧
    (∀ g, (exampleLockOk g).1 = true) ∧
    ∃ calls : List Call,
      (Draw_Rect exampleDrawBuff exampleLockOk exampleUnlockOk exampleWorld 2 1 2 3 4 9).trace
        = exampleWorld.trace ++ calls ∧
      calls.filter Call.isDraw
        = [Call.Buffer_Draw_Line 2 1 2 3 2 9, Call.Buffer_Draw_Line 2 1 4 3 4 9,
           Call.Buffer_Draw_Line 2 1 2 1 4 9, Call.Buffer_Draw_Line 2 3 2 3 4 9] := by
  refine ⟨by decide, fun _ => rfl, ?_⟩
  obtain ⟨calls, h1, _, h3⟩ :=
    (Draw_Rect_four_lines exampleDrawBuff exampleLockOk exampleUnlockOk exampleWorld 2 1 2 3 4 9).2
  exact ⟨calls, h1, h3 (fun _ => rfl)⟩

/-- C31: Set_Logic_Page(p) returns the value LogicPage had before the call and
leaves LogicPage == p, in both overloads; and Set_Logic_Page(Set_Logic_Page(p)),
the inner call made first and the outer one on the state it leaves with the
pointer it returned, returns p and restores LogicPage to its original value. -/
theorem Set_Logic_Page_swaps (LogicPage p : Nat) :
    (Set_Logic_Page LogicPage p).1 = LogicPage ∧
    (Set_Logic_Page LogicPage p).2 = p ∧
    (Set_Logic_Page2 LogicPage p).1 = LogicPage ∧
    (Set_Logic_Page2 LogicPage p).2 = p ∧
    Set_Logic_Page (Set_Logic_Page LogicPage p).2 (Set_Logic_Page LogicPage p).1
      = (p, LogicPage) :=
  ⟨rfl, rfl, rfl, rfl, rfl⟩

/-- C32: Linear_Scale_To_Linear with equal sizes, no remap and no transparency
is not an identity copy once the rectangle is clipped: the ratio is computed
from the whole src_width over the clipped destination span.  The source is the
4x4 viewport at address 0 (pixel (c, r) holds 4 * r + c), the destination the 4x4
viewport at address 100, the sizes are 4x4.  With src_x = -2 the written pixels
of row 0 are columns 2 and 3 and receive the source columns 0 and 2 (bytes 0 and
2), not 0 and 1; with src_x = 2 columns 0 and 1 receive the source columns 2 and
4 (bytes 2 and 4), not 2 and 3; with dst_x = -2 columns 0 and 1 receive the
source columns 2 and 4; with dst_x = 2 columns 2 and 3 receive the source
columns 0 and 2. -/
theorem Linear_Scale_To_Linear_clipped_not_identity :
    (Linear_Scale_To_Linear true (exampleView 0 4 4) (exampleView 100 4 4) (-2) 0 0 0 4 4 4 4
        false none exampleMemory).map
        (fun mem1 => (List.range 16).map (fun k => mem1 (100 + k)))
      = some [100, 101, 0, 2, 104, 105, 4, 6, 108, 109, 8, 10, 112, 113, 12, 14] ∧
    (Linear_Scale_To_Linear true (exampleView 0 4 4) (exampleView 100 4 4) 2 0 0 0 4 4 4 4
        false none exampleMemory).map
        (fun mem1 => (List.range 16).map (fun k => mem1 (100 + k)))
      = some [2, 4, 102, 103, 6, 8, 106, 107, 10, 12, 110, 111, 14, 16, 114, 115] ∧
    (Linear_Scale_To_Linear true (exampleView 0 4 4) (exampleView 100 4 4) 0 0 (-2) 0 4 4 4 4
        false none exampleMemory).map
        (fun mem1 => (List.range 16).map (fun k => mem1 (100 + k)))
      = some [2, 4, 102, 103, 6, 8, 106, 107, 10, 12, 110, 111, 14, 16, 114, 115] ∧
    (Linear_Scale_To_Linear true (exampleView 0 4 4) (exampleView 100 4 4) 0 0 2 0 4 4 4 4
        false none exampleMemory).map
        (fun mem1 => (List.range 16).map (fun k => mem1 (100 + k)))
      = some [100, 101, 0, 2, 104, 105, 4, 6, 108, 109, 8, 10, 112, 113, 12, 14] ∧
    (List.range 16).map (fun k => exampleMemory (pixelAddr (exampleView 0 4 4) (k % 4) (k / 4)))
      = [0, 1, 2, 3, 4, 5, 6, 7, 8, 9, 10, 11, 12, 13, 14, 15] ∧
    (List.range 16).map (fun k => exampleMemory (100 + k))
      = [100, 101, 102, 103, 104, 105, 106, 107, 108, 109, 110, 111, 112, 113, 114, 115] := by
  refine ⟨by decide, by decide, by decide, by decide, by decide, by decide⟩

/-- C33, counterexample: Fat_Put_Pixel writes although the Lock of the viewport
fails, and writes through an Offset of 0.  On the software example store every
Lock of the viewport at address 2 fails, and Fat_Put_Pixel(0, 0, 9, 1) sets the
byte at the viewport's Offset 1074 from 50 to 9, without a call of Lock or
Unlock.  On the hardware example store the Unlock of the viewport at address 2
leaves its Offset 0, and Fat_Put_Pixel(0, 0, 9, 1) then sets the byte at
address 0. -/
theorem Fat_Put_Pixel_ignores_lock_counterexample :
    (LockW exampleLockFail exampleWorld 2).1 = false ∧
    exampleWorld.mem (exampleWorld.heap 2).Offset = 50 ∧
    (Fat_Put_PixelW exampleWorld 2 0 0 9 1).mem (exampleWorld.heap 2).Offset = 9 ∧
    (Fat_Put_PixelW exampleWorld 2 0 0 9 1).trace = [] ∧
    ((Unlock exampleUnlockOk exampleHardware 2).2 2).IsHardware = true ∧
    ((Unlock exampleUnlockOk exampleHardware 2).2 2).Offset = 0 ∧
    exampleMemory 0 = 0 ∧
    Fat_Put_Pixel ((Unlock exampleUnlockOk exampleHardware 2).2 2) 0 0 9 1 exampleMemory 0 = 9 := by
  refine ⟨by decide, by decide, by decide, by decide, by decide, by decide, by decide, by decide⟩

/-- C33, amended: Fat_Put_Pixel takes no Lock and no Unlock and does not look at
the lock state or at the Offset: it leaves the objects and the recorded calls as
they are, and whenever size is not 0 (and is an `int` value) and (x, y) passes
the bounds test, it sets the byte of pixel (x, y), at the address
`x + pitch * y + Offset` computed from the Offset the viewport has at the
moment, to color, whatever a Lock of the viewport would return. -/
theorem Fat_Put_Pixel_takes_no_lock
    (gbLock : GraphicViewPortClass → Bool × GraphicViewPortClass)
    (wd : World) (this : Nat) (x y color size : Nat)
    (hsize : 1 ≤ size) (hint : (size : Int) < 2147483648)
    (hx : (x : Int) < toUnsigned (wd.heap this).Width)
    (hy : (y : Int) < toUnsigned (wd.heap this).Height) :
    (Fat_Put_PixelW wd this x y color size).heap = wd.heap ∧
    (Fat_Put_PixelW wd this x y color size).trace = wd.trace ∧
    (Fat_Put_PixelW wd this x y color size).mem
        (toUnsigned ((x : Int) + (wd.heap this).Get_Full_Pitch * (y : Int)) + (wd.heap this).Offset)
      = color ∧
    ((LockW gbLock wd this).1 = false →
      (Fat_Put_PixelW wd this x y color size).mem
          (toUnsigned ((x : Int) + (wd.heap this).Get_Full_Pitch * (y : Int))
            + (wd.heap this).Offset)
        = color) := by
  have hs : ¬ size = 0 := by omega
  have hin : ¬ ((y : Int) ≥ toUnsigned (wd.heap this).Height
      ∨ (x : Int) ≥ toUnsigned (wd.heap this).Width) := by omega
  have hw : toSigned (size : Int) % 18446744073709551616 = (size : Int) := by
    unfold toSigned
    rw [if_pos hint]
    omega
  have hpix : (Fat_Put_PixelW wd this x y color size).mem
        (toUnsigned ((x : Int) + (wd.heap this).Get_Full_Pitch * (y : Int)) + (wd.heap this).Offset)
      = color := by
    simp only [Fat_Put_PixelW, Fat_Put_Pixel, if_neg hs, if_neg hin, hw]
    obtain ⟨n, hn⟩ : ∃ n : Nat, size = n + 1 := ⟨size - 1, by omega⟩
    subst hn
    simp only [fatRows]
    apply fatRows_keeps
    have hin2 : toUnsigned ((x : Int) + (wd.heap this).Get_Full_Pitch * (y : Int))
          + (wd.heap this).Offset
        ≤ toUnsigned ((x : Int) + (wd.heap this).Get_Full_Pitch * (y : Int))
          + (wd.heap this).Offset ∧
        toUnsigned ((x : Int) + (wd.heap this).Get_Full_Pitch * (y : Int))
          + (wd.heap this).Offset
        < toUnsigned ((x : Int) + (wd.heap this).Get_Full_Pitch * (y : Int))
          + (wd.heap this).Offset + ((n + 1 : Nat) : Int) := by
      constructor
      · exact le_refl _
      · omega
    simp only [memset, if_pos hin2]
  exact ⟨rfl, rfl, hpix, fun _ => hpix⟩

/-- C33 (amended) at a concrete call: on the software example store, where the
Lock of the viewport at address 2 fails, Fat_Put_Pixel(1, 1, 9, 2) leaves the
objects and the recorded calls as they are and sets the byte of pixel (1, 1). -/
theorem Fat_Put_Pixel_takes_no_lock_witness :
    ((1 : Nat) ≤ 2 ∧ ((1 : Nat) : Int) < toUnsigned (exampleWorld.heap 2).Width ∧
      ((1 : Nat) : Int) < toUnsigned (exampleWorld.heap 2).Height ∧
      (LockW exampleLockFail exampleWorld 2).1 = false) ∧
    ((Fat_Put_PixelW exampleWorld 2 1 1 9 2).heap = exampleWorld.heap ∧
     (Fat_Put_PixelW exampleWorld 2 1 1 9 2).trace = exampleWorld.trace ∧
     (Fat_Put_PixelW exampleWorld 2 1 1 9 2).mem
        (toUnsigned (((1 : Nat) : Int) + (exampleWorld.heap 2).Get_Full_Pitch * ((1 : Nat) : Int))
          + (exampleWorld.heap 2).Offset)
      = 9 ∧
     ((LockW exampleLockFail exampleWorld 2).1 = false →
      (Fat_Put_PixelW exampleWorld 2 1 1 9 2).mem
          (toUnsigned (((1 : Nat) : Int) + (exampleWorld.heap 2).Get_Full_Pitch * ((1 : Nat) : Int))
            + (exampleWorld.heap 2).Offset)
        = 9)) :=
  ⟨by decide,
   Fat_Put_Pixel_takes_no_lock exampleLockFail exampleWorld 2 1 1 9 2 (by decide) (by decide)
     (by decide) (by decide)⟩

/-- C34: for the viewport that Attach(gbuffer, x, y, w, h) produces (the object
at `this` is not its own surface, so Attach acts), with the surface as it is at
the call: the row stride Pitch + XAdd + Width of the viewport is the offset
stride Width + Pitch of the surface, and for every pixel (px, py) the viewport
address Offset + py * (Pitch + XAdd + Width) + px is the surface address
surface.Offset + (YPos + py) * (surface.Width + surface.Pitch) + (XPos + px);
and Attach leaves a surface that is another object as it is. -/
theorem Attach_stride_identity (m : Heap) (this gbuffer : Nat) (x y w h : Int)
    (hself : this ≠ (m this).GraphicBuff) :
    rowStride (Attach m this gbuffer x y w h this) = (m gbuffer).Width + (m gbuffer).Pitch ∧
    (Attach m this gbuffer x y w h this).Pitch + (Attach m this gbuffer x y w h this).XAdd
        + (Attach m this gbuffer x y w h this).Width
      = (m gbuffer).Width + (m gbuffer).Pitch ∧
    (∀ px py : Int,
      (Attach m this gbuffer x y w h this).Offset
          + py * ((Attach m this gbuffer x y w h this).Pitch
            + (Attach m this gbuffer x y w h this).XAdd
            + (Attach m this gbuffer x y w h this).Width) + px
        = (m gbuffer).Offset
          + ((Attach m this gbuffer x y w h this).YPos + py)
            * ((m gbuffer).Width + (m gbuffer).Pitch)
          + ((Attach m this gbuffer x y w h this).XPos + px)) ∧
    (gbuffer ≠ this → Attach m this gbuffer x y w h gbuffer = m gbuffer) := by
  have e := Attach_at_this m this gbuffer x y w h hself
  refine ⟨?_, ?_, ?_, ?_⟩
  · rw [e]; simp only [rowStride]; ring
  · rw [e]; ring
  · intro px py
    rw [e]; ring
  · intro hne
    exact Attach_at_other m this gbuffer gbuffer x y w h hne

/-- C34 at a concrete call: the viewport attached at (2, 3) with size 10x8 to the
example surface (20 wide, 4 bytes of row padding, base address 1000) has row
stride 24 and pixel (4, 5) at address 1000 + (3 + 5) * 24 + (2 + 4) = 1198. -/
theorem Attach_stride_identity_witness :
    (2 : Nat) ≠ (exampleHeap 2).GraphicBuff ∧
    rowStride (Attach exampleHeap 2 1 2 3 10 8 2) = 24 ∧
    pixelAddr (Attach exampleHeap 2 1 2 3 10 8 2) 4 5 = 1198 ∧
    (rowStride (Attach exampleHeap 2 1 2 3 10 8 2) = (exampleHeap 1).Width + (exampleHeap 1).Pitch ∧
    (Attach exampleHeap 2 1 2 3 10 8 2).Pitch + (Attach exampleHeap 2 1 2 3 10 8 2).XAdd
        + (Attach exampleHeap 2 1 2 3 10 8 2).Width
      = (exampleHeap 1).Width + (exampleHeap 1).Pitch ∧
    (∀ px py : Int,
      (Attach exampleHeap 2 1 2 3 10 8 2).Offset
          + py * ((Attach exampleHeap 2 1 2 3 10 8 2).Pitch
            + (Attach exampleHeap 2 1 2 3 10 8 2).XAdd
            + (Attach exampleHeap 2 1 2 3 10 8 2).Width) + px
        = (exampleHeap 1).Offset
          + ((Attach exampleHeap 2 1 2 3 10 8 2).YPos + py)
            * ((exampleHeap 1).Width + (exampleHeap 1).Pitch)
          + ((Attach exampleHeap 2 1 2 3 10 8 2).XPos + px)) ∧
    ((1 : Nat) ≠ 2 → Attach exampleHeap 2 1 2 3 10 8 1 = exampleHeap 1)) :=
  ⟨by decide, by decide, by decide,
   Attach_stride_identity exampleHeap 2 1 2 3 10 8 (by decide)⟩

/-- C35: for an accepted call of Linear_Blit_To_Linear with the colour key
(use_key != 0) between two viewports with the same row stride (as two viewports
over one buffer have), the rows of the stride not overlapping each other, and
wherever the source and destination rectangles lie, overlapping in either
direction or not: for every pixel (i, j) of the clipped rectangle the call
returns and the destination pixel is the source pixel as it was before the call
if that is not 0, and the destination pixel's own value before the call
otherwise, as in the keyed composition from a snapshot of the buffer. -/
theorem Linear_Blit_To_Linear_keyed_overlap (this dst_vp : GraphicViewPortClass)
    (src_x src_y dst_x dst_y w h use_key : Int) (mem : Memory) (i j : Int)
    (hkey : use_key ≠ 0)
    (hacc : ¬ blitRejected this dst_vp src_x src_y dst_x dst_y w h)
    (hi0 : 0 ≤ i) (hi : i < clipH dst_vp dst_y h) (hj0 : 0 ≤ j) (hj : j < clipW dst_vp dst_x w)
    (hsame : rowStride this = rowStride dst_vp)
    (hpad : 0 ≤ dst_vp.Pitch + dst_vp.XAdd) :
    ∃ mem1, Linear_Blit_To_Linear this dst_vp src_x src_y dst_x dst_y w h use_key mem = some mem1 ∧
      mem1 (pixelAddr dst_vp (max 0 dst_x + j) (max 0 dst_y + i))
        = if mem (pixelAddr this (max 0 src_x + j) (max 0 src_y + i)) ≠ 0
          then mem (pixelAddr this (max 0 src_x + j) (max 0 src_y + i))
          else mem (pixelAddr dst_vp (max 0 dst_x + j) (max 0 dst_y + i)) := by
  obtain ⟨mem1, h1, h2⟩ := Linear_Blit_To_Linear_pixel_same_stride this dst_vp src_x src_y dst_x
    dst_y w h use_key mem i j hacc hi0 hi hj0 hj hsame hpad
  refine ⟨mem1, h1, ?_⟩
  rw [if_pos hkey] at h2
  exact h2

/-- C35 at concrete calls: on the 20x20 example surface, whose byte at address a
is a mod 256, columns 0..3 of rows 0 and 1 hold 232, 233, 234, 235 and 0, 1, 2, 3
(pixel (0, 1) at address 1024 is 0).  The 3x2 region at (0, 0) is blitted with the
colour key onto the region at (1, 0) (reverse scan), and the 3x2 region at (1, 0)
onto the region at (0, 0) (forward scan): every destination pixel has afterwards
what the source pixel had before, and pixel (1, 1) of the first call, whose
source pixel is 0, keeps its 1; and the theorem at that pixel. -/
theorem Linear_Blit_To_Linear_keyed_overlap_witness :
    (Linear_Blit_To_Linear (exampleHeap 1) (exampleHeap 1) 0 0 1 0 3 2 1 exampleMemory).map
        (fun mem1 => (List.range 8).map
          (fun k => mem1 (pixelAddr (exampleHeap 1) ((k % 4 : Nat) : Int) ((k / 4 : Nat) : Int))))
      = some [232, 232, 233, 234, 0, 1, 1, 2] ∧
    (Linear_Blit_To_Linear (exampleHeap 1) (exampleHeap 1) 1 0 0 0 3 2 1 exampleMemory).map
        (fun mem1 => (List.range 8).map
          (fun k => mem1 (pixelAddr (exampleHeap 1) ((k % 4 : Nat) : Int) ((k / 4 : Nat) : Int))))
      = some [233, 234, 235, 235, 1, 2, 3, 3] ∧
    (List.range 8).map
        (fun k => exampleMemory (pixelAddr (exampleHeap 1) ((k % 4 : Nat) : Int)
          ((k / 4 : Nat) : Int)))
      = [232, 233, 234, 235, 0, 1, 2, 3] ∧
    ((1 : Int) ≠ 0 ∧ ¬ blitRejected (exampleHeap 1) (exampleHeap 1) 0 0 1 0 3 2 ∧
     (0 : Int) ≤ 1 ∧ (1 : Int) < clipH (exampleHeap 1) 0 2 ∧
     (0 : Int) ≤ 0 ∧ (0 : Int) < clipW (exampleHeap 1) 1 3 ∧
     rowStride (exampleHeap 1) = rowStride (exampleHeap 1) ∧
     0 ≤ (exampleHeap 1).Pitch + (exampleHeap 1).XAdd) ∧
    (∃ mem1, Linear_Blit_To_Linear (exampleHeap 1) (exampleHeap 1) 0 0 1 0 3 2 1 exampleMemory
        = some mem1 ∧
      mem1 (pixelAddr (exampleHeap 1) (max 0 1 + 0) (max 0 0 + 1))
        = if exampleMemory (pixelAddr (exampleHeap 1) (max 0 0 + 0) (max 0 0 + 1)) ≠ 0
          then exampleMemory (pixelAddr (exampleHeap 1) (max 0 0 + 0) (max 0 0 + 1))
          else exampleMemory (pixelAddr (exampleHeap 1) (max 0 1 + 0) (max 0 0 + 1))) :=
  ⟨by decide, by decide, by decide, by decide,
   Linear_Blit_To_Linear_keyed_overlap (exampleHeap 1) (exampleHeap 1) 0 0 1 0 3 2 1
     exampleMemory 1 0 (by decide) (by decide) (by decide) (by decide) (by decide) (by decide)
     (by decide) (by decide)⟩

/-- Colour-key steps leave a byte alone that is the destination of none of them. -/
theorem keyPixels_frame (d s : Int) (p : Int) :
    ∀ (l : List Nat) (mem : Memory), (∀ i ∈ l, p ≠ d + (i : Int)) →
      (l.foldl (keyPixel d s) mem) p = mem p := by
  intro l
  induction l with
  | nil => intro mem _; rfl
  | cons a t ih =>
    intro mem h
    simp only [List.foldl_cons]
    rw [ih (keyPixel d s mem a) (fun i hi => h i (List.mem_cons_of_mem a hi)), keyPixel_apply]
    have hne : p ≠ d + (a : Int) := h a (List.mem_cons_self a t)
    simp only [if_neg hne, ite_self]

/-- One row of a blit leaves every byte outside the `w` bytes at `d` as it was,
whatever the source is and however the two rows lie. -/
theorem blitRow_frame (use_key : Int) (reverse : Bool) (w : Int) (mem : Memory) (d s p : Int)
    (hout : ¬ (d ≤ p ∧ p < d + w)) :
    blitRow use_key reverse w mem d s p = mem p := by
  by_cases hk : use_key ≠ 0
  · have hfr : ∀ i : Nat, i < w.toNat → p ≠ d + (i : Int) := by
      intro i hi e
      apply hout
      omega
    cases reverse
    · simp only [blitRow, if_pos hk, Bool.false_eq_true, if_false, keyRowForward]
      exact keyPixels_frame d s p _ mem (fun i hi => hfr i (List.mem_range.mp hi))
    · simp only [blitRow, if_pos hk, if_true, keyRowReverse]
      exact keyPixels_frame d s p _ mem
        (fun i hi => hfr i (List.mem_range.mp (List.mem_reverse.mp hi)))
  · simp only [blitRow, if_neg hk, moveRow_apply, if_neg hout]

/-- A blit of `n` rows of `w` columns leaves every byte outside its destination
rows as it was, in either scan direction and with or without the colour key. -/
theorem blitRows_frame (use_key : Int) (reverse : Bool) (D S dp sp w : Int) (n : Nat)
    (mem : Memory) (p : Int)
    (hout : ∀ k : Nat, k < n → ¬ (D + (k : Int) * dp ≤ p ∧ p < D + (k : Int) * dp + w)) :
    blitRows use_key reverse D S dp sp w n mem p = mem p := by
  have hmem : ∀ k : Nat, k ∈ (if reverse = true then (List.range n).reverse else List.range n) →
      k < n := by
    intro k hk
    split_ifs at hk
    · exact List.mem_range.mp (List.mem_reverse.mp hk)
    · exact List.mem_range.mp hk
  exact foldl_rows_frame
    (fun (k : Nat) (m : Memory) => blitRow use_key reverse w m (D + k * dp) (S + k * sp))
    (fun (k : Nat) (q : Int) => D + (k : Int) * dp ≤ q ∧ q < D + (k : Int) * dp + w)
    p _ mem
    (fun k _ m hW => blitRow_frame use_key reverse w m _ _ p hW)
    (fun k hk => hout k (hmem k hk))

/-- A row loop whose body always has a result, entered with a count `n` that is
not negative, ends exactly when the fuel allows `n` passes. -/
theorem whileRows_isSome (f : BlitState → BlitState) :
    ∀ (fuel n : Nat) (s : BlitState),
      (whileRows (fun s => some (f s)) fuel (n : Int) s).isSome = true ↔ n ≤ fuel := by
  intro fuel
  induction fuel with
  | zero =>
    intro n s
    cases n with
    | zero => simp [whileRows]
    | succ k =>
      have hne : ((k + 1 : Nat) : Int) ≠ 0 := by omega
      simp only [whileRows, if_pos hne, Option.isSome_none]
      constructor
      · intro hc; exact absurd hc (by decide)
      · intro hc; omega
  | succ fuel ih =>
    intro n s
    cases n with
    | zero => simp [whileRows]
    | succ k =>
      have hne : ((k + 1 : Nat) : Int) ≠ 0 := by omega
      have hdec : ((k + 1 : Nat) : Int) - 1 = (k : Int) := by omega
      simp only [whileRows, if_pos hne, Option.some_bind, hdec, ih k (f s)]
      omega

/-- C38, counterexample: an input that passes the rejection check and has a
negative clipped size.  The destination of width 0 left by
Attach(surface, 0, 0, 0, 5) accepts dst_x = -1 (-1 >= 0 is false); dst_x is
clamped to 0 and, as 0 + 1 > 0, w becomes 0 - 1 - 0 = -1: the copy length of the
row is negative and the call has no defined result.  The destination of height 0
left by Attach(surface, 0, 0, 10, 0) accepts dst_y = -1 and h becomes -1: a row
loop entered with h = -1 does not end, whatever number of passes is allowed. -/
theorem Linear_Blit_To_Linear_negative_clip_counterexample :
    exampleZeroWidth.Width = 0 ∧
    ¬ blitRejected (exampleHeap 1) exampleZeroWidth 0 0 (-1) 0 1 1 ∧
    clipW exampleZeroWidth (-1) 1 = -1 ∧
    Linear_Blit_To_Linear (exampleHeap 1) exampleZeroWidth 0 0 (-1) 0 1 1 0 exampleMemory = none ∧
    exampleZeroHeight.Height = 0 ∧
    ¬ blitRejected (exampleHeap 1) exampleZeroHeight 0 0 0 (-1) 1 1 ∧
    clipH exampleZeroHeight (-1) 1 = -1 ∧
    (∀ (body : BlitState → Option BlitState) (fuel : Nat) (s : BlitState),
      whileRows body fuel (clipH exampleZeroHeight (-1) 1) s = none) := by
  refine ⟨by decide, by decide, by decide, rfl, by decide, by decide, by decide, ?_⟩
  intro body fuel s
  exact whileRows_negative body fuel _ s (by decide)

/-- C38, amended: for every input that passes the rejection check of
Linear_Blit_To_Linear on a destination viewport with Width >= 1 and Height >= 1,
the clipped h and w are both >= 0; a row loop `while (h-- != 0)` whose body has a
result ends after exactly h passes (with fewer passes allowed it has not ended,
with h it has), the per-row copy of w bytes has a result, and the call
returns. -/
theorem Linear_Blit_To_Linear_terminates (this dst_vp : GraphicViewPortClass)
    (src_x src_y dst_x dst_y w h use_key : Int) (mem : Memory)
    (hacc : ¬ blitRejected this dst_vp src_x src_y dst_x dst_y w h)
    (hW : 1 ≤ dst_vp.Width) (hH : 1 ≤ dst_vp.Height) :
    0 ≤ clipH dst_vp dst_y h ∧ 0 ≤ clipW dst_vp dst_x w ∧
    (∀ (f : BlitState → BlitState) (fuel : Nat) (s : BlitState),
      (whileRows (fun s => some (f s)) fuel (clipH dst_vp dst_y h) s).isSome = true
        ↔ (clipH dst_vp dst_y h).toNat ≤ fuel) ∧
    (∀ (m : Memory) (d s : Int), (memmove m d s (clipW dst_vp dst_x w)).isSome = true) ∧
    (Linear_Blit_To_Linear this dst_vp src_x src_y dst_x dst_y w h use_key mem).isSome = true := by
  have hh := clipH_nonneg this dst_vp src_x src_y dst_x dst_y w h hacc hH
  have hw := clipW_nonneg this dst_vp src_x src_y dst_x dst_y w h hacc hW
  refine ⟨hh, hw, ?_, ?_, ?_⟩
  · intro f fuel s
    have e : clipH dst_vp dst_y h = (((clipH dst_vp dst_y h).toNat : Nat) : Int) :=
      (Int.toNat_of_nonneg hh).symm
    have hiff := whileRows_isSome f fuel (clipH dst_vp dst_y h).toNat s
    rw [← e] at hiff
    exact hiff
  · intro m d s
    rw [memmove_eq_moveRow m d s _ hw]
    rfl
  · rw [Linear_Blit_To_Linear_eq_blitRows this dst_vp src_x src_y dst_x dst_y w h use_key mem
      hacc hh hw]
    rfl

/-- C38 (amended) at a concrete call: a 12x9 blit to (2, 1) of the attached 10x8
example viewport has the clipped size 7x6. -/
theorem Linear_Blit_To_Linear_terminates_witness :
    (¬ blitRejected (exampleHeap 1) (exampleAttached 2) 0 0 2 1 12 9 ∧
     1 ≤ (exampleAttached 2).Width ∧ 1 ≤ (exampleAttached 2).Height) ∧
    (clipW (exampleAttached 2) 2 12 = 7 ∧ clipH (exampleAttached 2) 1 9 = 6) ∧
    (0 ≤ clipH (exampleAttached 2) 1 9 ∧ 0 ≤ clipW (exampleAttached 2) 2 12 ∧
     (∀ (f : BlitState → BlitState) (fuel : Nat) (s : BlitState),
       (whileRows (fun s => some (f s)) fuel (clipH (exampleAttached 2) 1 9) s).isSome = true
         ↔ (clipH (exampleAttached 2) 1 9).toNat ≤ fuel) ∧
     (∀ (m : Memory) (d s : Int),
       (memmove m d s (clipW (exampleAttached 2) 2 12)).isSome = true) ∧
     (Linear_Blit_To_Linear (exampleHeap 1) (exampleAttached 2) 0 0 2 1 12 9 1
         exampleMemory).isSome = true) :=
  ⟨by decide, by decide,
   Linear_Blit_To_Linear_terminates (exampleHeap 1) (exampleAttached 2) 0 0 2 1 12 9 1
     exampleMemory (by decide) (by decide) (by decide)⟩

/-- The sample of position `a` lies below `n` exactly when `a` is below
`n * 65536`. -/
theorem shift16_lt_iff (a n : Int) : a >>> (16 : Nat) < n ↔ a < n * 65536 := by
  rw [Int.shiftRight_eq_div_pow]
  norm_num
  exact Int.ediv_lt_iff_lt_mul (by norm_num)

/-- Every column (or row) of a destination span `d` samples inside a source span
`s` exactly when the last one does. -/
theorem samples_inside_iff (s d : Int) (hs : 1 ≤ s) (hd : 1 ≤ d) :
    (∀ j : Int, 0 ≤ j → j < d → (j * (s * 65536 / d + 1)) >>> (16 : Nat) < s)
      ↔ (d - 1) * (s * 65536 / d + 1) < s * 65536 := by
  have hq0 : 0 ≤ s * 65536 / d := Int.ediv_nonneg (by omega) (by omega)
  constructor
  · intro hall
    exact (shift16_lt_iff _ _).mp (hall (d - 1) (by omega) (by omega))
  · intro hlast j hj0 hj
    rw [shift16_lt_iff]
    have h1 : j * (s * 65536 / d + 1) ≤ (d - 1) * (s * 65536 / d + 1) :=
      mul_le_mul_of_nonneg_right (by omega) (by omega)
    omega

/-- The last column samples inside the source span when the square of the
destination span is at most 65536 times the source span. -/
theorem last_sample_inside (s d : Int) (hd : 1 ≤ d) (hsq : d * d ≤ s * 65536) :
    (d - 1) * (s * 65536 / d + 1) < s * 65536 := by
  have hq : d ≤ s * 65536 / d := (Int.le_ediv_iff_mul_le (by omega)).mpr hsq
  have hm := Int.ediv_mul_le (s * 65536) (b := d) (by omega)
  nlinarith

/-- The sample of a position that is not negative is not negative. -/
theorem shift16_nonneg (a : Int) (ha : 0 ≤ a) : 0 ≤ a >>> (16 : Nat) := by
  rw [Int.shiftRight_eq_div_pow]
  exact Int.ediv_nonneg ha (by norm_num)

/-- C39, counterexample: an unclipped call with sizes in 1..32767 that samples
past the far edge of the source rectangle.  With srcW = 1 and dstW = 257 the
ratio is floor(65536 / 257) + 1 = 256, and column j = 256 samples
(256 * 256) >> 16 = 1, which is not below srcW = 1: scaling the 1x1 source at
address 0 (byte 1) to the 257x1 destination at address 100, the last destination
pixel, at address 356, receives the byte 2 of address 1, next to the source. -/
theorem Linear_Scale_To_Linear_sample_past_edge_counterexample :
    ((0 : Int) + 1 ≤ (exampleView 0 1 1).Width ∧ (0 : Int) + 1 ≤ (exampleView 0 1 1).Height ∧
     (0 : Int) + 257 ≤ (exampleView 100 257 1).Width ∧
     (0 : Int) + 1 ≤ (exampleView 100 257 1).Height) ∧
    (1 : Int) * 65536 / 257 + 1 = 256 ∧
    ((256 : Int) * ((1 : Int) * 65536 / 257 + 1)) >>> (16 : Nat) = 1 ∧
    ¬ (((256 : Int) * ((1 : Int) * 65536 / 257 + 1)) >>> (16 : Nat) < 1) ∧
    (Linear_Scale_To_Linear true (exampleView 0 1 1) (exampleView 100 257 1) 0 0 0 0 1 1 257 1
        false none examplePicture).map (fun mem1 => [mem1 100, mem1 355, mem1 356])
      = some [1, 1, 2] ∧
    examplePicture (pixelAddr (exampleView 0 1 1) 0 0) = 1 ∧
    examplePicture (pixelAddr (exampleView 0 1 1) 0 0 + 1) = 2 := by
  refine ⟨by decide, by decide, by decide, by decide, ?_, by decide, by decide⟩
  set_option maxRecDepth 100000 in decide

/-- C39, amended: for every unclipped Linear_Scale_To_Linear call with
1 <= srcW, srcH, dstW, dstH < 32768, in each of the four modes, the call returns,
having run the row and column loops with xRatio = floor(srcW * 65536 / dstW) + 1
and yRatio = floor(srcH * 65536 / dstH) + 1.  Every column samples inside the
nominal source rectangle, ((j * xRatio) >> 16) < srcW for all 0 <= j < dstW,
exactly when the last column does, (dstW - 1) * xRatio < srcW * 65536, and
likewise for the rows; that is the case whenever dstW * dstW <= srcW * 65536
(respectively dstH * dstH <= srcH * 65536), so for every destination span up to
256 and for every scaling down.  The positions stay below 2^31. -/
theorem Linear_Scale_To_Linear_sample_bounds (char_signed : Bool)
    (this dst_vp : GraphicViewPortClass)
    (src_x src_y dst_x dst_y srcW srcH dstW dstH : Int)
    (trans : Bool) (remap : Option Int) (mem : Memory)
    (hsw : 1 ≤ srcW) (hsw2 : srcW < 32768) (hsh : 1 ≤ srcH) (hsh2 : srcH < 32768)
    (hdw : 1 ≤ dstW) (hdw2 : dstW < 32768) (hdh : 1 ≤ dstH) (hdh2 : dstH < 32768)
    (hsx : 0 ≤ src_x) (hsxw : src_x + srcW ≤ this.Width + 1)
    (hsy : 0 ≤ src_y) (hsyh : src_y + srcH ≤ this.Height + 1)
    (hdx : 0 ≤ dst_x) (hdxw : dst_x + dstW ≤ dst_vp.Width + 1)
    (hdy : 0 ≤ dst_y) (hdyh : dst_y + dstH ≤ dst_vp.Height + 1) :
    Linear_Scale_To_Linear char_signed this dst_vp src_x src_y dst_x dst_y
        srcW srcH dstW dstH trans remap mem
      = some (scaleRows (scalePixel char_signed trans remap)
          (src_y * rowStride this + src_x + this.Offset)
          (dst_y * rowStride dst_vp + dst_x + dst_vp.Offset)
          (rowStride this) (rowStride dst_vp)
          (srcW * 65536 / dstW + 1) (srcH * 65536 / dstH + 1)
          dstW.toNat dstH.toNat mem) ∧
    ((∀ j : Int, 0 ≤ j → j < dstW → (j * (srcW * 65536 / dstW + 1)) >>> (16 : Nat) < srcW)
      ↔ (dstW - 1) * (srcW * 65536 / dstW + 1) < srcW * 65536) ∧
    ((∀ i : Int, 0 ≤ i → i < dstH → (i * (srcH * 65536 / dstH + 1)) >>> (16 : Nat) < srcH)
      ↔ (dstH - 1) * (srcH * 65536 / dstH + 1) < srcH * 65536) ∧
    (dstW * dstW ≤ srcW * 65536 → ∀ j : Int, 0 ≤ j → j < dstW →
      0 ≤ (j * (srcW * 65536 / dstW + 1)) >>> (16 : Nat)
      ∧ (j * (srcW * 65536 / dstW + 1)) >>> (16 : Nat) < srcW
      ∧ j * (srcW * 65536 / dstW + 1) < 2147483648) ∧
    (dstH * dstH ≤ srcH * 65536 → ∀ i : Int, 0 ≤ i → i < dstH →
      0 ≤ (i * (srcH * 65536 / dstH + 1)) >>> (16 : Nat)
      ∧ (i * (srcH * 65536 / dstH + 1)) >>> (16 : Nat) < srcH
      ∧ i * (srcH * 65536 / dstH + 1) < 2147483648) := by
  refine ⟨?_, samples_inside_iff srcW dstW hsw hdw, samples_inside_iff srcH dstH hsh hdh, ?_, ?_⟩
  · rw [Linear_Scale_To_Linear_unclipped char_signed this dst_vp src_x src_y dst_x dst_y
      srcW srcH dstW dstH trans remap mem (by omega) (by omega) (by omega) (by omega) hsx hsy
      hsxw hsyh hdx hdy hdxw hdyh,
      ratio_tdiv_eq srcW dstW (by omega) (by omega),
      ratio_tdiv_eq srcH dstH (by omega) (by omega)]
  · intro hsq j hj0 hj
    have hq0 : 0 ≤ srcW * 65536 / dstW := Int.ediv_nonneg (by omega) (by omega)
    refine ⟨shift16_nonneg _ (mul_nonneg hj0 (by omega)), ?_,
      ratio_position_bound srcW dstW j hsw hsw2 hdw hdw2 hj⟩
    exact (samples_inside_iff srcW dstW hsw hdw).mpr (last_sample_inside srcW dstW hdw hsq)
      j hj0 hj
  · intro hsq i hi0 hi
    have hq0 : 0 ≤ srcH * 65536 / dstH := Int.ediv_nonneg (by omega) (by omega)
    refine ⟨shift16_nonneg _ (mul_nonneg hi0 (by omega)), ?_,
      ratio_position_bound srcH dstH i hsh hsh2 hdh hdh2 hi⟩
    exact (samples_inside_iff srcH dstH hsh hdh).mpr (last_sample_inside srcH dstH hdh hsq)
      i hi0 hi

/-- C39 (amended) at a concrete call: scaling the 2x2 example picture to 4x4 with
transparency, 4 * 4 <= 2 * 65536: every column and row samples inside the 2x2
source rectangle. -/
theorem Linear_Scale_To_Linear_sample_bounds_witness :
    ((0 : Int) + 2 ≤ (exampleView 0 2 2).Width + 1 ∧ (0 : Int) + 2 ≤ (exampleView 0 2 2).Height + 1 ∧
     (0 : Int) + 4 ≤ (exampleView 100 4 4).Width + 1 ∧
     (0 : Int) + 4 ≤ (exampleView 100 4 4).Height + 1 ∧
     (4 : Int) * 4 ≤ 2 * 65536) ∧
    (∀ j : Int, 0 ≤ j → j < 4 →
      0 ≤ (j * ((2 : Int) * 65536 / 4 + 1)) >>> (16 : Nat)
      ∧ (j * ((2 : Int) * 65536 / 4 + 1)) >>> (16 : Nat) < 2
      ∧ j * ((2 : Int) * 65536 / 4 + 1) < 2147483648) ∧
    Linear_Scale_To_Linear true (exampleView 0 2 2) (exampleView 100 4 4) 0 0 0 0 2 2 4 4
        true none examplePicture
      = some (scaleRows (scalePixel true true none)
          (0 * rowStride (exampleView 0 2 2) + 0 + (exampleView 0 2 2).Offset)
          (0 * rowStride (exampleView 100 4 4) + 0 + (exampleView 100 4 4).Offset)
          (rowStride (exampleView 0 2 2)) (rowStride (exampleView 100 4 4))
          ((2 : Int) * 65536 / 4 + 1) ((2 : Int) * 65536 / 4 + 1)
          (4 : Int).toNat (4 : Int).toNat examplePicture) :=
  ⟨by decide,
   (Linear_Scale_To_Linear_sample_bounds true (exampleView 0 2 2) (exampleView 100 4 4)
      0 0 0 0 2 2 4 4 true none examplePicture (by decide) (by decide) (by decide) (by decide)
      (by decide) (by decide) (by decide) (by decide) (by decide) (by decide) (by decide)
      (by decide) (by decide) (by decide) (by decide) (by decide)).2.2.2.1 (by decide),
   (Linear_Scale_To_Linear_sample_bounds true (exampleView 0 2 2) (exampleView 100 4 4)
      0 0 0 0 2 2 4 4 true none examplePicture (by decide) (by decide) (by decide) (by decide)
      (by decide) (by decide) (by decide) (by decide) (by decide) (by decide) (by decide)
      (by decide) (by decide) (by decide) (by decide) (by decide)).1⟩

/-- `Linear_Blit_To_Linear` is the rejection test, then the choice between its two
branches by the comparison of the start addresses. -/
theorem Linear_Blit_To_Linear_eq_branches (this dst_vp : GraphicViewPortClass)
    (src_x src_y dst_x dst_y w h use_key : Int) (mem : Memory) :
    Linear_Blit_To_Linear this dst_vp src_x src_y dst_x dst_y w h use_key mem
      = if blitRejected this dst_vp src_x src_y dst_x dst_y w h then some mem
        else if pixelAddr this (max 0 src_x) (max 0 src_y)
            < pixelAddr dst_vp (max 0 dst_x) (max 0 dst_y) then
          blitReverseBranch use_key (pixelAddr dst_vp (max 0 dst_x) (max 0 dst_y))
            (pixelAddr this (max 0 src_x) (max 0 src_y)) (rowStride dst_vp) (rowStride this)
            (clipW dst_vp dst_x w) (clipH dst_vp dst_y h) mem
        else
          blitForwardBranch use_key (pixelAddr dst_vp (max 0 dst_x) (max 0 dst_y))
            (pixelAddr this (max 0 src_x) (max 0 src_y)) (rowStride dst_vp) (rowStride this)
            (clipW dst_vp dst_x w) (clipH dst_vp dst_y h) mem := by
  by_cases hacc : blitRejected this dst_vp src_x src_y dst_x dst_y w h
  · have hacc2 : src_x ≥ this.Width ∨ src_y ≥ this.Height ∨ dst_x ≥ dst_vp.Width
        ∨ dst_y ≥ dst_vp.Height ∨ h < 0 ∨ w < 1 := hacc
    simp only [Linear_Blit_To_Linear, if_pos hacc2, if_pos hacc]
  · have hacc2 : ¬ (src_x ≥ this.Width ∨ src_y ≥ this.Height ∨ dst_x ≥ dst_vp.Width
        ∨ dst_y ≥ dst_vp.Height ∨ h < 0 ∨ w < 1) := hacc
    simp only [Linear_Blit_To_Linear, if_neg hacc2, if_neg hacc, blitReverseBranch,
      blitForwardBranch, pixelAddr, rowStride, clipW, clipH]

/-- Pixel (i, j) of a blit of `n` rows of `w` columns whose destination bytes are
none of its source bytes and whose destination rows do not overlap, in either
scan direction: the source pixel as it was, or, with the colour key and a source
byte 0, the pixel's own old value. -/
theorem blitRows_pixel_of_disjoint (use_key : Int) (reverse : Bool) (D S dp sp w : Int) (n : Nat)
    (mem : Memory) (hstride : w ≤ dp)
    (hne : ∀ k k1 : Nat, k < n → k1 < n → ∀ c c1 : Int, 0 ≤ c → c < w → 0 ≤ c1 → c1 < w →
      D + (k : Int) * dp + c ≠ S + (k1 : Int) * sp + c1)
    (i : Nat) (hi : i < n) (j : Int) (hj0 : 0 ≤ j) (hjw : j < w) :
    blitRows use_key reverse D S dp sp w n mem (D + i * dp + j)
      = if use_key ≠ 0 then
          (if mem (S + i * sp + j) ≠ 0 then mem (S + i * sp + j) else mem (D + i * dp + j))
        else mem (S + i * sp + j) := by
  refine blitRows_pixel use_key reverse D S dp sp w n mem ?_ ?_ ?_ i hi j hj0 hjw
  · intro k hk _
    right; right
    by_contra hcon
    push_neg at hcon
    by_cases hle : D + (k : Int) * dp ≤ S + (k : Int) * sp
    · exact hne k k hk hk (S + (k : Int) * sp - (D + (k : Int) * dp)) 0
        (by omega) (by omega) (le_refl 0) (by omega) (by ring)
    · exact hne k k hk hk 0 (D + (k : Int) * dp - (S + (k : Int) * sp))
        (le_refl 0) (by omega) (by omega) (by omega) (by ring)
  · intro k k1 hk hk1 _ c c1 hc0 hc hc10 hc1
    exact hne k k1 hk hk1 c c1 hc0 hc hc10 hc1
  · intro k k1 _ _ hkk c c1 hc0 hc hc10 hc1
    exact rows_disjoint _ _ _ hstride k k1 hkk c c1 hc0 hc hc10 hc1

/-- A blit whose destination bytes are none of its source bytes and whose
destination rows do not overlap leaves the same memory whether its rows are done
last row first or first row first. -/
theorem blitRows_direction (use_key : Int) (D S dp sp w : Int) (n : Nat) (mem : Memory)
    (hstride : w ≤ dp)
    (hne : ∀ k k1 : Nat, k < n → k1 < n → ∀ c c1 : Int, 0 ≤ c → c < w → 0 ≤ c1 → c1 < w →
      D + (k : Int) * dp + c ≠ S + (k1 : Int) * sp + c1) :
    blitRows use_key true D S dp sp w n mem = blitRows use_key false D S dp sp w n mem := by
  funext p
  by_cases hp : ∃ k : Nat, k < n ∧ D + (k : Int) * dp ≤ p ∧ p < D + (k : Int) * dp + w
  · obtain ⟨k, hk, h1, h2⟩ := hp
    have e : p = D + (k : Int) * dp + (p - (D + (k : Int) * dp)) := by ring
    rw [e, blitRows_pixel_of_disjoint use_key true D S dp sp w n mem hstride hne k hk _
        (by omega) (by omega),
      blitRows_pixel_of_disjoint use_key false D S dp sp w n mem hstride hne k hk _
        (by omega) (by omega)]
  · have hout : ∀ k : Nat, k < n →
        ¬ (D + (k : Int) * dp ≤ p ∧ p < D + (k : Int) * dp + w) :=
      fun k hk hin => hp ⟨k, hk, hin⟩
    rw [blitRows_frame use_key true D S dp sp w n mem p hout,
      blitRows_frame use_key false D S dp sp w n mem p hout]

/-- The reverse branch, entered with a clipped size that is not negative, returns
the blit of the rows done last row first. -/
theorem blitReverseBranch_eq (use_key : Int) (D S dp sp w : Int) (n : Nat) (mem : Memory)
    (hw : 0 ≤ w) :
    blitReverseBranch use_key D S dp sp w (n : Int) mem
      = some (blitRows use_key true D S dp sp w n mem) := by
  by_cases hk : use_key ≠ 0
  · simp only [blitReverseBranch, if_pos hk, Int.toNat_ofNat]
    rw [whileRows_reverse (fun m d s => keyRowReverse m d s w)]
    simp only [Option.map_some', blitRows, blitRow_key_reverse _ _ hk, if_true]
  · simp only [blitReverseBranch, if_neg hk, Int.toNat_ofNat, memmove_eq_moveRow _ _ _ _ hw,
      Option.map_some']
    rw [whileRows_reverse (fun m d s => moveRow w m d s)]
    simp only [Option.map_some', blitRows, blitRow_move _ _ _ hk, if_true]

/-- The forward branch, entered with a clipped size that is not negative, returns
the blit of the rows done first row first. -/
theorem blitForwardBranch_eq (use_key : Int) (D S dp sp w : Int) (n : Nat) (mem : Memory)
    (hw : 0 ≤ w) :
    blitForwardBranch use_key D S dp sp w (n : Int) mem
      = some (blitRows use_key false D S dp sp w n mem) := by
  by_cases hk : use_key ≠ 0
  · simp only [blitForwardBranch, if_pos hk, Int.toNat_ofNat]
    rw [whileRows_forward (fun m d s => keyRowForward m d s w)]
    simp only [Option.map_some', blitRows, blitRow_key_forward _ _ hk, Bool.false_eq_true,
      if_false]
  · simp only [blitForwardBranch, if_neg hk, Int.toNat_ofNat, memmove_eq_moveRow _ _ _ _ hw,
      Option.map_some']
    rw [whileRows_forward (fun m d s => moveRow w m d s)]
    simp only [Option.map_some', blitRows, blitRow_move _ _ _ hk, Bool.false_eq_true, if_false]

/-- The two branches of `Linear_Blit_To_Linear`, entered with the same start
addresses, strides and clipped size, have the same result when the destination
bytes are none of the source bytes and the destination rows do not overlap: the
same memory, or for both no result (a negative clipped height, or a negative
copy length with at least one row). -/
theorem blit_branches_agree (use_key : Int) (D S dp sp w h : Int) (mem : Memory)
    (hstride : w ≤ dp)
    (hne : ∀ k k1 : Nat, (k : Int) < h → (k1 : Int) < h →
      ∀ c c1 : Int, 0 ≤ c → c < w → 0 ≤ c1 → c1 < w →
      D + (k : Int) * dp + c ≠ S + (k1 : Int) * sp + c1) :
    blitReverseBranch use_key D S dp sp w h mem = blitForwardBranch use_key D S dp sp w h mem := by
  by_cases hneg : h < 0
  · by_cases hk : use_key ≠ 0
    · simp only [blitReverseBranch, blitForwardBranch, if_pos hk]
      rw [whileRows_negative _ _ h _ hneg, whileRows_negative _ _ h _ hneg]
    · simp only [blitReverseBranch, blitForwardBranch, if_neg hk]
      rw [whileRows_negative _ _ h _ hneg, whileRows_negative _ _ h _ hneg]
  · obtain ⟨n, hn⟩ : ∃ n : Nat, h = (n : Int) := ⟨h.toNat, (Int.toNat_of_nonneg (by omega)).symm⟩
    subst hn
    have hne1 : ∀ k k1 : Nat, k < n → k1 < n → ∀ c c1 : Int, 0 ≤ c → c < w → 0 ≤ c1 → c1 < w →
        D + (k : Int) * dp + c ≠ S + (k1 : Int) * sp + c1 :=
      fun k k1 hk hk1 => hne k k1 (by omega) (by omega)
    by_cases hw : 0 ≤ w
    · rw [blitReverseBranch_eq use_key D S dp sp w n mem hw,
        blitForwardBranch_eq use_key D S dp sp w n mem hw,
        blitRows_direction use_key D S dp sp w n mem hstride hne1]
    · by_cases hk : use_key ≠ 0
      · have hR : blitReverseBranch use_key D S dp sp w (n : Int) mem
            = some (blitRows use_key true D S dp sp w n mem) := by
          simp only [blitReverseBranch, if_pos hk, Int.toNat_ofNat]
          rw [whileRows_reverse (fun m d s => keyRowReverse m d s w)]
          simp only [Option.map_some', blitRows, blitRow_key_reverse _ _ hk, if_true]
        have hF : blitForwardBranch use_key D S dp sp w (n : Int) mem
            = some (blitRows use_key false D S dp sp w n mem) := by
          simp only [blitForwardBranch, if_pos hk, Int.toNat_ofNat]
          rw [whileRows_forward (fun m d s => keyRowForward m d s w)]
          simp only [Option.map_some', blitRows, blitRow_key_forward _ _ hk, Bool.false_eq_true,
            if_false]
        rw [hR, hF, blitRows_direction use_key D S dp sp w n mem hstride hne1]
      · have hwneg : w < 0 := by omega
        cases n with
        | zero =>
          simp only [blitReverseBranch, blitForwardBranch, if_neg hk, Nat.cast_zero,
            whileRows_zero, Option.map_some']
        | succ k =>
          have hnz : ((k + 1 : Nat) : Int) ≠ 0 := by omega
          simp only [blitReverseBranch, blitForwardBranch, if_neg hk, Int.toNat_ofNat, whileRows,
            if_pos hnz, memmove, if_pos hwneg, Option.map_none', Option.none_bind]

/-- C36: for a source and a destination that are not aliased (no byte of the
clipped destination rectangle is a byte of the source rectangle, and the
destination rows do not overlap each other), the reverse branch of
Linear_Blit_To_Linear (rows last to first, taken when the source address is
below the destination address) and the forward branch have the same result for
the same arguments, with and without the colour key; so the result of the call
is that of either branch, whichever way the addresses compare. -/
theorem Linear_Blit_To_Linear_scan_direction (this dst_vp : GraphicViewPortClass)
    (src_x src_y dst_x dst_y w h use_key : Int) (mem : Memory)
    (hpad : 0 ≤ dst_vp.Pitch + dst_vp.XAdd)
    (hdisj : ∀ i1 j1 i2 j2 : Int, 0 ≤ i1 → i1 < clipH dst_vp dst_y h →
      0 ≤ j1 → j1 < clipW dst_vp dst_x w → 0 ≤ i2 → i2 < clipH dst_vp dst_y h →
      0 ≤ j2 → j2 < clipW dst_vp dst_x w →
      pixelAddr dst_vp (max 0 dst_x + j1) (max 0 dst_y + i1)
        ≠ pixelAddr this (max 0 src_x + j2) (max 0 src_y + i2)) :
    blitReverseBranch use_key (pixelAddr dst_vp (max 0 dst_x) (max 0 dst_y))
        (pixelAddr this (max 0 src_x) (max 0 src_y)) (rowStride dst_vp) (rowStride this)
        (clipW dst_vp dst_x w) (clipH dst_vp dst_y h) mem
      = blitForwardBranch use_key (pixelAddr dst_vp (max 0 dst_x) (max 0 dst_y))
        (pixelAddr this (max 0 src_x) (max 0 src_y)) (rowStride dst_vp) (rowStride this)
        (clipW dst_vp dst_x w) (clipH dst_vp dst_y h) mem ∧
    Linear_Blit_To_Linear this dst_vp src_x src_y dst_x dst_y w h use_key mem
      = (if blitRejected this dst_vp src_x src_y dst_x dst_y w h then some mem
         else blitReverseBranch use_key (pixelAddr dst_vp (max 0 dst_x) (max 0 dst_y))
          (pixelAddr this (max 0 src_x) (max 0 src_y)) (rowStride dst_vp) (rowStride this)
          (clipW dst_vp dst_x w) (clipH dst_vp dst_y h) mem) ∧
    Linear_Blit_To_Linear this dst_vp src_x src_y dst_x dst_y w h use_key mem
      = (if blitRejected this dst_vp src_x src_y dst_x dst_y w h then some mem
         else blitForwardBranch use_key (pixelAddr dst_vp (max 0 dst_x) (max 0 dst_y))
          (pixelAddr this (max 0 src_x) (max 0 src_y)) (rowStride dst_vp) (rowStride this)
          (clipW dst_vp dst_x w) (clipH dst_vp dst_y h) mem) := by
  have hwle := clipW_le dst_vp dst_x w
  have hstride : clipW dst_vp dst_x w ≤ rowStride dst_vp := by
    unfold rowStride; omega
  have hD : ∀ (k : Int) (c : Int), pixelAddr dst_vp (max 0 dst_x + c) (max 0 dst_y + k)
      = pixelAddr dst_vp (max 0 dst_x) (max 0 dst_y) + k * rowStride dst_vp + c := by
    intro k c; unfold pixelAddr; ring
  have hS : ∀ (k : Int) (c : Int), pixelAddr this (max 0 src_x + c) (max 0 src_y + k)
      = pixelAddr this (max 0 src_x) (max 0 src_y) + k * rowStride this + c := by
    intro k c; unfold pixelAddr; ring
  have hagree := blit_branches_agree use_key (pixelAddr dst_vp (max 0 dst_x) (max 0 dst_y))
    (pixelAddr this (max 0 src_x) (max 0 src_y)) (rowStride dst_vp) (rowStride this)
    (clipW dst_vp dst_x w) (clipH dst_vp dst_y h) mem hstride
    (by
      intro k k1 hk hk1 c c1 hc0 hc hc10 hc1
      rw [← hD, ← hS]
      exact hdisj k c k1 c1 (by omega) hk hc0 hc (by omega) hk1 hc10 hc1)
  refine ⟨hagree, ?_, ?_⟩
  · rw [Linear_Blit_To_Linear_eq_branches]
    split_ifs
    · rfl
    · rfl
    · exact hagree.symm
  · rw [Linear_Blit_To_Linear_eq_branches]
    split_ifs
    · rfl
    · exact hagree
    · rfl

/-- C36 at a concrete call: the source row 0, 5, 0, 7 at address 0 is blitted with
the colour key over the destination row 1, 1, 1, 1 at address 10.  The source
address is below the destination address, so the call takes the reverse branch;
the reverse branch and the forward branch both yield 1, 5, 1, 7, with the colour
key, and 0, 5, 0, 7 without. -/
theorem Linear_Blit_To_Linear_scan_direction_witness :
    (blitReverseBranch 1 10 0 4 4 4 1 exampleKeyMemory).map
        (fun mem1 => [mem1 10, mem1 11, mem1 12, mem1 13]) = some [1, 5, 1, 7] ∧
    (blitForwardBranch 1 10 0 4 4 4 1 exampleKeyMemory).map
        (fun mem1 => [mem1 10, mem1 11, mem1 12, mem1 13]) = some [1, 5, 1, 7] ∧
    (blitReverseBranch 0 10 0 4 4 4 1 exampleKeyMemory).map
        (fun mem1 => [mem1 10, mem1 11, mem1 12, mem1 13]) = some [0, 5, 0, 7] ∧
    (blitForwardBranch 0 10 0 4 4 4 1 exampleKeyMemory).map
        (fun mem1 => [mem1 10, mem1 11, mem1 12, mem1 13]) = some [0, 5, 0, 7] ∧
    (0 ≤ (exampleRow 10).Pitch + (exampleRow 10).XAdd ∧
     (∀ i1 j1 i2 j2 : Int, 0 ≤ i1 → i1 < clipH (exampleRow 10) 0 1 →
        0 ≤ j1 → j1 < clipW (exampleRow 10) 0 4 → 0 ≤ i2 → i2 < clipH (exampleRow 10) 0 1 →
        0 ≤ j2 → j2 < clipW (exampleRow 10) 0 4 →
        pixelAddr (exampleRow 10) (max 0 0 + j1) (max 0 0 + i1)
          ≠ pixelAddr (exampleRow 0) (max 0 0 + j2) (max 0 0 + i2))) ∧
    (blitReverseBranch 1 (pixelAddr (exampleRow 10) (max 0 0) (max 0 0))
        (pixelAddr (exampleRow 0) (max 0 0) (max 0 0)) (rowStride (exampleRow 10))
        (rowStride (exampleRow 0)) (clipW (exampleRow 10) 0 4) (clipH (exampleRow 10) 0 1)
        exampleKeyMemory
      = blitForwardBranch 1 (pixelAddr (exampleRow 10) (max 0 0) (max 0 0))
        (pixelAddr (exampleRow 0) (max 0 0) (max 0 0)) (rowStride (exampleRow 10))
        (rowStride (exampleRow 0)) (clipW (exampleRow 10) 0 4) (clipH (exampleRow 10) 0 1)
        exampleKeyMemory) := by
  have hd : ∀ i1 j1 i2 j2 : Int, 0 ≤ i1 → i1 < clipH (exampleRow 10) 0 1 →
      0 ≤ j1 → j1 < clipW (exampleRow 10) 0 4 → 0 ≤ i2 → i2 < clipH (exampleRow 10) 0 1 →
      0 ≤ j2 → j2 < clipW (exampleRow 10) 0 4 →
      pixelAddr (exampleRow 10) (max 0 0 + j1) (max 0 0 + i1)
        ≠ pixelAddr (exampleRow 0) (max 0 0 + j2) (max 0 0 + i2) := by
    intro i1 j1 i2 j2 h1 h2 h3 h4 h5 h6 h7 h8
    simp [pixelAddr, rowStride, exampleRow, clipH, clipW] at *
    omega
  exact ⟨by decide, by decide, by decide, by decide, ⟨by decide, hd⟩,
    (Linear_Blit_To_Linear_scan_direction (exampleRow 0) (exampleRow 10) 0 0 0 0 4 1 1
      exampleKeyMemory (by decide) hd).1⟩
